import Mathlib

/-!
# epistatest: the scenario execution engine

A shallow embedding of `pkg/epistatest/scenarioimpl.go`.

Go code that mutates a store through a client handle becomes explicit state
passing over a world state `W` (the contents of the fake client's store plus
whatever else the user's closures can change).  Every call the engine makes to
a collaborator (schema callback, initial-state producer, key producer,
reconciler, store fetch, predicate, action) is also written to a trace, so that
"is invoked n times", "is not evaluated" and "happens immediately after" are
statements about the trace the engine produces.

Type parameters used throughout:
* `W`   - world state (the store once it is built, and captured test state);
* `T`   - the scenario's resource type (Go type parameter `T`);
* `Obj` - arbitrary `client.Object` values (initial objects, created objects);
* `Sch` - the state of a `runtime.Scheme`.
-/

namespace Epistatest

/-! ## Go values the engine handles -/

/-- Mirror of `types.NamespacedName`: the key of a record. -/
structure NamespacedName where
  Name : String
  Namespace : String
deriving DecidableEq, Repr

/-- Go `error` values, as far as the engine can tell them apart: by their text
(`Error()`), by their unwrap chain, and by the two tests the engine performs on
them (`errors.Is(err, reconcile.TerminalError(nil))` and `k8serr.IsNotFound`). -/
inductive GoError where
  /-- An error with no special role, such as `errors.New(text)`. -/
  | plain (text : String)
  /-- A Kubernetes API status error whose reason is NotFound. -/
  | notFound (text : String)
  /-- The value `reconcile.TerminalError(nil)`. -/
  | terminalNil
  /-- The value `reconcile.TerminalError(cause)` for a non-nil cause. -/
  | terminal (cause : GoError)
  /-- The value `fmt.Errorf(format, ..., inner)` with one `%w` verb; `text` is the formatted text. -/
  | wrap (text : String) (inner : GoError)
deriving DecidableEq, Repr

/-- The method `Error()`. -/
def GoError.Error : GoError → String
  | .plain text => text
  | .notFound text => text
  | .terminalNil => "nil terminal error"
  | .terminal cause => "terminal error: " ++ cause.Error
  | .wrap text _ => text

/-- The test `errors.Is(err, reconcile.TerminalError(nil))` on a non-nil error: true as
soon as the unwrap chain of `err` holds a terminal error. -/
def GoError.isTerminal : GoError → Bool
  | .plain _ => false
  | .notFound _ => false
  | .terminalNil => true
  | .terminal _ => true
  | .wrap _ inner => inner.isTerminal

/-- The test `k8serr.IsNotFound(err)` on a non-nil error: the unwrap chain of `err`
holds a status error whose reason is NotFound. -/
def GoError.isNotFound : GoError → Bool
  | .plain _ => false
  | .notFound _ => true
  | .terminalNil => false
  | .terminal cause => cause.isNotFound
  | .wrap _ inner => inner.isNotFound

/-- The test `errors.Is(err, reconcile.TerminalError(nil))` on a possibly nil error. -/
def errorsIsTerminal : Option GoError → Bool
  | none => false
  | some e => e.isTerminal

/-- The test `k8serr.IsNotFound(err)` on a possibly nil error. -/
def IsNotFound : Option GoError → Bool
  | none => false
  | some e => e.isNotFound

/-- The handle stored in the scenario's `client` field: the fake client built by
`setupEnv` from a scheme and the initial objects.  The contents of its store are
part of the world state. -/
structure ClientRef (Obj Sch : Type) where
  scheme : Sch
  objs : List Obj

/-- A value of the reconciler type `R`, of which the engine only touches the field
named `Client`. -/
structure Reconciler (Obj Sch : Type) where
  Client : Option (ClientRef Obj Sch)

/-- What a call can do besides running forever: return, or panic (nil dereference,
index out of range). -/
inductive Outcome (α : Type) where
  | returned (value : α)
  | panicked
deriving DecidableEq, Repr

/-- One call from the engine to a collaborator.  Events of the steps carry the
zero-based index of the step and the world state at the moment of the call. -/
inductive Event (W T : Type) where
  /-- The schema callback registered at position `i` is invoked. -/
  | addToScheme (i : Nat)
  /-- The initial-state producer is invoked. -/
  | setup
  /-- The fake client (the store) is built. -/
  | buildClient
  /-- A reconciler value is created (`new(R)`). -/
  | newReconciler
  /-- The key producer of step `idx` is invoked. -/
  | nextReq (idx : Nat) (w : W)
  /-- The reconciler is invoked with request `req`. -/
  | reconcile (idx : Nat) (req : NamespacedName) (w : W)
  /-- The record at `key` is fetched from the store. -/
  | get (idx : Nat) (key : NamespacedName) (w : W)
  /-- The predicate of step `idx` is evaluated on `obj` and answers `res`. -/
  | waitFor (idx : Nat) (w : W) (obj : T) (res : Bool)
  /-- The action of step `idx` is invoked on `obj`. -/
  | action (idx : Nat) (w : W) (obj : T)
deriving DecidableEq, Repr

/-- What the reflection of `createReconcilerWithClient` meets in a zeroed value of the
reconciler type `R` when it looks for the field named `Client` and sets it. -/
inductive ClientField where
  /-- The type `R` is not a struct (a pointer to a struct, a func type, ...): it has no fields,
  and `FieldByName` panics. -/
  | notStruct
  /-- The type `R` is a struct with no field named `Client`: `FieldByName` returns the zero
  `Value`, which is not valid. -/
  | missing
  /-- The type `R` is a struct with a field named `Client` that cannot be given the client: the
  client is not assignable to the type of the field, or the field is promoted through an
  embedded struct that is unexported or behind a nil pointer.  Reaching or setting it panics. -/
  | unsettable
  /-- The type `R` is a struct with a field named `Client` in which `Set` stores the client. -/
  | settable
deriving DecidableEq, Repr

/-- The collaborators the engine is linked against: the reconciler type `R`, the
resource type `T`, the scheme and the fake client of controller-runtime. -/
structure Collaborators (W T Obj Sch : Type) where
  /-- The name `reflect.TypeOf(new(R)).Elem().Name()`. -/
  reconcilerTypeName : String
  /-- What reflection meets in the type `R` for the field named `Client`. -/
  reconcilerClientField : ClientField
  /-- The method `R.Reconcile` of a reconciler bound to the store: returned error and new world. -/
  Reconcile : W → NamespacedName → Option GoError × W
  /-- The zeroed record `reflect.New(reflect.TypeOf(*new(T)).Elem())`. -/
  zeroObject : T
  /-- The field `Name` of a record of type `T`. -/
  objectName : T → String
  /-- A zeroed record has the empty name. -/
  zeroObject_name : objectName zeroObject = ""
  /-- The call `runtime.NewScheme()`. -/
  NewScheme : Sch
  /-- The world once the store of
  `fake.NewClientBuilder().WithScheme(scheme).WithObjects(objs...).WithStatusSubresource(objs...).Build()`
  is in it. -/
  Build : W → Sch → List Obj → W
  /-- The call `client.Get(ctx, key, obj)` for an `obj` of type `T`: the record read, or the
  error, in which case the record passed in is left as it was. -/
  Get : W → NamespacedName → Except GoError T
  /-- The call `client.Create(ctx, obj, opts)`: the error, the object behind the pointer as the
  call left it (a store may fill in fields such as a generated name), and the new world. -/
  Create : W → Obj → Option GoError × Obj × W
  /-- The call `client.Status().Update(ctx, obj)`: the error, the object as the call left it,
  and the new world. -/
  StatusUpdate : W → Obj → Option GoError × Obj × W
  /-- The method `GetName` of a `client.Object`. -/
  GetName : Obj → String
  /-- The method `GetNamespace` of a `client.Object`. -/
  GetNamespace : Obj → String

/-! ## The scenario -/

/-- Mirror of `reconcileStep[T]`.  A field holding a Go func is `none` when the func is nil.
* `waitFor` may change the store through the client and the record through the pointer it
  is given, so it returns its answer with the new world and the record as it left it;
* `action` returns the new world;
* `nextReq` reads the scenario's `client` field when invoked, and returns the pair
  `(types.NamespacedName, error)` with the new world, or panics. -/
structure reconcileStep (W T Obj Sch : Type) where
  label : String
  waitFor : Option (W → T → Bool × W × T)
  action : Option (W → T → W)
  nextReq : Option (Option (ClientRef Obj Sch) → W → Outcome ((NamespacedName × Option GoError) × W))

/-- Mirror of `scenario[R, T]`.  The initial-state producer `setup` is a Go closure: what it
returns may depend on the state of what it captured at the moment it is invoked, so it reads
the world. -/
structure scenario (W T Obj Sch : Type) where
  maxReconciles : Int
  schemes : List (Sch → Option GoError × Sch)
  setup : Option (W → List Obj)
  steps : List (reconcileStep W T Obj Sch)
  reconciler : Option (Reconciler Obj Sch)
  client : Option (ClientRef Obj Sch)

variable {W T Obj Sch : Type}

/-- The constant `defaultMaxReconciles`. -/
def defaultMaxReconciles : Int := 20

/-- The constructor `newScenario`: every field zero but the budget. -/
def newScenario : scenario W T Obj Sch :=
  { maxReconciles := defaultMaxReconciles
    schemes := []
    setup := none
    steps := []
    reconciler := none
    client := none }

/-- The method `WithSchemes`. -/
def scenario.WithSchemes (s : scenario W T Obj Sch) (schemes : List (Sch → Option GoError × Sch)) :
    scenario W T Obj Sch :=
  { s with schemes := s.schemes ++ schemes }

/-- The method `WithMaxReconciles`. -/
def scenario.WithMaxReconciles (s : scenario W T Obj Sch) (n : Int) : scenario W T Obj Sch :=
  { s with maxReconciles := n }

/-- The method `SetupObjects`. -/
def scenario.SetupObjects (s : scenario W T Obj Sch) (setup : W → List Obj) : scenario W T Obj Sch :=
  { s with setup := some setup }

/-- The method `Setup`; a builder is given by its method `Build`, which reads the state the
builder is in when it is called.  The producer runs over the builders when it is invoked. -/
def scenario.Setup (s : scenario W T Obj Sch) (builders : List (W → List Obj)) : scenario W T Obj Sch :=
  s.SetupObjects (fun w => builders.foldl (fun objs b => objs ++ b w) [])

/-- The closure built by `NextRequest`. -/
def NextRequest.nextReq (name : String) (namespaces : List String) :
    Option (ClientRef Obj Sch) → W → Outcome ((NamespacedName × Option GoError) × W) :=
  fun _ w =>
    let r : NamespacedName := { Name := name, Namespace := "" }
    let r := if namespaces.length > 0 then { r with Namespace := namespaces.headD "" } else r
    .returned ((r, none), w)

/-- The method `NextRequest`. -/
def scenario.NextRequest (s : scenario W T Obj Sch) (name : String) (namespaces : List String) :
    scenario W T Obj Sch :=
  { s with steps := s.steps ++
      [{ label := "", waitFor := none, action := none, nextReq := some (NextRequest.nextReq name namespaces) }] }

/-- The closure built by `NextRequestObject`; `nextReqObj` is the user's producer, which may
itself change the world. -/
def NextRequestObject.nextReq (env : Collaborators W T Obj Sch) (nextReqObj : W → Obj × W) :
    Option (ClientRef Obj Sch) → W → Outcome ((NamespacedName × Option GoError) × W) :=
  fun client w =>
    let (obj, w) := nextReqObj w
    match client with
    | none => .panicked
    | some _ =>
      -- Create the object.
      match env.Create w obj with
      | (some err, _, w) => .returned (({ Name := "", Namespace := "" }, some err), w)
      | (none, obj, w) =>
        -- Update it with the status (if present), as needed by the fake client.
        let (err, obj, w) := env.StatusUpdate w obj
        if err ≠ none ∧ ¬ IsNotFound err then
          .returned (({ Name := "", Namespace := "" }, err), w)
        else
          .returned (({ Name := env.GetName obj, Namespace := env.GetNamespace obj }, none), w)

/-- The method `NextRequestObject`. -/
def scenario.NextRequestObject (env : Collaborators W T Obj Sch) (s : scenario W T Obj Sch)
    (nextReqObj : W → Obj × W) : scenario W T Obj Sch :=
  { s with steps := s.steps ++
      [{ label := "", waitFor := none, action := none,
         nextReq := some (NextRequestObject.nextReq env nextReqObj) }] }

/-- The method `ReconcileUntil`. -/
def scenario.ReconcileUntil (s : scenario W T Obj Sch) (waitFor : Option (W → T → Bool × W × T))
    (labels : List String) : scenario W T Obj Sch :=
  { s with steps := s.steps ++
      [{ label := String.intercalate ", " labels, waitFor := waitFor, action := none, nextReq := none }] }

/-- The method `Then`: rewrites the last step in place; indexing an empty step list panics. -/
def scenario.Then (s : scenario W T Obj Sch) (action : Option (W → T → W)) (labels : List String) :
    Outcome (scenario W T Obj Sch) :=
  match s.steps.getLast? with
  | none => .panicked
  | some lastStep =>
    .returned { s with steps := s.steps.dropLast ++
      [{ lastStep with action := action, label := String.intercalate ", " labels }] }

/-! ## Setting up the environment -/

/-- What a run leaves behind: what the call did, the scenario (its fields `client` and
`reconciler` may have been assigned), the world, and the trace. -/
structure Run (W T Obj Sch : Type) (α : Type) where
  outcome : Outcome α
  scenario : scenario W T Obj Sch
  world : W
  trace : List (Event W T)

/-- The loop of `makeScheme` from callback number `i` on. -/
def makeScheme.loop : List (Sch → Option GoError × Sch) → Nat → Sch → Except GoError Sch × List (Event W T)
  | [], _, scheme => (.ok scheme, [])
  | addToScheme :: rest, i, scheme =>
    match addToScheme scheme with
    | (some err, _) => (.error err, [.addToScheme i])
    | (none, scheme) =>
      let (r, tr) := makeScheme.loop rest (i + 1) scheme
      (r, .addToScheme i :: tr)

/-- The method `makeScheme`. -/
def scenario.makeScheme (env : Collaborators W T Obj Sch) (s : scenario W T Obj Sch) :
    Except GoError Sch × List (Event W T) :=
  makeScheme.loop s.schemes 0 env.NewScheme

/-- The method `newObjectInstance`. -/
def scenario.newObjectInstance (env : Collaborators W T Obj Sch) (_s : scenario W T Obj Sch) : T :=
  env.zeroObject

/-- The method `createReconcilerWithClient`: it returns the pair of a reconciler and an error,
or panics inside the reflection calls.
* `reflect.ValueOf(reconciler).Elem().FieldByName("Client")` panics when `R` is not a struct,
  or when the field is promoted through a nil embedded pointer;
* `fv.Set(reflect.ValueOf(s.client))` panics when the field is not settable, when the client
  is not assignable to it, and when `s.client` is nil (the zero `Value`). -/
def scenario.createReconcilerWithClient (env : Collaborators W T Obj Sch) (s : scenario W T Obj Sch) :
    Outcome (Except GoError (Reconciler Obj Sch)) :=
  let reconciler : Reconciler Obj Sch := { Client := none }
  match env.reconcilerClientField with
  | .notStruct => .panicked
  | .missing =>
    .returned (.error (.plain ("field \x27Client\x27 not found for type " ++ env.reconcilerTypeName)))
  | .unsettable => .panicked
  | .settable =>
    match s.client with
    | none => .panicked
    | some client => .returned (.ok { reconciler with Client := some client })

/-- The method `setupEnv`. -/
def scenario.setupEnv (env : Collaborators W T Obj Sch) (s : scenario W T Obj Sch) (w : W) :
    Run W T Obj Sch (Option GoError) :=
  if s.steps.length = 0 then
    { outcome := .returned (some (.plain "no steps found")), scenario := s, world := w, trace := [] }
  else
    match s.makeScheme env with
    | (.error err, tr) => { outcome := .returned (some err), scenario := s, world := w, trace := tr }
    | (.ok scheme, tr) =>
      match s.setup with
      | none => { outcome := .panicked, scenario := s, world := w, trace := tr }
      | some setup =>
        let objs := setup w
        let s := { s with client := some { scheme := scheme, objs := objs } }
        let w := env.Build w scheme objs
        let tr := tr ++ [.setup, .buildClient, .newReconciler]
        match s.createReconcilerWithClient env with
        | .panicked => { outcome := .panicked, scenario := s, world := w, trace := tr }
        | .returned (.error err) =>
          { outcome := .returned (some err), scenario := s, world := w, trace := tr }
        | .returned (.ok reconciler) =>
          { outcome := .returned none, scenario := { s with reconciler := some reconciler },
            world := w, trace := tr }

/-- The method `reconcileStepError`. -/
def scenario.reconcileStepError (_s : scenario W T Obj Sch) (step : reconcileStep W T Obj Sch)
    (err : GoError) : GoError :=
  .wrap ("step `" ++ step.label ++ "` failure: " ++ err.Error) err

/-! ## Running the steps -/

/-- How one pass through the body of the reconcile loop ends: by a `return` of `run`, by the
`break` (which first resets `reconcileCounter` to 0), or by reaching the end of the body. -/
inductive IterationExit where
  | ret (r : Outcome (Option GoError))
  | broke
  | next
deriving DecidableEq, Repr

/-- The body of the loop `for ; reconcileCounter < s.maxReconciles; reconcileCounter++` of `run`
for the step `step` at index `idx`, with the current target key `nextReq` and the world `w`. -/
def run.reconcileIteration (env : Collaborators W T Obj Sch) (s : scenario W T Obj Sch) (idx : Nat)
    (step : reconcileStep W T Obj Sch) (nextReq : NamespacedName) (w : W) :
    IterationExit × W × List (Event W T) :=
  match s.reconciler with
  | none => (.ret .panicked, w, [])
  | some _ =>
    let (err, w1) := env.Reconcile w nextReq
    if errorsIsTerminal err then
      (.ret (.returned none), w1, [.reconcile idx nextReq w])
    else
      let latestUpdatedObj := s.newObjectInstance env
      match s.client with
      | none => (.ret .panicked, w1, [.reconcile idx nextReq w])
      | some _ =>
        let (err, latestUpdatedObj) : Option GoError × T :=
          match env.Get w1 nextReq with
          | .ok obj => (none, obj)
          | .error e => (some e, latestUpdatedObj)
        if err ≠ none ∧ ¬ IsNotFound err then
          (.ret (.returned (err.map (s.reconcileStepError step))), w1,
            [.reconcile idx nextReq w, .get idx nextReq w1])
        else
          match step.waitFor with
          | none => (.ret .panicked, w1, [.reconcile idx nextReq w, .get idx nextReq w1])
          | some waitFor =>
            let (ok, w2, obj2) := waitFor w1 latestUpdatedObj
            if ok then
              match step.action with
              | some action =>
                (.broke, action w2 obj2,
                  [.reconcile idx nextReq w, .get idx nextReq w1, .waitFor idx w1 latestUpdatedObj true,
                   .action idx w2 obj2])
              | none =>
                (.broke, w2,
                  [.reconcile idx nextReq w, .get idx nextReq w1, .waitFor idx w1 latestUpdatedObj true])
            else
              (.next, w2,
                [.reconcile idx nextReq w, .get idx nextReq w1, .waitFor idx w1 latestUpdatedObj false])

/-- How the reconcile loop of one step is left: by a `return` of `run`, or by its
condition failing or a `break`, with the value of `reconcileCounter` at that moment. -/
inductive LoopExit where
  | ret (r : Outcome (Option GoError))
  | done (reconcileCounter : Int)
deriving DecidableEq, Repr

/-- The loop `for ; reconcileCounter < s.maxReconciles; reconcileCounter++` of `run` for the
step `step` at index `idx`, entered with the given value of `reconcileCounter`. -/
def run.reconcileLoop (env : Collaborators W T Obj Sch) (s : scenario W T Obj Sch) (idx : Nat)
    (step : reconcileStep W T Obj Sch) (nextReq : NamespacedName) (reconcileCounter : Int) (w : W) :
    LoopExit × W × List (Event W T) :=
  if reconcileCounter < s.maxReconciles then
    match run.reconcileIteration env s idx step nextReq w with
    | (.ret r, w1, tr) => (.ret r, w1, tr)
    | (.broke, w1, tr) => (.done 0, w1, tr)
    | (.next, w1, tr) =>
      let (r, w2, tr2) := run.reconcileLoop env s idx step nextReq (reconcileCounter + 1) w1
      (r, w2, tr ++ tr2)
  else
    (.done reconcileCounter, w, [])
termination_by (s.maxReconciles - reconcileCounter).toNat
decreasing_by omega

/-- How the loop over the steps is left: by a `return` inside it, or by running off the end
of the step list, with the current target key at that moment. -/
inductive StepsExit where
  | ret (r : Outcome (Option GoError))
  | done (nextReq : NamespacedName)
deriving DecidableEq, Repr

/-- The loop `for idx, step := range s.steps` of `run` over the steps still to be executed,
the first of which has index `idx`. -/
def run.stepsLoop (env : Collaborators W T Obj Sch) (s : scenario W T Obj Sch) :
    List (reconcileStep W T Obj Sch) → Nat → NamespacedName → W → StepsExit × W × List (Event W T)
  | [], _, nextReq, w => (.done nextReq, w, [])
  | step :: rest, idx, nextReq, w =>
    match step.nextReq with
    | some f =>
      -- Prepare the object for the next reconcile invokation.
      match f s.client w with
      | .panicked => (.ret .panicked, w, [.nextReq idx w])
      | .returned ((nextReq, err), w1) =>
        match err with
        | some err => (.ret (.returned (some (s.reconcileStepError step err))), w1, [.nextReq idx w])
        | none =>
          let (r, w2, tr) := run.stepsLoop env s rest (idx + 1) nextReq w1
          (r, w2, .nextReq idx w :: tr)
    | none =>
      match run.reconcileLoop env s idx step nextReq 0 w with
      | (.ret r, w1, tr) => (.ret r, w1, tr)
      | (.done reconcileCounter, w1, tr) =>
        if reconcileCounter ≥ s.maxReconciles then
          let label := step.label
          let label := if label = "" then "waiting condition #" ++ toString idx else label
          (.ret (.returned (some (.plain
              ("`" ++ label ++ "` not satisfied, too many reconcile loops (" ++ toString s.maxReconciles ++ ")")))),
            w1, tr)
        else
          let (r, w2, tr2) := run.stepsLoop env s rest (idx + 1) nextReq w1
          (r, w2, tr ++ tr2)

/-- The method `run`, from the world `w` the store is in; it returns the error (`none` for
nil) or panics, and leaves the world and the trace of its calls. -/
def scenario.run (env : Collaborators W T Obj Sch) (s : scenario W T Obj Sch) (w : W) :
    Outcome (Option GoError) × W × List (Event W T) :=
  match run.stepsLoop env s s.steps 0 { Name := "", Namespace := "" } w with
  | (.ret r, w1, tr) => (r, w1, tr)
  | (.done _, w1, tr) => (.returned none, w1, tr)

/-- The method `test`, from the world `w` it is called in. -/
def scenario.test (env : Collaborators W T Obj Sch) (s : scenario W T Obj Sch) (w : W) :
    Run W T Obj Sch (Option GoError) :=
  let r := s.setupEnv env w
  match r.outcome with
  | .returned none =>
    let (out, w1, tr) := r.scenario.run env r.world
    { outcome := out, scenario := r.scenario, world := w1, trace := r.trace ++ tr }
  | _ => r

/-! ## Reading the trace -/

/-- The index of the step an event belongs to (`none` for the events of `setupEnv`). -/
def Event.step : Event W T → Option Nat
  | .nextReq idx _ => some idx
  | .reconcile idx _ _ => some idx
  | .get idx _ _ => some idx
  | .waitFor idx _ _ _ => some idx
  | .action idx _ _ => some idx
  | _ => none

/-- Whether the event is an invocation of the reconciler by step `idx`. -/
def Event.isReconcile (idx : Nat) : Event W T → Bool
  | .reconcile i _ _ => i = idx
  | _ => false

/-- Whether the event is an evaluation of the predicate of step `idx` that answered true. -/
def Event.isSatisfied (idx : Nat) : Event W T → Bool
  | .waitFor i _ _ res => i = idx && res
  | _ => false

/-- Whether the event is an invocation of the action of step `idx`. -/
def Event.isAction (idx : Nat) : Event W T → Bool
  | .action i _ _ => i = idx
  | _ => false

/-- What the engine does right after a call. -/
inductive Next (W T : Type) where
  /-- The run ends there with this outcome. -/
  | stop (r : Outcome (Option GoError))
  /-- This call comes next. -/
  | event (e : Event W T)
  /-- It depends on more than the call. -/
  | free

/-- What follows the evaluation of the fetch in the iteration of `step`: the predicate is called
on the record, or the nil predicate panics. -/
def run.expectAfterGet (step : reconcileStep W T Obj Sch) (idx : Nat) (w : W) (obj : T) : Next W T :=
  match step.waitFor with
  | none => .stop .panicked
  | some waitFor => .event (.waitFor idx w obj (waitFor w obj).1)

/-- What follows each call of `run`, read off the world at the call and the step the call
belongs to. -/
def run.expect (env : Collaborators W T Obj Sch) (s : scenario W T Obj Sch) : Event W T → Next W T
  | .reconcile idx key w =>
    if errorsIsTerminal (env.Reconcile w key).1 then .stop (.returned none)
    else if s.client.isNone then .stop .panicked
    else .event (.get idx key (env.Reconcile w key).2)
  | .get idx key w =>
    match s.steps[idx]? with
    | none => .free
    | some step =>
      match env.Get w key with
      | .ok obj => run.expectAfterGet step idx w obj
      | .error e =>
        if e.isNotFound then run.expectAfterGet step idx w env.zeroObject
        else .stop (.returned (some (s.reconcileStepError step e)))
  | .waitFor idx w obj res =>
    match s.steps[idx]? with
    | none => .free
    | some step =>
      match step.waitFor, step.action with
      | some waitFor, some _ =>
        if res then .event (.action idx (waitFor w obj).2.1 (waitFor w obj).2.2) else .free
      | _, _ => .free
  | .nextReq idx w =>
    match s.steps[idx]? with
    | none => .free
    | some step =>
      match step.nextReq with
      | none => .free
      | some f =>
        match f s.client w with
        | .panicked => .stop .panicked
        | .returned ((_, some err), _) => .stop (.returned (some (s.reconcileStepError step err)))
        | .returned ((_, none), _) => .free
  | _ => .free

/-- The trace `tr` of a piece of `run` that returned `r` (or did not return, `none`) does after
each of its calls what `run.expect` says. -/
def run.Conforms (env : Collaborators W T Obj Sch) (s : scenario W T Obj Sch) (tr : List (Event W T))
    (r : Option (Outcome (Option GoError))) : Prop :=
  ∀ n e, tr[n]? = some e →
    match run.expect env s e with
    | .stop out => n + 1 = tr.length ∧ r = some out
    | .event e' => tr[n + 1]? = some e'
    | .free => True

/-- The outcome a pass through the loop body returned from `run` with, if it did. -/
def IterationExit.returned? : IterationExit → Option (Outcome (Option GoError))
  | .ret r => some r
  | _ => none

/-- The outcome the reconcile loop returned from `run` with, if it did. -/
def LoopExit.returned? : LoopExit → Option (Outcome (Option GoError))
  | .ret r => some r
  | .done _ => none

/-- The outcome the loop over the steps returned from `run` with, if it did. -/
def StepsExit.returned? : StepsExit → Option (Outcome (Option GoError))
  | .ret r => some r
  | .done _ => none

/-- The record the iteration holds after a fetch it goes on from: the record read, or the
zeroed record when the store reported not-found. -/
def run.Fetched (env : Collaborators W T Obj Sch) (w : W) (key : NamespacedName) (obj : T) : Prop :=
  env.Get w key = .ok obj ∨ ∃ e, env.Get w key = .error e ∧ e.isNotFound = true ∧ obj = env.zeroObject

/-- The eight ways through the body of the reconcile loop, each with what it leaves behind. -/
inductive run.IterationCase (env : Collaborators W T Obj Sch) (s : scenario W T Obj Sch) (idx : Nat)
    (step : reconcileStep W T Obj Sch) (key : NamespacedName) (w : W) :
    IterationExit × W × List (Event W T) → Prop where
  | noReconciler : s.reconciler = none →
      run.IterationCase env s idx step key w (.ret .panicked, w, [])
  | terminal : s.reconciler ≠ none → errorsIsTerminal (env.Reconcile w key).1 = true →
      run.IterationCase env s idx step key w
        (.ret (.returned none), (env.Reconcile w key).2, [.reconcile idx key w])
  | noClient : s.reconciler ≠ none → errorsIsTerminal (env.Reconcile w key).1 = false →
      s.client = none →
      run.IterationCase env s idx step key w (.ret .panicked, (env.Reconcile w key).2, [.reconcile idx key w])
  | fetchFailed (e : GoError) : s.reconciler ≠ none → errorsIsTerminal (env.Reconcile w key).1 = false →
      s.client ≠ none → env.Get (env.Reconcile w key).2 key = .error e → e.isNotFound = false →
      run.IterationCase env s idx step key w
        (.ret (.returned (some (s.reconcileStepError step e))), (env.Reconcile w key).2,
          [.reconcile idx key w, .get idx key (env.Reconcile w key).2])
  | noPredicate (obj : T) : s.reconciler ≠ none → errorsIsTerminal (env.Reconcile w key).1 = false →
      s.client ≠ none → run.Fetched env (env.Reconcile w key).2 key obj → step.waitFor = none →
      run.IterationCase env s idx step key w
        (.ret .panicked, (env.Reconcile w key).2, [.reconcile idx key w, .get idx key (env.Reconcile w key).2])
  | unsatisfied (obj : T) (p : W → T → Bool × W × T) : s.reconciler ≠ none →
      errorsIsTerminal (env.Reconcile w key).1 = false →
      s.client ≠ none → run.Fetched env (env.Reconcile w key).2 key obj → step.waitFor = some p →
      (p (env.Reconcile w key).2 obj).1 = false →
      run.IterationCase env s idx step key w
        (.next, (p (env.Reconcile w key).2 obj).2.1,
          [.reconcile idx key w, .get idx key (env.Reconcile w key).2,
           .waitFor idx (env.Reconcile w key).2 obj false])
  | satisfied (obj : T) (p : W → T → Bool × W × T) : s.reconciler ≠ none →
      errorsIsTerminal (env.Reconcile w key).1 = false →
      s.client ≠ none → run.Fetched env (env.Reconcile w key).2 key obj → step.waitFor = some p →
      (p (env.Reconcile w key).2 obj).1 = true → step.action = none →
      run.IterationCase env s idx step key w
        (.broke, (p (env.Reconcile w key).2 obj).2.1,
          [.reconcile idx key w, .get idx key (env.Reconcile w key).2,
           .waitFor idx (env.Reconcile w key).2 obj true])
  | satisfiedThen (obj : T) (p : W → T → Bool × W × T) (a : W → T → W) : s.reconciler ≠ none →
      errorsIsTerminal (env.Reconcile w key).1 = false →
      s.client ≠ none → run.Fetched env (env.Reconcile w key).2 key obj → step.waitFor = some p →
      (p (env.Reconcile w key).2 obj).1 = true → step.action = some a →
      run.IterationCase env s idx step key w
        (.broke, a (p (env.Reconcile w key).2 obj).2.1 (p (env.Reconcile w key).2 obj).2.2,
          [.reconcile idx key w, .get idx key (env.Reconcile w key).2,
           .waitFor idx (env.Reconcile w key).2 obj true,
           .action idx (p (env.Reconcile w key).2 obj).2.1 (p (env.Reconcile w key).2 obj).2.2])

/-- Whether the call recorded by the event ends the retries of its step: a reconciler
invocation that returns the terminal error, a fetch that fails with anything but not-found,
or a predicate evaluation that answers true. -/
def Event.endsRetries (env : Collaborators W T Obj Sch) : Event W T → Bool
  | .reconcile _ key w => errorsIsTerminal (env.Reconcile w key).1
  | .get _ key w =>
    match env.Get w key with
    | .ok _ => false
    | .error e => !e.isNotFound
  | .waitFor _ _ _ res => res
  | _ => false

/-- The same collaborators, but with a reconciler whose errors are dropped unless they are
terminal: it leaves the same world and returns nil where the original returns an error whose
chain holds no terminal error. -/
def Collaborators.droppingReconcileErrors (env : Collaborators W T Obj Sch) : Collaborators W T Obj Sch :=
  { env with
    Reconcile := fun w key =>
      ((if errorsIsTerminal (env.Reconcile w key).1 then (env.Reconcile w key).1 else none),
       (env.Reconcile w key).2) }

/-- The same collaborators, but with a store that answers a fetch with a zeroed record where
the original reports not-found. -/
def Collaborators.readingNotFoundAsZero (env : Collaborators W T Obj Sch) : Collaborators W T Obj Sch :=
  { env with
    Get := fun w key =>
      match env.Get w key with
      | .ok obj => .ok obj
      | .error e => if e.isNotFound then .ok env.zeroObject else .error e }

/-! ## Sample collaborators and scenarios

A store holding records by kind and name, of which the scenario's resource type is the kind
`ConfigMap`; a record of type `T` is represented by its name. -/

/-- The sample store: whether the resource type is registered in its scheme, and the records
it holds as pairs of kind and name. -/
structure SampleStore where
  registered : Bool
  objs : List (String × String)
deriving DecidableEq, Repr

/-- The sample collaborators around a given `Reconcile` method. -/
def sampleEnv (Reconcile : SampleStore → NamespacedName → Option GoError × SampleStore) :
    Collaborators SampleStore String (String × String) Nat :=
  { reconcilerTypeName := "TestController"
    reconcilerClientField := .settable
    Reconcile := Reconcile
    zeroObject := ""
    objectName := fun obj => obj
    zeroObject_name := rfl
    NewScheme := 0
    Build := fun _ scheme objs => { registered := decide (0 < scheme), objs := objs }
    Get := fun w key =>
      if w.registered then
        if w.objs.contains ("ConfigMap", key.Name) then .ok key.Name
        else .error (.notFound ("configmaps " ++ key.Name ++ " not found"))
      else .error (.plain "no kind is registered for the type v1.ConfigMap")
    Create := fun w obj =>
      if obj.2 = "" then
        (some (.plain " \x22\x22 is invalid: metadata.name: Required value: name is required"), obj, w)
      else (none, obj, { w with objs := w.objs ++ [obj] })
    StatusUpdate := fun w obj => (none, obj, w)
    GetName := fun obj => obj.2
    GetNamespace := fun _ => "cm" }

/-- The reconciler of the tests: it does nothing and returns no error. -/
def sampleReconcile : SampleStore → NamespacedName → Option GoError × SampleStore :=
  fun w _ => (none, w)

/-- A reconciler that always returns a terminal error wrapping a cause. -/
def terminalReconcile : SampleStore → NamespacedName → Option GoError × SampleStore :=
  fun w _ => (some (.terminal (.plain "unrecoverable error")), w)

/-- A reconciler that always returns an ordinary error. -/
def failingReconcile : SampleStore → NamespacedName → Option GoError × SampleStore :=
  fun w _ => (some (.plain "boom"), w)

/-- The registration callback of the sample scheme. -/
def sampleAddToScheme : Nat → Option GoError × Nat :=
  fun scheme => (none, scheme + 1)

/-- A store with the three config maps of the tests. -/
def sampleStore : SampleStore :=
  { registered := true, objs := [("ConfigMap", "cm0"), ("ConfigMap", "cm1"), ("ConfigMap", "cm2")] }

/-- A scenario past `setupEnv`: its client and reconciler are set. -/
def readyScenario (maxReconciles : Int)
    (steps : List (reconcileStep SampleStore String (String × String) Nat)) :
    scenario SampleStore String (String × String) Nat :=
  { maxReconciles := maxReconciles
    schemes := [sampleAddToScheme]
    setup := some (fun _ => sampleStore.objs)
    steps := steps
    reconciler := some { Client := some { scheme := 1, objs := sampleStore.objs } }
    client := some { scheme := 1, objs := sampleStore.objs } }

/-- A predicate that is never satisfied. -/
def neverSatisfied : SampleStore → String → Bool × SampleStore × String :=
  fun w obj => (false, w, obj)

/-- A predicate that is satisfied at once. -/
def alwaysSatisfied : SampleStore → String → Bool × SampleStore × String :=
  fun w obj => (true, w, obj)

/-- A step `ReconcileUntil(predicate, label)`. -/
def waitStep (label : String) (waitFor : SampleStore → String → Bool × SampleStore × String) :
    reconcileStep SampleStore String (String × String) Nat :=
  { label := label, waitFor := some waitFor, action := none, nextReq := none }

/-- A step `NextRequest(name, "cm")`. -/
def targetStep (name : String) : reconcileStep SampleStore String (String × String) Nat :=
  { label := "", waitFor := none, action := none, nextReq := some (NextRequest.nextReq name ["cm"]) }

/-- The action of the sample scenarios: it adds a config map to the store. -/
def sampleAction : SampleStore → String → SampleStore :=
  fun w _ => { w with objs := w.objs ++ [("ConfigMap", "added")] }

/-- A step `ReconcileUntil(predicate).Then(sampleAction)`. -/
def thenStep (waitFor : SampleStore → String → Bool × SampleStore × String) :
    reconcileStep SampleStore String (String × String) Nat :=
  { label := "", waitFor := some waitFor, action := some sampleAction, nextReq := none }

/-- The scenario of the test "at least one step is required": schemes and a setup, no step. -/
def emptyScenario : scenario SampleStore String (String × String) Nat :=
  (newScenario.WithSchemes [sampleAddToScheme]).Setup []

/-- A store holding a node and no config map, as in the test "different type on next request". -/
def nodeStore : SampleStore :=
  { registered := true, objs := [("Node", "node")] }

/-- The predicate of the test "different type on next request": the record has no name. -/
def nameIsEmpty : SampleStore → String → Bool × SampleStore × String :=
  fun w obj => (decide (obj = ""), w, obj)

/-- A step `NextRequest(name)`, with no namespace. -/
def bareTargetStep (name : String) : reconcileStep SampleStore String (String × String) Nat :=
  { label := "", waitFor := none, action := none, nextReq := some (NextRequest.nextReq name []) }

/-- A store whose scheme does not know the resource type: every fetch fails. -/
def unregisteredStore : SampleStore :=
  { registered := false, objs := [] }

/-- The producer of the test "error during next request object creation": a config map with
no name. -/
def namelessObject : SampleStore → (String × String) × SampleStore :=
  fun w => (("ConfigMap", ""), w)

/-- What the call `s.client.Create` of the closure of `NextRequestObject` returns when the
closure is invoked in the world `w`: the producer has run once, the object it returned is
created in the world the producer left. -/
def NextRequestObject.created (env : Collaborators W T Obj Sch) (nextReqObj : W → Obj × W) (w : W) :
    Option GoError × Obj × W :=
  env.Create (nextReqObj w).2 (nextReqObj w).1

/-- What the call `s.client.Status().Update` of the closure of `NextRequestObject` returns when
it follows the `Create` call: it is made on the object and in the world that `Create` left. -/
def NextRequestObject.updated (env : Collaborators W T Obj Sch) (nextReqObj : W → Obj × W) (w : W) :
    Option GoError × Obj × W :=
  env.StatusUpdate (NextRequestObject.created env nextReqObj w).2.2
    (NextRequestObject.created env nextReqObj w).2.1

/-- The producer of the test "next request object": a config map named `new-cm`. -/
def newConfigMap : SampleStore → (String × String) × SampleStore :=
  fun w => (("ConfigMap", "new-cm"), w)

/-- A registration callback that fails. -/
def failingAddToScheme : Nat → Option GoError × Nat :=
  fun scheme => (some (.plain "scheme registration failed"), scheme)

/-- The scenario of the test "minimal", before `test` is called: one scheme, an empty setup and
one condition that holds at once. -/
def minimalScenario : scenario SampleStore String (String × String) Nat :=
  ((newScenario.WithSchemes [sampleAddToScheme]).Setup []).ReconcileUntil (some alwaysSatisfied) []

/-- The scenario "minimal" with three registered callbacks, the second of which fails. -/
def badSchemeScenario : scenario SampleStore String (String × String) Nat :=
  (((newScenario.WithSchemes [sampleAddToScheme]).WithSchemes
      [failingAddToScheme, sampleAddToScheme]).Setup []).ReconcileUntil (some alwaysSatisfied) []

/-- Every evaluation of a predicate in the trace comes right after a fetch, itself right after a
reconciler invocation of the same step with the same key; the fetch is made in the world the
invocation left, the predicate is evaluated in that same world, on the record of that fetch. -/
def run.Refetched (env : Collaborators W T Obj Sch) (tr : List (Event W T)) : Prop :=
  ∀ m idx wp obj res, tr[m]? = some (.waitFor idx wp obj res) →
    ∃ n key wr, m = n + 2 ∧ tr[n]? = some (.reconcile idx key wr) ∧
      tr[n + 1]? = some (.get idx key wp) ∧ wp = (env.Reconcile wr key).2 ∧
      run.Fetched env wp key obj

/-- A call of the fluent interface that declares a step. -/
inductive FluentCall (W T Obj : Type) where
  | nextRequest (name : String) (namespaces : List String)
  | nextRequestObject (nextReqObj : W → Obj × W)
  | reconcileUntil (waitFor : Option (W → T → Bool × W × T)) (labels : List String)

/-- The scenario after a declaring call. -/
def FluentCall.apply (env : Collaborators W T Obj Sch) (s : scenario W T Obj Sch) :
    FluentCall W T Obj → scenario W T Obj Sch
  | .nextRequest name namespaces => s.NextRequest name namespaces
  | .nextRequestObject nextReqObj => s.NextRequestObject env nextReqObj
  | .reconcileUntil waitFor labels => s.ReconcileUntil waitFor labels

/-- The step a declaring call stands for. -/
def FluentCall.step (env : Collaborators W T Obj Sch) : FluentCall W T Obj → reconcileStep W T Obj Sch
  | .nextRequest name namespaces =>
    { label := "", waitFor := none, action := none, nextReq := some (NextRequest.nextReq name namespaces) }
  | .nextRequestObject nextReqObj =>
    { label := "", waitFor := none, action := none,
      nextReq := some (NextRequestObject.nextReq env nextReqObj) }
  | .reconcileUntil waitFor labels =>
    { label := String.intercalate ", " labels, waitFor := waitFor, action := none, nextReq := none }

/-- The call recorded by the event shows that the step at index `i` completed without failure:
its key producer was invoked and returned a key and no error, or its predicate answered true. -/
def run.Completes (s : scenario W T Obj Sch) (i : Nat) : Event W T → Prop
  | .nextReq j wn =>
    j = i ∧ ∃ step f key w1, s.steps[i]? = some step ∧ step.nextReq = some f ∧
      f s.client wn = .returned ((key, none), w1)
  | .waitFor j _ _ res => j = i ∧ res = true
  | _ => False

/-- In the trace `tr`, whose steps have indices from `lo` on, a call of a step comes only after
every step before it, from `lo` on, has completed without failure. -/
def run.InOrder (s : scenario W T Obj Sch) (lo : Nat) (tr : List (Event W T)) : Prop :=
  ∀ (n : Nat) (e : Event W T) (j : Nat), tr[n]? = some e → e.step = some j →
    ∀ i, lo ≤ i → i < j →
      ∃ (m : Nat) (e1 : Event W T), m < n ∧ tr[m]? = some e1 ∧ run.Completes s i e1

/-- The key a call is made with: the request of a reconciler invocation, the key of a fetch. -/
def Event.key? : Event W T → Option NamespacedName
  | .reconcile _ key _ => some key
  | .get _ key _ => some key
  | _ => none

/-- In the trace `tr` of the steps from index `lo` on, entered with the current target key
`key0`, every reconciler invocation and every fetch uses the key that the nearest SetTarget step
before its own step returned when it ran, or `key0` when no SetTarget step from `lo` on comes
before its step. -/
def run.KeysFrom (s : scenario W T Obj Sch) (lo : Nat) (key0 : NamespacedName)
    (tr : List (Event W T)) : Prop :=
  ∀ (n : Nat) (e : Event W T) (i : Nat) (key : NamespacedName),
    tr[n]? = some e → e.step = some i → e.key? = some key →
    (∃ (m j : Nat) (wn : W) (step : reconcileStep W T Obj Sch)
        (f : Option (ClientRef Obj Sch) → W → Outcome ((NamespacedName × Option GoError) × W))
        (w1 : W),
        m < n ∧ tr[m]? = some (.nextReq j wn) ∧ lo ≤ j ∧ j < i ∧
        s.steps[j]? = some step ∧ step.nextReq = some f ∧
        f s.client wn = .returned ((key, none), w1) ∧
        ∀ j1, j < j1 → j1 < i → ∀ step1, s.steps[j1]? = some step1 → step1.nextReq = none) ∨
    (key = key0 ∧
      ∀ j1, lo ≤ j1 → j1 < i → ∀ step1, s.steps[j1]? = some step1 → step1.nextReq = none)

/-- The predicates of the test "next request": the record has the given name. -/
def nameIs (name : String) : SampleStore → String → Bool × SampleStore × String :=
  fun w obj => (decide (obj = name), w, obj)

/-- The scenario of the test "next request", past `setupEnv`. -/
def nextRequestScenario : scenario SampleStore String (String × String) Nat :=
  readyScenario 20 [targetStep "cm0", waitStep "wait for cm0" (nameIs "cm0"),
    targetStep "cm1", waitStep "wait for cm1" (nameIs "cm1")]

/-- Whether the event is an invocation of the reconciler, by any step. -/
def Event.isInvocation : Event W T → Bool
  | .reconcile _ _ _ => true
  | _ => false

/-- The world in which the step `step` leaves its retries when its predicate first answers true
on the attempt number `k` (counted from 1) made from the world `w`: the attempts before it end
with the predicate answering false, the attempt `k` ends with the `break`.  It is `none` when
that is not what happens.  Neither the budget nor `reconcileCounter` has a part in it. -/
def run.firstSucceedsOn (env : Collaborators W T Obj Sch) (s : scenario W T Obj Sch) (idx : Nat)
    (step : reconcileStep W T Obj Sch) (key : NamespacedName) : Nat → W → Option W
  | 0, _ => none
  | k + 1, w =>
    match run.reconcileIteration env s idx step key w with
    | (.broke, w1, _) => if k = 0 then some w1 else none
    | (.next, w1, _) => run.firstSucceedsOn env s idx step key k w1
    | (.ret _, _, _) => none

/-- Each step of the list, entered with the key and in the world the steps before it left,
goes through: a SetTarget step returns a key and no error, and a WaitForCondition step has its
predicate first answer true on the attempt whose number is the next entry of `ks`. -/
def run.EachSucceeds (env : Collaborators W T Obj Sch) (s : scenario W T Obj Sch) :
    List (reconcileStep W T Obj Sch) → Nat → NamespacedName → W → List Nat → Prop
  | [], _, _, _, ks => ks = []
  | step :: rest, idx, key, w, ks =>
    match step.nextReq with
    | some f =>
      ∃ key1 w1, f s.client w = .returned ((key1, none), w1) ∧
        run.EachSucceeds env s rest (idx + 1) key1 w1 ks
    | none =>
      ∃ k ks1 w1, ks = k :: ks1 ∧ run.firstSucceedsOn env s idx step key k w = some w1 ∧
        run.EachSucceeds env s rest (idx + 1) key w1 ks1

/-- A reconciler that counts its invocations: each one adds a record of kind `Tick`. -/
def tickingReconcile : SampleStore → NamespacedName → Option GoError × SampleStore :=
  fun w _ => (none, { w with objs := w.objs ++ [("Tick", "tick")] })

/-- A predicate that holds once the reconciler has been invoked `n` times in all. -/
def ticksAtLeast (n : Nat) : SampleStore → String → Bool × SampleStore × String :=
  fun w obj => (decide (n ≤ w.objs.count ("Tick", "tick")), w, obj)

/-- Two conditions, the first of which holds after two invocations and the second after four,
under a budget of two. -/
def twiceTwoScenario : scenario SampleStore String (String × String) Nat :=
  readyScenario 2 [waitStep "two ticks" (ticksAtLeast 2), waitStep "four ticks" (ticksAtLeast 4)]

/-- A builder that yields the config maps the store of the run holds when it is asked. -/
def storedConfigMaps : SampleStore → List (String × String) :=
  fun w => w.objs.filter (fun obj => obj.1 == "ConfigMap")

/-- A builder of two nodes. -/
def twoNodes : SampleStore → List (String × String) :=
  fun _ => [("Node", "master-0"), ("Node", "worker-0")]

/-- A builder that yields nothing. -/
def noObjects : SampleStore → List (String × String) :=
  fun _ => []

/-- What `run` returns when the calls in `tr0` are behind it and the loop over the remaining
steps is left the way `rest` tells: the value of the `return` inside the loop, or nil past the
end of the step list. -/
def run.finish (tr0 : List (Event W T)) :
    StepsExit × W × List (Event W T) → Outcome (Option GoError) × W × List (Event W T)
  | (.ret r, w, tr) => (r, w, tr0 ++ tr)
  | (.done _, w, tr) => (.returned none, w, tr0 ++ tr)

/-! ## The example: the nodes monitor

The resource `NodesMonitor` of the example package and its controller.  The records of the
Kubernetes libraries are reduced to the fields the example reads or writes. -/

/-- Mirror of `v1.Condition`.  The field `Type` is named `type` here; a status is one of the
strings of `v1.ConditionStatus`; the instant of a `v1.Time` is an integer. -/
structure Condition where
  type : String
  Status : String
  ObservedGeneration : Int
  LastTransitionTime : Int
  Reason : String
  Message : String
deriving DecidableEq, Repr

/-- The constant `v1.ConditionTrue`. -/
def ConditionTrue : String := "True"

/-- The constant `v1.ConditionFalse`. -/
def ConditionFalse : String := "False"

/-- Mirror of `NodesMonitorSpec`. -/
structure NodesMonitorSpec where
  Active : Bool
  AlertThreshold : Int
  NodeLabelFilter : String
deriving DecidableEq, Repr

/-- Mirror of `NodesMonitorStatus`. -/
structure NodesMonitorStatus where
  NumNodes : Int
  Active : Bool
  Conditions : List Condition
deriving DecidableEq, Repr

/-- Mirror of `NodesMonitor`, with the name and the namespace of its `ObjectMeta`. -/
structure NodesMonitor where
  Name : String
  Namespace : String
  Spec : NodesMonitorSpec
  Status : NodesMonitorStatus
deriving DecidableEq, Repr

/-- The method `GetLatestCondition`: `none` stands for the nil pointer. -/
def NodesMonitorStatus.GetLatestCondition (nms : NodesMonitorStatus) : Option Condition :=
  if nms.Conditions.length = 0 then
    none
  else
    nms.Conditions[nms.Conditions.length - 1]?

/-- The method `AddThresholdExceededCondition`; `now` is what `v1.Now()` returns. -/
def NodesMonitorStatus.AddThresholdExceededCondition (nms : NodesMonitorStatus)
    (thresholdExceeded : Bool) (now : Int) : NodesMonitorStatus :=
  let newCond : Condition :=
    { type := "ThresholdExceeded"
      Status := ConditionFalse
      ObservedGeneration := 0
      LastTransitionTime := now
      Reason := ""
      Message := "Nodes count is below the threshold." }
  let newCond :=
    if thresholdExceeded then
      { newCond with Status := ConditionTrue, Message := "Nodes count is above the threshold." }
    else newCond
  match nms.GetLatestCondition with
  | none => { nms with Conditions := nms.Conditions ++ [newCond] }
  | some lastCond =>
    if newCond.Status ≠ lastCond.Status then
      { nms with Conditions := nms.Conditions ++ [newCond] }
    else nms

/-- The method `NodesMonitorStatus.DeepCopy`, on a pointer that may be nil.  The condition it
appends for `c` is built from the fields `Type`, `Status`, `Reason`, `Message` and
`LastTransitionTime` of `c`; the field `ObservedGeneration` is not among them, so it has the
zero value. -/
def NodesMonitorStatus.DeepCopy : Option NodesMonitorStatus → Option NodesMonitorStatus
  | none => none
  | some inp =>
    let out : NodesMonitorStatus := { NumNodes := 0, Active := false, Conditions := [] }
    let out := { out with NumNodes := inp.NumNodes }
    let out := { out with Active := inp.Active }
    some (inp.Conditions.foldl
      (fun out c =>
        { out with
          Conditions := out.Conditions ++
            [{ type := c.type
               Status := c.Status
               ObservedGeneration := 0
               Reason := c.Reason
               Message := c.Message
               LastTransitionTime := c.LastTransitionTime }] })
      out)

/-- The method `NodesMonitor.DeepCopyInto` on a non-nil receiver: what `out` holds
afterwards.  When the copy of the status is nil the dereference panics. -/
def NodesMonitor.DeepCopyInto (inp : NodesMonitor) : Outcome NodesMonitor :=
  let out := inp
  match NodesMonitorStatus.DeepCopy (some inp.Status) with
  | none => .panicked
  | some status => .returned { out with Spec := inp.Spec, Status := status }

/-- The method `NodesMonitor.DeepCopy`, on a pointer that may be nil. -/
def NodesMonitor.DeepCopy : Option NodesMonitor → Outcome (Option NodesMonitor)
  | none => .returned none
  | some inp =>
    match inp.DeepCopyInto with
    | .panicked => .panicked
    | .returned out => .returned (some out)

/-- A sequence of calls of `AddThresholdExceededCondition`, each with its argument and the
instant at which it is made. -/
def NodesMonitorStatus.addAll (nms : NodesMonitorStatus) (calls : List (Bool × Int)) :
    NodesMonitorStatus :=
  calls.foldl (fun nms call => nms.AddThresholdExceededCondition call.1 call.2) nms

/-- No two adjacent conditions of the list have the same status. -/
def Condition.Alternating (conds : List Condition) : Prop :=
  List.Chain' (fun a b : Condition => a.Status ≠ b.Status) conds

/-- A status whose only condition has observed generation 3. -/
def observedStatus : NodesMonitorStatus :=
  { NumNodes := 3
    Active := true
    Conditions :=
      [{ type := "ThresholdExceeded"
         Status := "True"
         ObservedGeneration := 3
         LastTransitionTime := 1700000000
         Reason := "NodesCounted"
         Message := "Nodes count is above the threshold." }] }

/-- Mirror of `corev1.Node`, with the name and the labels of its `ObjectMeta`; the map of
labels is the list of its entries. -/
structure Node where
  Name : String
  Labels : List (String × String)
deriving DecidableEq, Repr

/-- Mirror of `labels.Requirement` for the operator `selection.Exists`, the only one the
controller builds: the label `key` is present, whatever its value. -/
structure Requirement where
  key : String
deriving DecidableEq, Repr

/-- Mirror of `client.ListOptions`: the field `LabelSelector` is `none` when nil, and the
requirements of the selector otherwise. -/
structure ListOptions where
  LabelSelector : Option (List Requirement)
deriving DecidableEq, Repr

/-- Mirror of `ctrl.Result`; a duration is a number of nanoseconds. -/
structure Result where
  Requeue : Bool
  RequeueAfter : Int
deriving DecidableEq, Repr

/-- The constant `time.Minute`. -/
def timeMinute : Int := 60000000000

/-- The client embedded in `NodesMonitorController`, bound to the store, and the label
library the controller is linked against. -/
structure Client (W : Type) where
  /-- The call `c.Get(ctx, key, nm)` on a pointer to a `NodesMonitor`. -/
  Get : W → NamespacedName → Except GoError NodesMonitor
  /-- The call `c.Status().Update(ctx, nm)`: the error and the new world. -/
  StatusUpdate : W → NodesMonitor → Option GoError × W
  /-- The call `c.List(ctx, nodeList, listOptions)` on an empty `corev1.NodeList`: the error and
  the field `Items` of the list afterwards. -/
  List : W → ListOptions → Option GoError × List Node
  /-- The error of `labels.NewRequirement(key, selection.Exists, nil)`, which validates the key. -/
  validateKey : String → Option GoError

/-- The call `labels.NewRequirement(key, selection.Exists, nil)`. -/
def Client.NewRequirement (c : Client W) (key : String) : Except GoError Requirement :=
  match c.validateKey key with
  | some err => .error err
  | none => .ok { key := key }

/-- The function `client.IgnoreNotFound`. -/
def IgnoreNotFound (err : Option GoError) : Option GoError :=
  if IsNotFound err then none else err

/-- The method `listFilteredNodes`: the pair `([]corev1.Node, error)` is an error or a list. -/
def NodesMonitorController.listFilteredNodes (c : Client W) (w : W) (nm : NodesMonitor) :
    Except GoError (List Node) :=
  let listOptions : ListOptions := { LabelSelector := none }
  -- If a filter was defined, let's apply it.
  let built : Except GoError ListOptions :=
    if nm.Spec.NodeLabelFilter ≠ "" then
      let labelSelector : List Requirement := []
      match c.NewRequirement nm.Spec.NodeLabelFilter with
      | .error err => .error err
      | .ok requirement =>
        let labelSelector := labelSelector ++ [requirement]
        .ok { listOptions with LabelSelector := some labelSelector }
    else .ok listOptions
  match built with
  | .error err => .error err
  | .ok listOptions =>
    -- Get the nodes.
    match c.List w listOptions with
    | (some err, items) => if ¬ err.isNotFound then .error err else .ok items
    | (none, items) => .ok items

/-- The method `Reconcile` of `NodesMonitorController`, invoked in the world `w` at the
instant `now`: the result, the error and the new world. -/
def NodesMonitorController.Reconcile (c : Client W) (now : Int) (w : W) (req : NamespacedName) :
    (Result × Option GoError) × W :=
  match c.Get w req with
  | .error err => (({ Requeue := false, RequeueAfter := 0 }, IgnoreNotFound (some err)), w)
  | .ok nm =>
    -- Check for enabling or disabling monitoring.
    if nm.Spec.Active ≠ nm.Status.Active then
      let nm := { nm with Status := { nm.Status with Active := nm.Spec.Active } }
      match c.StatusUpdate w nm with
      | (some err, w1) => (({ Requeue := false, RequeueAfter := 0 }, some err), w1)
      | (none, w1) => (({ Requeue := true, RequeueAfter := 0 }, none), w1)
    -- If enabled, let's count the current nodes.
    else if nm.Status.Active then
      match NodesMonitorController.listFilteredNodes c w nm with
      | .error err => (({ Requeue := false, RequeueAfter := 0 }, some err), w)
      | .ok nodes =>
        -- The current number of nodes changed, so let's update accordingly the resource status.
        if (nodes.length : Int) ≠ nm.Status.NumNodes then
          let nm := { nm with Status := { nm.Status with NumNodes := nodes.length } }
          let nm :=
            { nm with
              Status := nm.Status.AddThresholdExceededCondition
                (decide (nm.Status.NumNodes ≥ nm.Spec.AlertThreshold)) now }
          match c.StatusUpdate w nm with
          | (some err, w1) => (({ Requeue := false, RequeueAfter := 0 }, some err), w1)
          | (none, w1) => (({ Requeue := false, RequeueAfter := timeMinute }, none), w1)
        else (({ Requeue := false, RequeueAfter := timeMinute }, none), w)
    else (({ Requeue := false, RequeueAfter := timeMinute }, none), w)

/-- Whether the node carries a label named `key`. -/
def Node.hasLabel (node : Node) (key : String) : Bool :=
  node.Labels.any (fun label => label.1 == key)

/-- Whether the node is selected by the list options: by every requirement of the selector,
and always when there is no selector. -/
def ListOptions.selects (opts : ListOptions) (node : Node) : Bool :=
  match opts.LabelSelector with
  | none => true
  | some requirements => requirements.all (fun r => node.hasLabel r.key)

/-- Whether the monitor counts the node: the node carries the label named by
`Spec.NodeLabelFilter`, and every node is counted when the filter is empty. -/
def NodesMonitor.counts (nm : NodesMonitor) (node : Node) : Bool :=
  nm.Spec.NodeLabelFilter = "" || node.hasLabel nm.Spec.NodeLabelFilter

/-- The key under which the record is stored. -/
def NodesMonitor.key (nm : NodesMonitor) : NamespacedName :=
  { Name := nm.Name, Namespace := nm.Namespace }

/-- What the controller relies on in the store behind its client, whose nodes in the world
`w` are `nodes w`:
* a list request that returns no error, or a not-found error, leaves in the list the nodes of
  the store that the options select, in the order of the store;
* after a status update that returned no error, the record read at the key of the record sent
  has the status sent, and the nodes of the store are the same. -/
structure StoreContract (c : Client W) (nodes : W → List Node) : Prop where
  list : ∀ w opts, IsNotFound (c.List w opts).1 = true ∨ (c.List w opts).1 = none →
    (c.List w opts).2 = (nodes w).filter opts.selects
  update : ∀ w nm w1, c.StatusUpdate w nm = (none, w1) →
    (∃ stored, c.Get w1 nm.key = .ok stored ∧ stored.Status = nm.Status) ∧ nodes w1 = nodes w

/-- A store of monitors and nodes. -/
structure MonitorStore where
  monitors : List NodesMonitor
  nodes : List Node
deriving DecidableEq, Repr

/-- A client on a `MonitorStore`: a status update replaces the status of the record that has
the key of the record sent, and fails with not-found when there is none; a label key is
valid when it is not empty and has no blank. -/
def monitorClient : Client MonitorStore :=
  { Get := fun w key =>
      match w.monitors.find? (fun stored => stored.key = key) with
      | some stored => .ok stored
      | none => .error (.notFound ("nodesmonitors " ++ key.Name ++ " not found"))
    StatusUpdate := fun w nm =>
      if w.monitors.any (fun stored => stored.key = nm.key) then
        (none,
          { w with
            monitors := w.monitors.map
              (fun stored => if stored.key = nm.key then { stored with Status := nm.Status } else stored) })
      else (some (.notFound ("nodesmonitors " ++ nm.Name ++ " not found")), w)
    List := fun w opts => (none, w.nodes.filter opts.selects)
    validateKey := fun key =>
      if key = "" ∨ key.toList.contains ' ' then some (.plain ("invalid label key " ++ key))
      else none }

/-- The monitor of the test "going over the threshold" once it is active, with threshold 3:
it counts the control-plane nodes and has counted nothing yet. -/
def thresholdMonitor : NodesMonitor :=
  { Name := "control-plane-counter"
    Namespace := "nodes-monitor"
    Spec := { Active := true, AlertThreshold := 3,
              NodeLabelFilter := "node-role.kubernetes.io/control-plane" }
    Status := { NumNodes := 0, Active := true, Conditions := [] } }

/-- A store with that monitor, three control-plane nodes and one worker. -/
def thresholdStore : MonitorStore :=
  { monitors := [thresholdMonitor]
    nodes :=
      [{ Name := "control-plane-0", Labels := [("node-role.kubernetes.io/control-plane", "")] },
       { Name := "control-plane-1", Labels := [("node-role.kubernetes.io/control-plane", "")] },
       { Name := "control-plane-2", Labels := [("node-role.kubernetes.io/control-plane", "")] },
       { Name := "worker-0", Labels := [("node-role.kubernetes.io/worker", "")] }] }

/-! ## Lemmas on the loops -/

theorem run.expect_get (env : Collaborators W T Obj Sch) (s : scenario W T Obj Sch)
    (idx : Nat) (step : reconcileStep W T Obj Sch) (key : NamespacedName) (w1 : W)
    (hstep : s.steps[idx]? = some step) (err : Option GoError) (obj : T)
    (hf : (match env.Get w1 key with
            | .ok obj => ((none : Option GoError), obj)
            | .error e => (some e, s.newObjectInstance env)) = (err, obj)) :
    run.expect env s (.get idx key w1) =
      if err ≠ none ∧ ¬ IsNotFound err then .stop (.returned (err.map (s.reconcileStepError step)))
      else run.expectAfterGet step idx w1 obj := by
  cases hg : env.Get w1 key with
  | ok o =>
    rw [hg] at hf
    simp only [Prod.mk.injEq] at hf
    obtain ⟨rfl, rfl⟩ := hf
    simp [run.expect, hstep, hg]
  | error e =>
    rw [hg] at hf
    simp only [Prod.mk.injEq] at hf
    obtain ⟨rfl, rfl⟩ := hf
    cases hnf : e.isNotFound <;>
      simp [run.expect, hstep, hg, hnf, IsNotFound, scenario.newObjectInstance]

theorem run.reconcileIteration_conforms (env : Collaborators W T Obj Sch) (s : scenario W T Obj Sch)
    (idx : Nat) (step : reconcileStep W T Obj Sch) (nextReq : NamespacedName) (w : W)
    (hstep : s.steps[idx]? = some step) :
    run.Conforms env s (run.reconcileIteration env s idx step nextReq w).2.2
      (run.reconcileIteration env s idx step nextReq w).1.returned? := by
  unfold run.reconcileIteration
  cases hr : s.reconciler with
  | none => intro n e hn; simp at hn
  | some r =>
    simp only []
    cases hterm : errorsIsTerminal (env.Reconcile w nextReq).1 with
    | true =>
      simp only [if_true]
      intro n e hn
      rcases n with _ | n
      · simp at hn; subst hn; simp [run.expect, hterm, IterationExit.returned?]
      · simp at hn
    | false =>
      simp only [Bool.false_eq_true, if_false]
      cases hc : s.client with
      | none =>
        simp only []
        intro n e hn
        rcases n with _ | n
        · simp at hn; subst hn; simp [run.expect, hterm, hc, IterationExit.returned?]
        · simp at hn
      | some c =>
        simp only []
        have hrec : run.expect env s (.reconcile idx nextReq w) =
            .event (.get idx nextReq (env.Reconcile w nextReq).2) := by
          simp [run.expect, hterm, hc]
        generalize hf : (match env.Get (env.Reconcile w nextReq).2 nextReq with
            | .ok obj => ((none : Option GoError), obj)
            | .error e => (some e, s.newObjectInstance env)) = fetched
        obtain ⟨err, obj⟩ := fetched
        have hget := run.expect_get env s idx step nextReq _ hstep err obj hf
        simp only []
        by_cases hfatal : err ≠ none ∧ ¬ IsNotFound err
        · rw [if_pos hfatal] at hget ⊢
          intro n e hn
          rcases n with _ | _ | n
          · simp at hn; subst hn; simp [hrec]
          · simp at hn; subst hn; simp [hget, IterationExit.returned?]
          · simp at hn
        · rw [if_neg hfatal] at hget ⊢
          cases hp : step.waitFor with
          | none =>
            simp only []
            intro n e hn
            rcases n with _ | _ | n
            · simp at hn; subst hn; simp [hrec]
            · simp at hn; subst hn; simp [hget, run.expectAfterGet, hp, IterationExit.returned?]
            · simp at hn
          | some p =>
            simp only []
            have hget' : run.expect env s (.get idx nextReq (env.Reconcile w nextReq).2) =
                .event (.waitFor idx (env.Reconcile w nextReq).2 obj (p (env.Reconcile w nextReq).2 obj).1) := by
              simp [hget, run.expectAfterGet, hp]
            cases hok : (p (env.Reconcile w nextReq).2 obj).1 with
            | false =>
              simp only [Bool.false_eq_true, if_false]
              intro n e hn
              rcases n with _ | _ | _ | n
              · simp at hn; subst hn; simp [hrec]
              · simp at hn; subst hn; simp [hget', hok]
              · simp at hn; subst hn
                cases ha : step.action <;> simp [run.expect, hstep, hp, ha]
              · simp at hn
            | true =>
              simp only [if_true]
              cases ha : step.action with
              | none =>
                simp only []
                intro n e hn
                rcases n with _ | _ | _ | n
                · simp at hn; subst hn; simp [hrec]
                · simp at hn; subst hn; simp [hget', hok]
                · simp at hn; subst hn; simp [run.expect, hstep, hp, ha]
                · simp at hn
              | some a =>
                simp only []
                intro n e hn
                rcases n with _ | _ | _ | _ | n
                · simp at hn; subst hn; simp [hrec]
                · simp at hn; subst hn; simp [hget', hok]
                · simp at hn; subst hn; simp [run.expect, hstep, hp, ha]
                · simp at hn; subst hn; simp [run.expect]
                · simp at hn

theorem run.Conforms_nil (env : Collaborators W T Obj Sch) (s : scenario W T Obj Sch)
    (r : Option (Outcome (Option GoError))) : run.Conforms env s [] r := by
  intro n e hn
  simp at hn

theorem run.Conforms_append (env : Collaborators W T Obj Sch) (s : scenario W T Obj Sch)
    (a b : List (Event W T)) (r : Option (Outcome (Option GoError)))
    (ha : run.Conforms env s a none) (hb : run.Conforms env s b r) :
    run.Conforms env s (a ++ b) r := by
  intro n e hn
  by_cases hlt : n < a.length
  · rw [List.getElem?_append_left hlt] at hn
    have h := ha n e hn
    cases hx : run.expect env s e with
    | stop out => rw [hx] at h; simp at h
    | event e' =>
      rw [hx] at h
      simp only at h ⊢
      have hlt' : n + 1 < a.length := by
        by_contra hge
        rw [List.getElem?_eq_none (by omega)] at h
        simp at h
      rw [List.getElem?_append_left hlt']
      exact h
    | free => trivial
  · have hge : a.length ≤ n := by omega
    rw [List.getElem?_append_right hge] at hn
    have h := hb (n - a.length) e hn
    cases hx : run.expect env s e with
    | stop out =>
      rw [hx] at h
      simp only at h ⊢
      refine ⟨?_, h.2⟩
      rw [List.length_append]
      omega
    | event e' =>
      rw [hx] at h
      simp only at h ⊢
      rw [List.getElem?_append_right (by omega)]
      have : n + 1 - a.length = n - a.length + 1 := by omega
      rw [this]
      exact h
    | free => trivial

theorem run.reconcileLoop_conforms (env : Collaborators W T Obj Sch) (s : scenario W T Obj Sch)
    (idx : Nat) (step : reconcileStep W T Obj Sch) (nextReq : NamespacedName)
    (hstep : s.steps[idx]? = some step) :
    ∀ (k : Nat) (reconcileCounter : Int) (w : W), (s.maxReconciles - reconcileCounter).toNat = k →
      run.Conforms env s (run.reconcileLoop env s idx step nextReq reconcileCounter w).2.2
        (run.reconcileLoop env s idx step nextReq reconcileCounter w).1.returned? := by
  intro k
  induction k with
  | zero =>
    intro c w hk
    rw [run.reconcileLoop]
    have : ¬ c < s.maxReconciles := by omega
    simp only [this, if_false]
    exact run.Conforms_nil env s _
  | succ k ih =>
    intro c w hk
    rw [run.reconcileLoop]
    have : c < s.maxReconciles := by omega
    simp only [this, if_true]
    have hit := run.reconcileIteration_conforms env s idx step nextReq w hstep
    generalize run.reconcileIteration env s idx step nextReq w = it at hit
    obtain ⟨ex, w1, tr⟩ := it
    cases ex with
    | ret r => exact hit
    | broke => exact hit
    | next =>
      simp only [IterationExit.returned?] at hit
      exact run.Conforms_append env s _ _ _ hit (ih (c + 1) w1 (by omega))

theorem run.Conforms_of_none (env : Collaborators W T Obj Sch) (s : scenario W T Obj Sch)
    (tr : List (Event W T)) (r : Option (Outcome (Option GoError)))
    (h : run.Conforms env s tr none) : run.Conforms env s tr r := by
  intro n e hn
  have h' := h n e hn
  cases hx : run.expect env s e with
  | stop out => rw [hx] at h'; simp at h'
  | event e' => rw [hx] at h'; exact h'
  | free => trivial

theorem steps_getElem?_length (pre : List (reconcileStep W T Obj Sch)) (step : reconcileStep W T Obj Sch)
    (rest : List (reconcileStep W T Obj Sch)) : (pre ++ step :: rest)[pre.length]? = some step := by
  rw [List.getElem?_append_right (le_refl _)]
  simp

theorem run.stepsLoop_conforms (env : Collaborators W T Obj Sch) (s : scenario W T Obj Sch) :
    ∀ (steps pre : List (reconcileStep W T Obj Sch)) (nextReq : NamespacedName) (w : W),
      s.steps = pre ++ steps →
      run.Conforms env s (run.stepsLoop env s steps pre.length nextReq w).2.2
        (run.stepsLoop env s steps pre.length nextReq w).1.returned? := by
  intro steps
  induction steps with
  | nil =>
    intro pre nextReq w _
    simp only [run.stepsLoop]
    exact run.Conforms_nil env s _
  | cons step rest ih =>
    intro pre nextReq w hs
    have hstep : s.steps[pre.length]? = some step := by
      rw [hs]; exact steps_getElem?_length pre step rest
    have ih' : ∀ (key : NamespacedName) (w' : W),
        run.Conforms env s (run.stepsLoop env s rest (pre.length + 1) key w').2.2
          (run.stepsLoop env s rest (pre.length + 1) key w').1.returned? := by
      intro key w'
      have := ih (pre ++ [step]) key w' (by rw [hs]; simp)
      simpa using this
    simp only [run.stepsLoop]
    cases hnr : step.nextReq with
    | some f =>
      simp only []
      cases hf : f s.client w with
      | panicked =>
        simp only []
        intro n e hn
        rcases n with _ | n
        · simp at hn; subst hn; simp [run.expect, hstep, hnr, hf, StepsExit.returned?]
        · simp at hn
      | returned v =>
        obtain ⟨⟨key, err⟩, w1⟩ := v
        simp only []
        cases err with
        | some err =>
          simp only []
          intro n e hn
          rcases n with _ | n
          · simp at hn; subst hn; simp [run.expect, hstep, hnr, hf, StepsExit.returned?]
          · simp at hn
        | none =>
          simp only []
          have h1 : run.Conforms env s [Event.nextReq pre.length w] none := by
            intro n e hn
            rcases n with _ | n
            · simp at hn; subst hn; simp [run.expect, hstep, hnr, hf]
            · simp at hn
          exact run.Conforms_append env s [Event.nextReq pre.length w] _ _ h1 (ih' key w1)
    | none =>
      simp only []
      have hl := run.reconcileLoop_conforms env s pre.length step nextReq hstep _ 0 w rfl
      generalize run.reconcileLoop env s pre.length step nextReq 0 w = lp at hl
      obtain ⟨ex, w1, tr⟩ := lp
      cases ex with
      | ret r => exact hl
      | done c =>
        simp only []
        simp only [LoopExit.returned?] at hl
        by_cases hc : c ≥ s.maxReconciles
        · simp only [hc, if_true]
          exact run.Conforms_of_none env s _ _ hl
        · simp only [hc, if_false]
          exact run.Conforms_append env s _ _ _ hl (ih' nextReq w1)

theorem run.conforms (env : Collaborators W T Obj Sch) (s : scenario W T Obj Sch) (w : W) :
    run.Conforms env s (s.run env w).2.2 (some (s.run env w).1) := by
  have h := run.stepsLoop_conforms env s s.steps [] { Name := "", Namespace := "" } w rfl
  simp only [List.length_nil] at h
  unfold scenario.run
  generalize run.stepsLoop env s s.steps 0 { Name := "", Namespace := "" } w = lp at h
  obtain ⟨ex, w1, tr⟩ := lp
  cases ex with
  | ret r => exact h
  | done key => exact run.Conforms_of_none env s _ _ h

theorem run.reconcileIteration_case (env : Collaborators W T Obj Sch) (s : scenario W T Obj Sch)
    (idx : Nat) (step : reconcileStep W T Obj Sch) (nextReq : NamespacedName) (w : W) :
    run.IterationCase env s idx step nextReq w (run.reconcileIteration env s idx step nextReq w) := by
  unfold run.reconcileIteration
  cases hr : s.reconciler with
  | none => exact .noReconciler hr
  | some r =>
    have hr' : s.reconciler ≠ none := by simp [hr]
    simp only []
    cases hterm : errorsIsTerminal (env.Reconcile w nextReq).1 with
    | true =>
      simp only [if_true]
      exact .terminal hr' hterm
    | false =>
      simp only [Bool.false_eq_true, if_false]
      cases hc : s.client with
      | none => exact .noClient hr' hterm hc
      | some c =>
        have hc' : s.client ≠ none := by simp [hc]
        simp only []
        cases hg : env.Get (env.Reconcile w nextReq).2 nextReq with
        | error e =>
          cases hnf : e.isNotFound with
          | false =>
            simp [IsNotFound, hnf]
            exact .fetchFailed e hr' hterm hc' hg hnf
          | true =>
            have hfe : run.Fetched env (env.Reconcile w nextReq).2 nextReq (s.newObjectInstance env) :=
              Or.inr ⟨e, hg, hnf, rfl⟩
            simp [IsNotFound, hnf]
            cases hp : step.waitFor with
            | none => exact .noPredicate _ hr' hterm hc' hfe hp
            | some p =>
              simp only []
              cases hok : (p (env.Reconcile w nextReq).2 (s.newObjectInstance env)).1 with
              | false =>
                simp only [Bool.false_eq_true, if_false]
                exact .unsatisfied _ p hr' hterm hc' hfe hp hok
              | true =>
                simp only [if_true]
                cases ha : step.action with
                | none => exact .satisfied _ p hr' hterm hc' hfe hp hok ha
                | some a => exact .satisfiedThen _ p a hr' hterm hc' hfe hp hok ha
        | ok obj =>
          have hfe : run.Fetched env (env.Reconcile w nextReq).2 nextReq obj := Or.inl hg
          simp only [ne_eq, not_true_eq_false, false_and, if_false]
          cases hp : step.waitFor with
          | none => exact .noPredicate _ hr' hterm hc' hfe hp
          | some p =>
            simp only []
            cases hok : (p (env.Reconcile w nextReq).2 obj).1 with
            | false =>
              simp only [Bool.false_eq_true, if_false]
              exact .unsatisfied _ p hr' hterm hc' hfe hp hok
            | true =>
              simp only [if_true]
              cases ha : step.action with
              | none => exact .satisfied _ p hr' hterm hc' hfe hp hok ha
              | some a => exact .satisfiedThen _ p a hr' hterm hc' hfe hp hok ha

theorem run.reconcileLoop_induct (env : Collaborators W T Obj Sch) (s : scenario W T Obj Sch)
    (idx : Nat) (step : reconcileStep W T Obj Sch) (nextReq : NamespacedName)
    (motive : Int → W → LoopExit × W × List (Event W T) → Prop)
    (hdone : ∀ c w, ¬ c < s.maxReconciles → motive c w (.done c, w, []))
    (hret : ∀ c w r w1 tr, c < s.maxReconciles →
      run.reconcileIteration env s idx step nextReq w = (.ret r, w1, tr) → motive c w (.ret r, w1, tr))
    (hbroke : ∀ c w w1 tr, c < s.maxReconciles →
      run.reconcileIteration env s idx step nextReq w = (.broke, w1, tr) → motive c w (.done 0, w1, tr))
    (hnext : ∀ c w w1 tr ex w2 tr2, c < s.maxReconciles →
      run.reconcileIteration env s idx step nextReq w = (.next, w1, tr) →
      run.reconcileLoop env s idx step nextReq (c + 1) w1 = (ex, w2, tr2) →
      motive (c + 1) w1 (ex, w2, tr2) → motive c w (ex, w2, tr ++ tr2)) :
    ∀ (c : Int) (w : W), motive c w (run.reconcileLoop env s idx step nextReq c w) := by
  have key : ∀ (k : Nat) (c : Int) (w : W), (s.maxReconciles - c).toNat = k →
      motive c w (run.reconcileLoop env s idx step nextReq c w) := by
    intro k
    induction k with
    | zero =>
      intro c w hk
      rw [run.reconcileLoop]
      have hlt : ¬ c < s.maxReconciles := by omega
      simp only [hlt, if_false]
      exact hdone c w hlt
    | succ k ih =>
      intro c w hk
      rw [run.reconcileLoop]
      have hlt : c < s.maxReconciles := by omega
      simp only [hlt, if_true]
      cases hit : run.reconcileIteration env s idx step nextReq w with
      | mk ex rest =>
        obtain ⟨w1, tr⟩ := rest
        cases ex with
        | ret r => exact hret c w r w1 tr hlt hit
        | broke => exact hbroke c w w1 tr hlt hit
        | next =>
          simp only []
          have h2 := ih (c + 1) w1 (by omega)
          cases hl : run.reconcileLoop env s idx step nextReq (c + 1) w1 with
          | mk ex2 rest2 =>
            obtain ⟨w2, tr2⟩ := rest2
            rw [hl] at h2
            exact hnext c w w1 tr ex2 w2 tr2 hlt hit hl h2
  intro c w
  exact key _ c w rfl

theorem run.reconcileIteration_step (env : Collaborators W T Obj Sch) (s : scenario W T Obj Sch)
    (idx : Nat) (step : reconcileStep W T Obj Sch) (nextReq : NamespacedName) (w : W) :
    ∀ e ∈ (run.reconcileIteration env s idx step nextReq w).2.2, e.step = some idx := by
  have h := run.reconcileIteration_case env s idx step nextReq w
  generalize run.reconcileIteration env s idx step nextReq w = it at h
  cases h <;> simp [Event.step]

theorem run.reconcileLoop_step (env : Collaborators W T Obj Sch) (s : scenario W T Obj Sch)
    (idx : Nat) (step : reconcileStep W T Obj Sch) (nextReq : NamespacedName) (c : Int) (w : W) :
    ∀ e ∈ (run.reconcileLoop env s idx step nextReq c w).2.2, e.step = some idx := by
  refine run.reconcileLoop_induct env s idx step nextReq
    (fun _ _ res => ∀ e ∈ res.2.2, e.step = some idx) ?_ ?_ ?_ ?_ c w
  · intro c w _ e he
    simp at he
  · intro c w r w1 tr _ hit e he
    have := run.reconcileIteration_step env s idx step nextReq w e
    rw [hit] at this
    exact this he
  · intro c w w1 tr _ hit e he
    have := run.reconcileIteration_step env s idx step nextReq w e
    rw [hit] at this
    exact this he
  · intro c w w1 tr ex w2 tr2 _ hit _ ih e he
    have := run.reconcileIteration_step env s idx step nextReq w e
    rw [hit] at this
    simp only [List.mem_append] at he
    rcases he with he | he
    · exact this he
    · exact ih e he

theorem run.stepsLoop_step (env : Collaborators W T Obj Sch) (s : scenario W T Obj Sch) :
    ∀ (steps : List (reconcileStep W T Obj Sch)) (idx : Nat) (nextReq : NamespacedName) (w : W),
      ∀ e ∈ (run.stepsLoop env s steps idx nextReq w).2.2,
        ∃ j, e.step = some j ∧ idx ≤ j ∧ j < idx + steps.length := by
  intro steps
  induction steps with
  | nil =>
    intro idx nextReq w e he
    simp [run.stepsLoop] at he
  | cons step rest ih =>
    intro idx nextReq w e he
    have ih' : ∀ key w', ∀ e ∈ (run.stepsLoop env s rest (idx + 1) key w').2.2,
        ∃ j, e.step = some j ∧ idx ≤ j ∧ j < idx + (step :: rest).length := by
      intro key w' e he
      obtain ⟨j, h1, h2, h3⟩ := ih (idx + 1) key w' e he
      exact ⟨j, h1, by omega, by simp only [List.length_cons]; omega⟩
    have hhere : ∀ e : Event W T, e.step = some idx →
        ∃ j, e.step = some j ∧ idx ≤ j ∧ j < idx + (step :: rest).length := by
      intro e h
      exact ⟨idx, h, le_refl _, by simp⟩
    simp only [run.stepsLoop] at he
    cases hnr : step.nextReq with
    | some f =>
      rw [hnr] at he
      simp only [] at he
      cases hf : f s.client w with
      | panicked =>
        rw [hf] at he
        simp at he
        subst he
        exact hhere _ rfl
      | returned v =>
        obtain ⟨⟨key, err⟩, w1⟩ := v
        rw [hf] at he
        cases err with
        | some err =>
          simp at he
          subst he
          exact hhere _ rfl
        | none =>
          simp only [List.mem_cons] at he
          rcases he with he | he
          · subst he
            exact hhere _ rfl
          · exact ih' key w1 e he
    | none =>
      rw [hnr] at he
      simp only [] at he
      have hl := run.reconcileLoop_step env s idx step nextReq 0 w
      generalize run.reconcileLoop env s idx step nextReq 0 w = lp at hl he
      obtain ⟨ex, w1, tr⟩ := lp
      cases ex with
      | ret r => exact hhere e (hl e he)
      | done c =>
        simp only [] at he
        by_cases hc : c ≥ s.maxReconciles
        · simp only [hc, if_true] at he
          exact hhere e (hl e he)
        · simp only [hc, if_false, List.mem_append] at he
          rcases he with he | he
          · exact hhere e (hl e he)
          · exact ih' nextReq w1 e he

theorem run.stepsLoop_append (env : Collaborators W T Obj Sch) (s : scenario W T Obj Sch) :
    ∀ (pre post : List (reconcileStep W T Obj Sch)) (idx : Nat) (nextReq : NamespacedName) (w : W),
      run.stepsLoop env s (pre ++ post) idx nextReq w =
        match run.stepsLoop env s pre idx nextReq w with
        | (.ret r, w1, tr) => (.ret r, w1, tr)
        | (.done key, w1, tr) =>
          ((run.stepsLoop env s post (idx + pre.length) key w1).1,
           (run.stepsLoop env s post (idx + pre.length) key w1).2.1,
           tr ++ (run.stepsLoop env s post (idx + pre.length) key w1).2.2) := by
  intro pre
  induction pre with
  | nil =>
    intro post idx nextReq w
    simp [run.stepsLoop]
  | cons step rest ih =>
    intro post idx nextReq w
    have hlen : ∀ k : Nat, idx + 1 + k = idx + (k + 1) := by intro k; omega
    simp only [List.cons_append, run.stepsLoop, List.length_cons, List.append_eq]
    cases hnr : step.nextReq with
    | some f =>
      simp only []
      cases hf : f s.client w with
      | panicked => rfl
      | returned v =>
        obtain ⟨⟨key, err⟩, w1⟩ := v
        cases err with
        | some err => rfl
        | none =>
          simp only []
          rw [ih post (idx + 1) key w1]
          generalize run.stepsLoop env s rest (idx + 1) key w1 = r1
          obtain ⟨ex, w2, tr⟩ := r1
          cases ex <;> simp [hlen]
    | none =>
      simp only []
      generalize run.reconcileLoop env s idx step nextReq 0 w = lp
      obtain ⟨ex, w1, tr⟩ := lp
      cases ex with
      | ret r => rfl
      | done c =>
        simp only []
        by_cases hc : c ≥ s.maxReconciles
        · simp only [hc, if_true]
        · simp only [hc, if_false]
          rw [ih post (idx + 1) nextReq w1]
          generalize run.stepsLoop env s rest (idx + 1) nextReq w1 = r1
          obtain ⟨ex, w2, tr⟩ := r1
          cases ex <;> simp [hlen]

theorem run.reconcileLoop_exhausted (env : Collaborators W T Obj Sch) (s : scenario W T Obj Sch)
    (idx : Nat) (step : reconcileStep W T Obj Sch) (nextReq : NamespacedName)
    (hr : s.reconciler ≠ none) (hc : s.client ≠ none) (hp : step.waitFor ≠ none) (c : Int) (w : W) :
    (∀ e ∈ (run.reconcileLoop env s idx step nextReq c w).2.2, e.endsRetries env = false) →
      (run.reconcileLoop env s idx step nextReq c w).1 = .done (max c s.maxReconciles) ∧
      (run.reconcileLoop env s idx step nextReq c w).2.2.countP (Event.isReconcile idx) =
        (s.maxReconciles - c).toNat := by
  refine run.reconcileLoop_induct env s idx step nextReq
    (fun c _ res => (∀ e ∈ res.2.2, e.endsRetries env = false) →
      res.1 = .done (max c s.maxReconciles) ∧
      res.2.2.countP (Event.isReconcile idx) = (s.maxReconciles - c).toNat) ?_ ?_ ?_ ?_ c w
  · intro c w hlt _
    refine ⟨?_, ?_⟩
    · simp only []
      congr 1
      omega
    · simp only [List.countP_nil]
      omega
  · intro c w r w1 tr _ hit hall
    exfalso
    have hcase := run.reconcileIteration_case env s idx step nextReq w
    rw [hit] at hcase
    cases hcase with
    | noReconciler h => exact hr h
    | terminal _ h =>
      have := hall _ (List.mem_singleton.mpr rfl)
      simp [Event.endsRetries, h] at this
    | noClient _ _ h => exact hc h
    | fetchFailed e _ _ _ hg hnf =>
      have := hall (.get idx nextReq (env.Reconcile w nextReq).2) (by simp)
      simp [Event.endsRetries, hg, hnf] at this
    | noPredicate _ _ _ _ _ h => exact hp h
  · intro c w w1 tr _ hit hall
    exfalso
    have hcase := run.reconcileIteration_case env s idx step nextReq w
    rw [hit] at hcase
    cases hcase with
    | satisfied obj p _ _ _ _ _ _ _ =>
      have := hall (.waitFor idx (env.Reconcile w nextReq).2 obj true) (by simp)
      simp [Event.endsRetries] at this
    | satisfiedThen obj p a _ _ _ _ _ _ _ =>
      have := hall (.waitFor idx (env.Reconcile w nextReq).2 obj true) (by simp)
      simp [Event.endsRetries] at this
  · intro c w w1 tr ex w2 tr2 hlt hit _ ih hall
    have hcase := run.reconcileIteration_case env s idx step nextReq w
    rw [hit] at hcase
    cases hcase with
    | unsatisfied obj p _ _ _ _ _ _ =>
      obtain ⟨h1, h2⟩ := ih (fun e he => hall e (List.mem_append_right _ he))
      simp only [] at h1 h2 ⊢
      refine ⟨?_, ?_⟩
      · rw [h1]
        congr 1
        omega
      · rw [List.countP_append, h2]
        simp [Event.isReconcile]
        omega

theorem run.stepsLoop_reached (env : Collaborators W T Obj Sch) (s : scenario W T Obj Sch)
    (pre : List (reconcileStep W T Obj Sch)) (step : reconcileStep W T Obj Sch)
    (post : List (reconcileStep W T Obj Sch)) (w : W) (key : NamespacedName) (w0 : W)
    (tr0 : List (Event W T))
    (hsteps : s.steps = pre ++ step :: post)
    (hreach : run.stepsLoop env s pre 0 { Name := "", Namespace := "" } w = (.done key, w0, tr0)) :
    s.run env w =
      match run.stepsLoop env s (step :: post) pre.length key w0 with
      | (.ret r, w1, tr) => (r, w1, tr0 ++ tr)
      | (.done _, w1, tr) => (.returned none, w1, tr0 ++ tr) := by
  unfold scenario.run
  rw [hsteps, run.stepsLoop_append, hreach]
  simp only [Nat.zero_add]
  generalize run.stepsLoop env s (step :: post) pre.length key w0 = r1
  obtain ⟨ex, w1, tr⟩ := r1
  cases ex <;> rfl

theorem run.at_wait_step (env : Collaborators W T Obj Sch) (s : scenario W T Obj Sch)
    (pre : List (reconcileStep W T Obj Sch)) (step : reconcileStep W T Obj Sch)
    (post : List (reconcileStep W T Obj Sch)) (w : W) (key : NamespacedName) (w0 : W)
    (tr0 : List (Event W T))
    (hsteps : s.steps = pre ++ step :: post)
    (hreach : run.stepsLoop env s pre 0 { Name := "", Namespace := "" } w = (.done key, w0, tr0))
    (hkind : step.nextReq = none) :
    (∃ tr2, (s.run env w).2.2 =
      tr0 ++ (run.reconcileLoop env s pre.length step key 0 w0).2.2 ++ tr2) ∧
    (∀ r, (run.reconcileLoop env s pre.length step key 0 w0).1 = .ret r →
      s.run env w = (r, (run.reconcileLoop env s pre.length step key 0 w0).2.1,
        tr0 ++ (run.reconcileLoop env s pre.length step key 0 w0).2.2)) ∧
    (∀ c, (run.reconcileLoop env s pre.length step key 0 w0).1 = .done c → c ≥ s.maxReconciles →
      s.run env w =
        (.returned (some (.plain
          ("`" ++ (if step.label = "" then "waiting condition #" ++ toString pre.length else step.label)
            ++ "` not satisfied, too many reconcile loops (" ++ toString s.maxReconciles ++ ")"))),
         (run.reconcileLoop env s pre.length step key 0 w0).2.1,
         tr0 ++ (run.reconcileLoop env s pre.length step key 0 w0).2.2)) := by
  rw [run.stepsLoop_reached env s pre step post w key w0 tr0 hsteps hreach]
  simp only [run.stepsLoop, hkind]
  generalize run.reconcileLoop env s pre.length step key 0 w0 = lp
  obtain ⟨ex, w1, tr⟩ := lp
  cases ex with
  | ret r =>
    refine ⟨⟨[], by simp⟩, ?_, ?_⟩
    · intro r' h
      simp only [LoopExit.ret.injEq] at h
      subst h
      rfl
    · intro c h
      simp at h
  | done c =>
    simp only []
    by_cases hc : c ≥ s.maxReconciles
    · simp only [hc, if_true]
      refine ⟨⟨[], by simp⟩, ?_, ?_⟩
      · intro r h
        simp at h
      · intro c' h _
        trivial
    · simp only [hc, if_false]
      refine ⟨?_, ?_, ?_⟩
      · generalize run.stepsLoop env s post (pre.length + 1) key w1 = r1
        obtain ⟨ex2, w2, tr2⟩ := r1
        cases ex2 <;> exact ⟨tr2, by simp⟩
      · intro r h
        simp at h
      · intro c' h hge
        simp only [LoopExit.done.injEq] at h
        subst h
        exact absurd hge hc

/-- C1 (retry bound).  Take a scenario whose client and reconciler are set, and a
WaitForCondition step at position `pre.length` of its step list that `run` reaches (the steps
before it complete).  If, in this run, no reconciler invocation of the step returns a terminal
error, every fetch of the step succeeds or reports not-found, and no evaluation of the step's
predicate answers true, then `run` fails, having invoked the reconciler for this step exactly
`maxReconciles` times (for a budget that is not negative; a negative budget gives no
invocation).  The budget is 20 in a new scenario and `n` after `WithMaxReconciles n`. -/
theorem C1_retry_bound (env : Collaborators W T Obj Sch) (s : scenario W T Obj Sch)
    (pre : List (reconcileStep W T Obj Sch)) (step : reconcileStep W T Obj Sch)
    (post : List (reconcileStep W T Obj Sch)) (w : W) (key : NamespacedName) (w0 : W)
    (tr0 : List (Event W T))
    (hsteps : s.steps = pre ++ step :: post)
    (hreach : run.stepsLoop env s pre 0 { Name := "", Namespace := "" } w = (.done key, w0, tr0))
    (hr : s.reconciler ≠ none) (hc : s.client ≠ none)
    (hkind : step.nextReq = none) (hp : step.waitFor ≠ none)
    (hterm : ∀ k wr, Event.reconcile pre.length k wr ∈ (s.run env w).2.2 →
      errorsIsTerminal (env.Reconcile wr k).1 = false)
    (hget : ∀ k wg e, Event.get pre.length k wg ∈ (s.run env w).2.2 →
      env.Get wg k = .error e → e.isNotFound = true)
    (hfalse : ∀ wp obj, Event.waitFor pre.length wp obj true ∉ (s.run env w).2.2) :
    (∃ err, (s.run env w).1 = .returned (some err)) ∧
    (s.run env w).2.2.countP (Event.isReconcile pre.length) = s.maxReconciles.toNat ∧
    (0 ≤ s.maxReconciles →
      ((s.run env w).2.2.countP (Event.isReconcile pre.length) : Int) = s.maxReconciles) ∧
    (newScenario : scenario W T Obj Sch).maxReconciles = 20 ∧
    ∀ n : Int, (s.WithMaxReconciles n).maxReconciles = n := by
  obtain ⟨⟨tr2, hpre⟩, _, hdone⟩ := run.at_wait_step env s pre step post w key w0 tr0 hsteps hreach hkind
  have hin : ∀ e ∈ (run.reconcileLoop env s pre.length step key 0 w0).2.2, e ∈ (s.run env w).2.2 := by
    intro e he
    rw [hpre]
    simp [he]
  have hall : ∀ e ∈ (run.reconcileLoop env s pre.length step key 0 w0).2.2,
      e.endsRetries env = false := by
    intro e he
    have hstep := run.reconcileLoop_step env s pre.length step key 0 w0 e he
    have hmem := hin e he
    cases e with
    | reconcile i k wr =>
      simp only [Event.step, Option.some.injEq] at hstep
      subst hstep
      exact hterm k wr hmem
    | get i k wg =>
      simp only [Event.step, Option.some.injEq] at hstep
      subst hstep
      simp only [Event.endsRetries]
      cases hg : env.Get wg k with
      | ok _ => rfl
      | error e => simp [hget k wg e hmem hg]
    | waitFor i wp obj res =>
      simp only [Event.step, Option.some.injEq] at hstep
      subst hstep
      cases res with
      | false => rfl
      | true => exact absurd hmem (hfalse wp obj)
    | _ => rfl
  obtain ⟨hex, hcount⟩ := run.reconcileLoop_exhausted env s pre.length step key hr hc hp 0 w0 hall
  have hrun := hdone _ hex (le_max_right _ _)
  have hzero : tr0.countP (Event.isReconcile pre.length) = 0 := by
    rw [List.countP_eq_zero]
    intro e he
    have := run.stepsLoop_step env s pre 0 { Name := "", Namespace := "" } w e
    rw [hreach] at this
    obtain ⟨j, hj, _, hlt⟩ := this he
    cases e <;> simp [Event.step] at hj <;> simp [Event.isReconcile]
    omega
  have hcnt : (s.run env w).2.2.countP (Event.isReconcile pre.length) = s.maxReconciles.toNat := by
    rw [hrun]
    simp only [List.countP_append, hzero, hcount]
    simp
  refine ⟨⟨_, by rw [hrun]⟩, hcnt, ?_, rfl, fun n => rfl⟩
  intro h0
  rw [hcnt]
  exact Int.toNat_of_nonneg h0

theorem sample_exhausted_run :
    (readyScenario 2 [targetStep "cm0", waitStep "" neverSatisfied]).run
        (sampleEnv sampleReconcile) sampleStore =
      (.returned (some (.plain "`waiting condition #1` not satisfied, too many reconcile loops (2)")),
       sampleStore,
       [.nextReq 0 sampleStore,
        .reconcile 1 { Name := "cm0", Namespace := "cm" } sampleStore,
        .get 1 { Name := "cm0", Namespace := "cm" } sampleStore,
        .waitFor 1 sampleStore "cm0" false,
        .reconcile 1 { Name := "cm0", Namespace := "cm" } sampleStore,
        .get 1 { Name := "cm0", Namespace := "cm" } sampleStore,
        .waitFor 1 sampleStore "cm0" false]) := by
  simp [scenario.run, run.stepsLoop, run.reconcileLoop, run.reconcileIteration, readyScenario,
    targetStep, waitStep, neverSatisfied, sampleEnv, sampleReconcile, sampleStore,
    NextRequest.nextReq, errorsIsTerminal, IsNotFound, scenario.newObjectInstance]
  decide

theorem sample_reach_target :
    run.stepsLoop (sampleEnv sampleReconcile)
        (readyScenario 2 [targetStep "cm0", waitStep "" neverSatisfied]) [targetStep "cm0"] 0
        { Name := "", Namespace := "" } sampleStore =
      (.done { Name := "cm0", Namespace := "cm" }, sampleStore, [.nextReq 0 sampleStore]) := by
  simp [run.stepsLoop, targetStep, NextRequest.nextReq]

/-- Witness of C1: the scenario of the test "max reconciles" with budget 2, after a NextRequest
step. -/
theorem C1_retry_bound_witness :
    (∃ err, ((readyScenario 2 [targetStep "cm0", waitStep "" neverSatisfied]).run
        (sampleEnv sampleReconcile) sampleStore).1 = .returned (some err)) ∧
    ((readyScenario 2 [targetStep "cm0", waitStep "" neverSatisfied]).run
        (sampleEnv sampleReconcile) sampleStore).2.2.countP (Event.isReconcile 1) = 2 ∧
    ((0 : Int) ≤ 2 →
      (((readyScenario 2 [targetStep "cm0", waitStep "" neverSatisfied]).run
        (sampleEnv sampleReconcile) sampleStore).2.2.countP (Event.isReconcile 1) : Int) = 2) ∧
    (newScenario : scenario SampleStore String (String × String) Nat).maxReconciles = 20 ∧
    ∀ n : Int, ((readyScenario 2 [targetStep "cm0", waitStep "" neverSatisfied]).WithMaxReconciles n).maxReconciles = n :=
  C1_retry_bound (sampleEnv sampleReconcile)
    (readyScenario 2 [targetStep "cm0", waitStep "" neverSatisfied])
    [targetStep "cm0"] (waitStep "" neverSatisfied) [] sampleStore
    { Name := "cm0", Namespace := "cm" } sampleStore [.nextReq 0 sampleStore]
    rfl sample_reach_target (by simp [readyScenario]) (by simp [readyScenario]) rfl
    (by simp [waitStep])
    (by intro k wr _; rfl)
    (by rw [sample_exhausted_run]; intro k wg e h; simp at h; obtain ⟨rfl, rfl⟩ := h; simp [sampleEnv, sampleStore])
    (by rw [sample_exhausted_run]; intro wp obj; simp)

/-- C2 (terminal short-circuit).  In every run, a reconciler invocation (made by any
WaitForCondition step, with any key, in any world) that returns an error whose chain holds the
terminal error makes `run` return nil at once: the invocation is the last call of the run, so
the record is not fetched, the step's predicate and action are not evaluated, and no later step
is touched.  An error `TerminalError(cause)` is terminal for every cause, and so is
`TerminalError(nil)`. -/
theorem C2_terminal_short_circuit (env : Collaborators W T Obj Sch) (s : scenario W T Obj Sch)
    (w : W) (n idx : Nat) (key : NamespacedName) (wr : W)
    (hcall : (s.run env w).2.2[n]? = some (.reconcile idx key wr))
    (hterm : errorsIsTerminal (env.Reconcile wr key).1 = true) :
    (s.run env w).1 = .returned none ∧ n + 1 = (s.run env w).2.2.length ∧
    (∀ cause : GoError, errorsIsTerminal (some (.terminal cause)) = true) ∧
    errorsIsTerminal (some .terminalNil) = true := by
  have h := run.conforms env s w n _ hcall
  simp only [run.expect, hterm, if_true] at h
  refine ⟨?_, h.1, fun _ => rfl, rfl⟩
  have h2 := h.2
  simp only [Option.some.injEq] at h2
  exact h2

theorem sample_terminal_run :
    (readyScenario 20 [targetStep "cm-0", waitStep "" alwaysSatisfied, targetStep "cm1",
        waitStep "later" alwaysSatisfied]).run (sampleEnv terminalReconcile) sampleStore =
      (.returned none, sampleStore,
       [.nextReq 0 sampleStore, .reconcile 1 { Name := "cm-0", Namespace := "cm" } sampleStore]) := by
  simp [scenario.run, run.stepsLoop, run.reconcileLoop, run.reconcileIteration, readyScenario,
    targetStep, waitStep, sampleEnv, terminalReconcile,
    NextRequest.nextReq, errorsIsTerminal, GoError.isTerminal]

/-- Witness of C2: the scenario of `TestReconcileTerminalError`, followed by two more steps. -/
theorem C2_terminal_short_circuit_witness :
    ((readyScenario 20 [targetStep "cm-0", waitStep "" alwaysSatisfied, targetStep "cm1",
        waitStep "later" alwaysSatisfied]).run (sampleEnv terminalReconcile) sampleStore).1 =
      .returned none ∧
    1 + 1 = ((readyScenario 20 [targetStep "cm-0", waitStep "" alwaysSatisfied, targetStep "cm1",
        waitStep "later" alwaysSatisfied]).run (sampleEnv terminalReconcile) sampleStore).2.2.length ∧
    (∀ cause : GoError, errorsIsTerminal (some (.terminal cause)) = true) ∧
    errorsIsTerminal (some .terminalNil) = true :=
  C2_terminal_short_circuit (sampleEnv terminalReconcile)
    (readyScenario 20 [targetStep "cm-0", waitStep "" alwaysSatisfied, targetStep "cm1",
        waitStep "later" alwaysSatisfied]) sampleStore 1 1 { Name := "cm-0", Namespace := "cm" }
    sampleStore (by rw [sample_terminal_run]; rfl) rfl

theorem run.reconcileIteration_droppingReconcileErrors (env : Collaborators W T Obj Sch)
    (s : scenario W T Obj Sch) (idx : Nat) (step : reconcileStep W T Obj Sch)
    (nextReq : NamespacedName) (w : W) :
    run.reconcileIteration env.droppingReconcileErrors s idx step nextReq w =
      run.reconcileIteration env s idx step nextReq w := by
  have h1 : errorsIsTerminal (env.droppingReconcileErrors.Reconcile w nextReq).1 =
      errorsIsTerminal (env.Reconcile w nextReq).1 := by
    simp only [Collaborators.droppingReconcileErrors]
    cases hterm : errorsIsTerminal (env.Reconcile w nextReq).1
    · rfl
    · simp [hterm]
  have h2 : (env.droppingReconcileErrors.Reconcile w nextReq).2 = (env.Reconcile w nextReq).2 := rfl
  have h3 : env.droppingReconcileErrors.Get = env.Get := rfl
  have h4 : s.newObjectInstance env.droppingReconcileErrors = s.newObjectInstance env := rfl
  unfold run.reconcileIteration
  simp only [h1, h2, h3, h4]

theorem run.reconcileLoop_droppingReconcileErrors (env : Collaborators W T Obj Sch)
    (s : scenario W T Obj Sch) (idx : Nat) (step : reconcileStep W T Obj Sch)
    (nextReq : NamespacedName) (c : Int) (w : W) :
    run.reconcileLoop env.droppingReconcileErrors s idx step nextReq c w =
      run.reconcileLoop env s idx step nextReq c w := by
  refine run.reconcileLoop_induct env s idx step nextReq
    (fun c w res => run.reconcileLoop env.droppingReconcileErrors s idx step nextReq c w = res)
    ?_ ?_ ?_ ?_ c w
  · intro c w hlt
    rw [run.reconcileLoop]
    simp [hlt]
  · intro c w r w1 tr hlt hit
    rw [run.reconcileLoop, run.reconcileIteration_droppingReconcileErrors, hit]
    simp [hlt]
  · intro c w w1 tr hlt hit
    rw [run.reconcileLoop, run.reconcileIteration_droppingReconcileErrors, hit]
    simp [hlt]
  · intro c w w1 tr ex w2 tr2 hlt hit _ ih
    rw [run.reconcileLoop, run.reconcileIteration_droppingReconcileErrors, hit]
    simp [hlt, ih]

theorem run.stepsLoop_droppingReconcileErrors (env : Collaborators W T Obj Sch)
    (s : scenario W T Obj Sch) :
    ∀ (steps : List (reconcileStep W T Obj Sch)) (idx : Nat) (nextReq : NamespacedName) (w : W),
      run.stepsLoop env.droppingReconcileErrors s steps idx nextReq w =
        run.stepsLoop env s steps idx nextReq w := by
  intro steps
  induction steps with
  | nil => intro idx nextReq w; rfl
  | cons step rest ih =>
    intro idx nextReq w
    simp only [run.stepsLoop, run.reconcileLoop_droppingReconcileErrors, ih]

theorem sample_failing_run :
    (readyScenario 20 [targetStep "cm0", waitStep "wait for cm0" alwaysSatisfied]).run
        (sampleEnv failingReconcile) sampleStore =
      (.returned none, sampleStore,
       [.nextReq 0 sampleStore,
        .reconcile 1 { Name := "cm0", Namespace := "cm" } sampleStore,
        .get 1 { Name := "cm0", Namespace := "cm" } sampleStore,
        .waitFor 1 sampleStore "cm0" true]) := by
  simp [scenario.run, run.stepsLoop, run.reconcileLoop, run.reconcileIteration, readyScenario,
    targetStep, waitStep, sampleEnv, failingReconcile, alwaysSatisfied, sampleStore,
    NextRequest.nextReq, errorsIsTerminal, GoError.isTerminal, IsNotFound,
    scenario.newObjectInstance]

/-- C3, counterexample.  With a reconciler that returns the ordinary error "boom" on every
invocation and a predicate that holds, `run` does not fail: it drops the error, fetches the
record, evaluates the predicate and returns nil. -/
theorem C3_counterexample :
    (failingReconcile sampleStore { Name := "cm0", Namespace := "cm" }).1 = some (.plain "boom") ∧
    errorsIsTerminal (some (.plain "boom")) = false ∧
    (readyScenario 20 [targetStep "cm0", waitStep "wait for cm0" alwaysSatisfied]).run
        (sampleEnv failingReconcile) sampleStore =
      (.returned none, sampleStore,
       [.nextReq 0 sampleStore,
        .reconcile 1 { Name := "cm0", Namespace := "cm" } sampleStore,
        .get 1 { Name := "cm0", Namespace := "cm" } sampleStore,
        .waitFor 1 sampleStore "cm0" true]) :=
  ⟨rfl, rfl, sample_failing_run⟩

/-- C3, as amended.  An error that a reconciler invocation inside a WaitForCondition step
returns, and whose chain holds no terminal error, is dropped: the next call of the run is the
fetch of the record at the same key, from the world the invocation left, and the whole run
(outcome, world, trace) is the run against a reconciler that returns nil in place of such
errors. -/
theorem C3_reconcile_error_dropped (env : Collaborators W T Obj Sch) (s : scenario W T Obj Sch)
    (w : W) (n idx : Nat) (key : NamespacedName) (wr : W) (err : GoError)
    (hcall : (s.run env w).2.2[n]? = some (.reconcile idx key wr))
    (herr : (env.Reconcile wr key).1 = some err) (hnt : err.isTerminal = false)
    (hc : s.client ≠ none) :
    (s.run env w).2.2[n + 1]? = some (.get idx key (env.Reconcile wr key).2) ∧
    s.run env w = s.run env.droppingReconcileErrors w := by
  refine ⟨?_, ?_⟩
  · have h := run.conforms env s w n _ hcall
    have hc' : s.client.isNone = false := by
      cases hcl : s.client with
      | none => exact absurd hcl hc
      | some _ => rfl
    simpa [run.expect, herr, errorsIsTerminal, hnt, hc'] using h
  · unfold scenario.run
    rw [run.stepsLoop_droppingReconcileErrors]

/-- Witness of C3 as amended: the run of the counterexample. -/
theorem C3_reconcile_error_dropped_witness :
    ((readyScenario 20 [targetStep "cm0", waitStep "wait for cm0" alwaysSatisfied]).run
        (sampleEnv failingReconcile) sampleStore).2.2[1 + 1]? =
      some (.get 1 { Name := "cm0", Namespace := "cm" }
        ((sampleEnv failingReconcile).Reconcile sampleStore { Name := "cm0", Namespace := "cm" }).2) ∧
    (readyScenario 20 [targetStep "cm0", waitStep "wait for cm0" alwaysSatisfied]).run
        (sampleEnv failingReconcile) sampleStore =
      (readyScenario 20 [targetStep "cm0", waitStep "wait for cm0" alwaysSatisfied]).run
        (sampleEnv failingReconcile).droppingReconcileErrors sampleStore :=
  C3_reconcile_error_dropped (sampleEnv failingReconcile)
    (readyScenario 20 [targetStep "cm0", waitStep "wait for cm0" alwaysSatisfied]) sampleStore
    1 1 { Name := "cm0", Namespace := "cm" } sampleStore (.plain "boom")
    (by rw [sample_failing_run]; rfl) rfl rfl (by simp [readyScenario])

theorem run.reconcileLoop_done_unsatisfied (env : Collaborators W T Obj Sch) (s : scenario W T Obj Sch)
    (idx : Nat) (step : reconcileStep W T Obj Sch) (nextReq : NamespacedName) (c : Int) (w : W) :
    ∀ c', (run.reconcileLoop env s idx step nextReq c w).1 = .done c' →
      (∀ e ∈ (run.reconcileLoop env s idx step nextReq c w).2.2, e.isSatisfied idx = false) →
      c' ≥ s.maxReconciles := by
  refine run.reconcileLoop_induct env s idx step nextReq
    (fun _ _ res => ∀ c', res.1 = .done c' → (∀ e ∈ res.2.2, e.isSatisfied idx = false) →
      c' ≥ s.maxReconciles) ?_ ?_ ?_ ?_ c w
  · intro c w hlt c' h _
    simp only [LoopExit.done.injEq] at h
    omega
  · intro c w r w1 tr _ _ c' h
    simp at h
  · intro c w w1 tr _ hit c' _ hall
    exfalso
    have hcase := run.reconcileIteration_case env s idx step nextReq w
    rw [hit] at hcase
    cases hcase with
    | satisfied obj p _ _ _ _ _ _ _ =>
      have := hall (.waitFor idx (env.Reconcile w nextReq).2 obj true) (by simp)
      simp [Event.isSatisfied] at this
    | satisfiedThen obj p a _ _ _ _ _ _ _ =>
      have := hall (.waitFor idx (env.Reconcile w nextReq).2 obj true) (by simp)
      simp [Event.isSatisfied] at this
  · intro c w w1 tr ex w2 tr2 _ _ _ ih c' h hall
    exact ih c' h (fun e he => hall e (List.mem_append_right _ he))

theorem run.exhausted (env : Collaborators W T Obj Sch) (s : scenario W T Obj Sch)
    (pre : List (reconcileStep W T Obj Sch)) (step : reconcileStep W T Obj Sch)
    (post : List (reconcileStep W T Obj Sch)) (w : W) (key : NamespacedName) (w0 : W)
    (tr0 : List (Event W T)) (c : Int)
    (hsteps : s.steps = pre ++ step :: post)
    (hreach : run.stepsLoop env s pre 0 { Name := "", Namespace := "" } w = (.done key, w0, tr0))
    (hkind : step.nextReq = none)
    (hexit : (run.reconcileLoop env s pre.length step key 0 w0).1 = .done c)
    (hnever : ∀ e ∈ (run.reconcileLoop env s pre.length step key 0 w0).2.2,
      e.isSatisfied pre.length = false) :
    (s.run env w).1 = .returned (some (.plain
      ("`" ++ (if step.label = "" then "waiting condition #" ++ toString pre.length else step.label)
        ++ "` not satisfied, too many reconcile loops (" ++ toString s.maxReconciles ++ ")"))) := by
  have hge := run.reconcileLoop_done_unsatisfied env s pre.length step key 0 w0 c hexit hnever
  have h := (run.at_wait_step env s pre step post w key w0 tr0 hsteps hreach hkind).2.2 c hexit hge
  rw [h]

/-- C4 (budget-exhaustion message).  Take a WaitForCondition step at zero-based position
`pre.length` of the step list that `run` reaches, and let it exhaust its budget: its reconcile
loop ends without `run` returning from inside it and without any evaluation of the predicate
answering true.  Then `run` returns an error whose text is exactly
"`L` not satisfied, too many reconcile loops (b)", where b is `maxReconciles` in decimal and L
is the step's label, or "waiting condition #" followed by the position in decimal when the
label is empty. -/
theorem C4_budget_exhaustion_message (env : Collaborators W T Obj Sch) (s : scenario W T Obj Sch)
    (pre : List (reconcileStep W T Obj Sch)) (step : reconcileStep W T Obj Sch)
    (post : List (reconcileStep W T Obj Sch)) (w : W) (key : NamespacedName) (w0 : W)
    (tr0 : List (Event W T)) (c : Int)
    (hsteps : s.steps = pre ++ step :: post)
    (hreach : run.stepsLoop env s pre 0 { Name := "", Namespace := "" } w = (.done key, w0, tr0))
    (hkind : step.nextReq = none)
    (hexit : (run.reconcileLoop env s pre.length step key 0 w0).1 = .done c)
    (hnever : ∀ e ∈ (run.reconcileLoop env s pre.length step key 0 w0).2.2,
      e.isSatisfied pre.length = false) :
    ∃ err, (s.run env w).1 = .returned (some err) ∧
      err.Error =
        "`" ++ (if step.label = "" then "waiting condition #" ++ toString pre.length else step.label)
          ++ "` not satisfied, too many reconcile loops (" ++ toString s.maxReconciles ++ ")" :=
  ⟨_, run.exhausted env s pre step post w key w0 tr0 c hsteps hreach hkind hexit hnever, rfl⟩

theorem sample_labelled_loop :
    run.reconcileLoop (sampleEnv sampleReconcile) (readyScenario 20 [waitStep "expected to fail" neverSatisfied])
        0 (waitStep "expected to fail" neverSatisfied) { Name := "", Namespace := "" } 0 sampleStore =
      (.done 20, sampleStore,
        List.flatten (List.replicate 20
          [.reconcile 0 { Name := "", Namespace := "" } sampleStore,
           .get 0 { Name := "", Namespace := "" } sampleStore,
           .waitFor 0 sampleStore "" false])) := by
  simp [run.reconcileLoop, run.reconcileIteration, readyScenario,
    waitStep, neverSatisfied, sampleEnv, sampleReconcile, sampleStore,
    errorsIsTerminal, IsNotFound, GoError.isNotFound, scenario.newObjectInstance, List.replicate]

/-- Witness of C4: the scenario of the test "unsatisfied condition". -/
theorem C4_budget_exhaustion_message_witness :
    ∃ err, ((readyScenario 20 [waitStep "expected to fail" neverSatisfied]).run
        (sampleEnv sampleReconcile) sampleStore).1 = .returned (some err) ∧
      err.Error = "`expected to fail` not satisfied, too many reconcile loops (20)" :=
  C4_budget_exhaustion_message (sampleEnv sampleReconcile)
    (readyScenario 20 [waitStep "expected to fail" neverSatisfied]) []
    (waitStep "expected to fail" neverSatisfied) [] sampleStore { Name := "", Namespace := "" }
    sampleStore [] 20 rfl rfl rfl
    (by rw [List.length_nil, sample_labelled_loop])
    (by rw [List.length_nil, sample_labelled_loop]; simp [List.replicate, Event.isSatisfied])

theorem sample_unlabelled_loop :
    run.reconcileLoop (sampleEnv sampleReconcile)
        (readyScenario defaultMaxReconciles [targetStep "cm0", waitStep "" neverSatisfied])
        1 (waitStep "" neverSatisfied) { Name := "cm0", Namespace := "cm" } 0 sampleStore =
      (.done 20, sampleStore,
        List.flatten (List.replicate 20
          [.reconcile 1 { Name := "cm0", Namespace := "cm" } sampleStore,
           .get 1 { Name := "cm0", Namespace := "cm" } sampleStore,
           .waitFor 1 sampleStore "cm0" false])) := by
  simp [run.reconcileLoop, run.reconcileIteration, readyScenario, defaultMaxReconciles,
    waitStep, neverSatisfied, sampleEnv, sampleReconcile, sampleStore,
    errorsIsTerminal, IsNotFound, GoError.isNotFound, scenario.newObjectInstance, List.replicate]

theorem sample_reach_unlabelled :
    run.stepsLoop (sampleEnv sampleReconcile)
        (readyScenario defaultMaxReconciles [targetStep "cm0", waitStep "" neverSatisfied])
        [targetStep "cm0"] 0 { Name := "", Namespace := "" } sampleStore =
      (.done { Name := "cm0", Namespace := "cm" }, sampleStore, [.nextReq 0 sampleStore]) := by
  simp [run.stepsLoop, targetStep, NextRequest.nextReq]

/-- C5, counterexample.  With the default budget, the steps `NextRequest("cm0", "cm")` and then
an unlabeled `ReconcileUntil` whose predicate never holds: the first unlabeled WaitForCondition
step exhausts its budget, and the message names it `waiting condition #1`, not
`waiting condition #0`. -/
theorem C5_counterexample :
    ((readyScenario defaultMaxReconciles [targetStep "cm0", waitStep "" neverSatisfied]).run
        (sampleEnv sampleReconcile) sampleStore).1 =
      .returned (some (.plain "`waiting condition #1` not satisfied, too many reconcile loops (20)")) ∧
    (GoError.plain "`waiting condition #1` not satisfied, too many reconcile loops (20)").Error ≠
      "`waiting condition #0` not satisfied, too many reconcile loops (20)" := by
  refine ⟨?_, by decide⟩
  exact run.exhausted (sampleEnv sampleReconcile)
    (readyScenario defaultMaxReconciles [targetStep "cm0", waitStep "" neverSatisfied])
    [targetStep "cm0"] (waitStep "" neverSatisfied) [] sampleStore
    { Name := "cm0", Namespace := "cm" } sampleStore [.nextReq 0 sampleStore] 20 rfl
    sample_reach_unlabelled rfl
    (by rw [List.length_singleton, sample_unlabelled_loop])
    (by rw [List.length_singleton, sample_unlabelled_loop]; simp [List.replicate, Event.isSatisfied])

/-- C5, as amended.  With the default budget, an unlabeled WaitForCondition step that `run`
reaches and that exhausts its budget makes `run` fail with exactly the message
"`waiting condition #i` not satisfied, too many reconcile loops (20)", where i is the
zero-based position of the step in the whole step list, the steps of every kind before it
counted; the message says `#0` when no step comes before it. -/
theorem C5_label_defaulting (env : Collaborators W T Obj Sch) (s : scenario W T Obj Sch)
    (pre : List (reconcileStep W T Obj Sch)) (step : reconcileStep W T Obj Sch)
    (post : List (reconcileStep W T Obj Sch)) (w : W) (key : NamespacedName) (w0 : W)
    (tr0 : List (Event W T)) (c : Int)
    (hsteps : s.steps = pre ++ step :: post)
    (hreach : run.stepsLoop env s pre 0 { Name := "", Namespace := "" } w = (.done key, w0, tr0))
    (hkind : step.nextReq = none)
    (hexit : (run.reconcileLoop env s pre.length step key 0 w0).1 = .done c)
    (hnever : ∀ e ∈ (run.reconcileLoop env s pre.length step key 0 w0).2.2,
      e.isSatisfied pre.length = false)
    (hlabel : step.label = "") (hbudget : s.maxReconciles = defaultMaxReconciles) :
    (∃ err, (s.run env w).1 = .returned (some err) ∧
      err.Error =
        "`waiting condition #" ++ toString pre.length ++ "` not satisfied, too many reconcile loops (20)") ∧
    (pre = [] → ∃ err, (s.run env w).1 = .returned (some err) ∧
      err.Error = "`waiting condition #0` not satisfied, too many reconcile loops (20)") := by
  have h := run.exhausted env s pre step post w key w0 tr0 c hsteps hreach hkind hexit hnever
  rw [hlabel, hbudget] at h
  simp only [if_true] at h
  have htext : ∀ i : Nat,
      (GoError.plain ("`" ++ ("waiting condition #" ++ toString i) ++
        "` not satisfied, too many reconcile loops (" ++ toString defaultMaxReconciles ++ ")")).Error =
      "`waiting condition #" ++ toString i ++ "` not satisfied, too many reconcile loops (20)" := by
    intro i
    have h20 : toString defaultMaxReconciles = "20" := by decide
    simp only [GoError.Error, h20, String.append_assoc]
    rfl
  refine ⟨⟨_, h, htext pre.length⟩, ?_⟩
  intro hpre
  refine ⟨_, h, ?_⟩
  rw [htext, hpre, List.length_nil]
  decide

theorem sample_first_loop :
    run.reconcileLoop (sampleEnv sampleReconcile)
        (readyScenario defaultMaxReconciles [waitStep "" neverSatisfied])
        0 (waitStep "" neverSatisfied) { Name := "", Namespace := "" } 0 sampleStore =
      (.done 20, sampleStore,
        List.flatten (List.replicate 20
          [.reconcile 0 { Name := "", Namespace := "" } sampleStore,
           .get 0 { Name := "", Namespace := "" } sampleStore,
           .waitFor 0 sampleStore "" false])) := by
  simp [run.reconcileLoop, run.reconcileIteration, readyScenario, defaultMaxReconciles,
    waitStep, neverSatisfied, sampleEnv, sampleReconcile, sampleStore,
    errorsIsTerminal, IsNotFound, GoError.isNotFound, scenario.newObjectInstance, List.replicate]

/-- Witness of C5 as amended: the scenario of the test "max reconciles" with the default
budget, whose only step is the unlabeled one. -/
theorem C5_label_defaulting_witness :
    (∃ err, ((readyScenario defaultMaxReconciles [waitStep "" neverSatisfied]).run
        (sampleEnv sampleReconcile) sampleStore).1 = .returned (some err) ∧
      err.Error =
        "`waiting condition #" ++ toString ([] : List (reconcileStep SampleStore String (String × String) Nat)).length
          ++ "` not satisfied, too many reconcile loops (20)") ∧
    (([] : List (reconcileStep SampleStore String (String × String) Nat)) = [] →
      ∃ err, ((readyScenario defaultMaxReconciles [waitStep "" neverSatisfied]).run
        (sampleEnv sampleReconcile) sampleStore).1 = .returned (some err) ∧
      err.Error = "`waiting condition #0` not satisfied, too many reconcile loops (20)") :=
  C5_label_defaulting (sampleEnv sampleReconcile)
    (readyScenario defaultMaxReconciles [waitStep "" neverSatisfied]) []
    (waitStep "" neverSatisfied) [] sampleStore { Name := "", Namespace := "" }
    sampleStore [] 20 rfl rfl rfl
    (by rw [List.length_nil, sample_first_loop])
    (by rw [List.length_nil, sample_first_loop]; simp [List.replicate, Event.isSatisfied])
    rfl rfl

/-- C6 (empty scenario).  For a scenario with no step, `test` returns the error whose text is
exactly "no steps found", and it has called nothing by then: its trace is empty (no schema
callback, no initial-state producer, no store built, no reconciler created), the world is
untouched and the scenario is unchanged, so that its fields `client` and `reconciler` are as
they were (unset in a scenario that has not run). -/
theorem C6_empty_scenario (env : Collaborators W T Obj Sch) (s : scenario W T Obj Sch) (w : W)
    (hsteps : s.steps = []) :
    (∃ err, (s.test env w).outcome = .returned (some err) ∧ err.Error = "no steps found") ∧
    (s.test env w).trace = [] ∧
    (s.test env w).world = w ∧
    (s.test env w).scenario = s ∧
    (s.client = none → (s.test env w).scenario.client = none) ∧
    (s.reconciler = none → (s.test env w).scenario.reconciler = none) := by
  have h : s.test env w =
      { outcome := .returned (some (.plain "no steps found")), scenario := s, world := w, trace := [] } := by
    simp [scenario.test, scenario.setupEnv, hsteps]
  rw [h]
  exact ⟨⟨_, rfl, rfl⟩, rfl, rfl, rfl, fun h => h, fun h => h⟩

/-- Witness of C6: the scenario of the test "at least one step is required". -/
theorem C6_empty_scenario_witness :
    (∃ err, (emptyScenario.test (sampleEnv sampleReconcile) sampleStore).outcome = .returned (some err) ∧
      err.Error = "no steps found") ∧
    (emptyScenario.test (sampleEnv sampleReconcile) sampleStore).trace = [] ∧
    (emptyScenario.test (sampleEnv sampleReconcile) sampleStore).world = sampleStore ∧
    (emptyScenario.test (sampleEnv sampleReconcile) sampleStore).scenario = emptyScenario ∧
    (emptyScenario.client = none →
      (emptyScenario.test (sampleEnv sampleReconcile) sampleStore).scenario.client = none) ∧
    (emptyScenario.reconciler = none →
      (emptyScenario.test (sampleEnv sampleReconcile) sampleStore).scenario.reconciler = none) :=
  C6_empty_scenario (sampleEnv sampleReconcile) emptyScenario sampleStore rfl

theorem Event.countP_other_step (tr : List (Event W T)) (i : Nat)
    (h : ∀ e ∈ tr, e.step ≠ some i) :
    tr.countP (Event.isSatisfied i) = 0 ∧ tr.countP (Event.isAction i) = 0 ∧
    tr.countP (Event.isReconcile i) = 0 := by
  refine ⟨?_, ?_, ?_⟩ <;>
  · rw [List.countP_eq_zero]
    intro e he
    have := h e he
    cases e <;> simp [Event.step] at this <;>
      simp [Event.isSatisfied, Event.isAction, Event.isReconcile, this]

theorem run.reconcileLoop_action_count (env : Collaborators W T Obj Sch) (s : scenario W T Obj Sch)
    (idx : Nat) (step : reconcileStep W T Obj Sch) (nextReq : NamespacedName) (c : Int) (w : W) :
    (run.reconcileLoop env s idx step nextReq c w).2.2.countP (Event.isSatisfied idx) ≤ 1 ∧
    (step.action ≠ none →
      (run.reconcileLoop env s idx step nextReq c w).2.2.countP (Event.isAction idx) =
        (run.reconcileLoop env s idx step nextReq c w).2.2.countP (Event.isSatisfied idx)) := by
  refine run.reconcileLoop_induct env s idx step nextReq
    (fun _ _ res => res.2.2.countP (Event.isSatisfied idx) ≤ 1 ∧
      (step.action ≠ none →
        res.2.2.countP (Event.isAction idx) = res.2.2.countP (Event.isSatisfied idx))) ?_ ?_ ?_ ?_ c w
  · intro c w _
    simp
  · intro c w r w1 tr _ hit
    have hcase := run.reconcileIteration_case env s idx step nextReq w
    rw [hit] at hcase
    cases hcase <;> simp [Event.isSatisfied, Event.isAction]
  · intro c w w1 tr _ hit
    have hcase := run.reconcileIteration_case env s idx step nextReq w
    rw [hit] at hcase
    cases hcase with
    | satisfied obj p _ _ _ _ _ _ ha => simp [Event.isSatisfied, Event.isAction, ha]
    | satisfiedThen obj p a _ _ _ _ _ _ _ => simp [Event.isSatisfied, Event.isAction]
  · intro c w w1 tr ex w2 tr2 _ hit _ ih
    have hcase := run.reconcileIteration_case env s idx step nextReq w
    rw [hit] at hcase
    cases hcase with
    | unsatisfied obj p _ _ _ _ _ _ =>
      simp only [List.countP_append]
      simpa [Event.isSatisfied, Event.isAction] using ih

theorem run.stepsLoop_action_count (env : Collaborators W T Obj Sch) (s : scenario W T Obj Sch) :
    ∀ (steps pre : List (reconcileStep W T Obj Sch)) (nextReq : NamespacedName) (w : W),
      s.steps = pre ++ steps →
      ∀ (i : Nat) (stepi : reconcileStep W T Obj Sch), s.steps[i]? = some stepi →
        (run.stepsLoop env s steps pre.length nextReq w).2.2.countP (Event.isSatisfied i) ≤ 1 ∧
        (stepi.action ≠ none →
          (run.stepsLoop env s steps pre.length nextReq w).2.2.countP (Event.isAction i) =
            (run.stepsLoop env s steps pre.length nextReq w).2.2.countP (Event.isSatisfied i)) := by
  intro steps
  induction steps with
  | nil =>
    intro pre nextReq w _ i stepi _
    simp [run.stepsLoop]
  | cons step rest ih =>
    intro pre nextReq w hs i stepi hi
    have hstep : s.steps[pre.length]? = some step := by
      rw [hs]; exact steps_getElem?_length pre step rest
    have ih' : ∀ (key : NamespacedName) (w' : W),
        (run.stepsLoop env s rest (pre.length + 1) key w').2.2.countP (Event.isSatisfied i) ≤ 1 ∧
        (stepi.action ≠ none →
          (run.stepsLoop env s rest (pre.length + 1) key w').2.2.countP (Event.isAction i) =
            (run.stepsLoop env s rest (pre.length + 1) key w').2.2.countP (Event.isSatisfied i)) := by
      intro key w'
      have := ih (pre ++ [step]) key w' (by rw [hs]; simp) i stepi hi
      simpa using this
    have hrest : ∀ (key : NamespacedName) (w' : W), i = pre.length →
        (run.stepsLoop env s rest (pre.length + 1) key w').2.2.countP (Event.isSatisfied i) = 0 ∧
        (run.stepsLoop env s rest (pre.length + 1) key w').2.2.countP (Event.isAction i) = 0 := by
      intro key w' hi'
      have := Event.countP_other_step (run.stepsLoop env s rest (pre.length + 1) key w').2.2 i (by
        intro e he hstep'
        obtain ⟨j, hj, hle, _⟩ := run.stepsLoop_step env s rest (pre.length + 1) key w' e he
        rw [hstep'] at hj
        simp only [Option.some.injEq] at hj
        omega)
      exact ⟨this.1, this.2.1⟩
    simp only [run.stepsLoop]
    cases hnr : step.nextReq with
    | some f =>
      simp only []
      cases hf : f s.client w with
      | panicked => simp [Event.isSatisfied, Event.isAction]
      | returned v =>
        obtain ⟨⟨key, err⟩, w1⟩ := v
        cases err with
        | some err => simp [Event.isSatisfied, Event.isAction]
        | none =>
          simp only [List.countP_cons]
          simpa [Event.isSatisfied, Event.isAction] using ih' key w1
    | none =>
      simp only []
      have hl := run.reconcileLoop_action_count env s pre.length step nextReq 0 w
      have hls := run.reconcileLoop_step env s pre.length step nextReq 0 w
      generalize run.reconcileLoop env s pre.length step nextReq 0 w = lp at hl hls
      obtain ⟨ex, w1, tr⟩ := lp
      simp only [] at hl hls
      have hhere : tr.countP (Event.isSatisfied i) ≤ 1 ∧
          (stepi.action ≠ none → tr.countP (Event.isAction i) = tr.countP (Event.isSatisfied i)) := by
        by_cases hi' : i = pre.length
        · subst hi'
          rw [hstep] at hi
          simp only [Option.some.injEq] at hi
          subst hi
          exact hl
        · have := Event.countP_other_step tr i (by
            intro e he hstep'
            rw [hls e he] at hstep'
            simp only [Option.some.injEq] at hstep'
            exact hi' hstep'.symm)
          simp [this.1, this.2.1]
      cases ex with
      | ret r => exact hhere
      | done c =>
        simp only []
        by_cases hc : c ≥ s.maxReconciles
        · simp only [hc, if_true]
          exact hhere
        · simp only [hc, if_false, List.countP_append]
          by_cases hi' : i = pre.length
          · obtain ⟨h1, h2⟩ := hrest nextReq w1 hi'
            rw [h1, h2]
            simpa using hhere
          · have := Event.countP_other_step tr i (by
              intro e he hstep'
              rw [hls e he] at hstep'
              simp only [Option.some.injEq] at hstep'
              exact hi' hstep'.symm)
            rw [this.1, this.2.1]
            simpa using ih' nextReq w1

/-- C7 (action exactly once, after its predicate).  Let the step at index `idx` of the step
list be a WaitForCondition step with predicate `p` and action `a`.  In every run: (1) an
evaluation of `p` that answers true is followed at once, with no call in between, by the
invocation of the action, on the store and the record the predicate was given, as the predicate
left them; (2) these are the very store and record the predicate was given when the predicate
changes neither; (3) the action of the step is invoked as many times as the predicate of the
step answers true; and (4) that is at most once - so once if the predicate ever answers true
and not at all if it never does. -/
theorem C7_action_once_after_predicate (env : Collaborators W T Obj Sch) (s : scenario W T Obj Sch)
    (w : W) (idx : Nat) (step : reconcileStep W T Obj Sch) (p : W → T → Bool × W × T)
    (a : W → T → W)
    (hstep : s.steps[idx]? = some step) (hp : step.waitFor = some p) (ha : step.action = some a) :
    (∀ n wp obj, (s.run env w).2.2[n]? = some (.waitFor idx wp obj true) →
      (s.run env w).2.2[n + 1]? = some (.action idx (p wp obj).2.1 (p wp obj).2.2)) ∧
    (∀ n wp obj, (s.run env w).2.2[n]? = some (.waitFor idx wp obj true) → (p wp obj).2 = (wp, obj) →
      (s.run env w).2.2[n + 1]? = some (.action idx wp obj)) ∧
    (s.run env w).2.2.countP (Event.isAction idx) = (s.run env w).2.2.countP (Event.isSatisfied idx) ∧
    (s.run env w).2.2.countP (Event.isSatisfied idx) ≤ 1 := by
  have hadj : ∀ n wp obj, (s.run env w).2.2[n]? = some (.waitFor idx wp obj true) →
      (s.run env w).2.2[n + 1]? = some (.action idx (p wp obj).2.1 (p wp obj).2.2) := by
    intro n wp obj hn
    have h := run.conforms env s w n _ hn
    simpa [run.expect, hstep, hp, ha] using h
  have hcount := run.stepsLoop_action_count env s s.steps [] { Name := "", Namespace := "" } w rfl
    idx step hstep
  have htr : (s.run env w).2.2 =
      (run.stepsLoop env s s.steps 0 { Name := "", Namespace := "" } w).2.2 := by
    unfold scenario.run
    generalize run.stepsLoop env s s.steps 0 { Name := "", Namespace := "" } w = lp
    obtain ⟨ex, w1, tr⟩ := lp
    cases ex <;> rfl
  simp only [List.length_nil] at hcount
  rw [← htr] at hcount
  refine ⟨hadj, ?_, hcount.2 (by simp [ha]), hcount.1⟩
  intro n wp obj hn hpure
  have := hadj n wp obj hn
  rw [hpure] at this
  exact this

/-- Witness of C7: a scenario shaped like the test "simulate event": a target, a condition with
an action, and a later condition. -/
theorem C7_action_once_after_predicate_witness :
    (∀ n wp obj,
      ((readyScenario 20 [targetStep "cm0", thenStep alwaysSatisfied, waitStep "after" alwaysSatisfied]).run
        (sampleEnv sampleReconcile) sampleStore).2.2[n]? = some (.waitFor 1 wp obj true) →
      ((readyScenario 20 [targetStep "cm0", thenStep alwaysSatisfied, waitStep "after" alwaysSatisfied]).run
        (sampleEnv sampleReconcile) sampleStore).2.2[n + 1]? =
        some (.action 1 (alwaysSatisfied wp obj).2.1 (alwaysSatisfied wp obj).2.2)) ∧
    (∀ n wp obj,
      ((readyScenario 20 [targetStep "cm0", thenStep alwaysSatisfied, waitStep "after" alwaysSatisfied]).run
        (sampleEnv sampleReconcile) sampleStore).2.2[n]? = some (.waitFor 1 wp obj true) →
      (alwaysSatisfied wp obj).2 = (wp, obj) →
      ((readyScenario 20 [targetStep "cm0", thenStep alwaysSatisfied, waitStep "after" alwaysSatisfied]).run
        (sampleEnv sampleReconcile) sampleStore).2.2[n + 1]? = some (.action 1 wp obj)) ∧
    ((readyScenario 20 [targetStep "cm0", thenStep alwaysSatisfied, waitStep "after" alwaysSatisfied]).run
        (sampleEnv sampleReconcile) sampleStore).2.2.countP (Event.isAction 1) =
      ((readyScenario 20 [targetStep "cm0", thenStep alwaysSatisfied, waitStep "after" alwaysSatisfied]).run
        (sampleEnv sampleReconcile) sampleStore).2.2.countP (Event.isSatisfied 1) ∧
    ((readyScenario 20 [targetStep "cm0", thenStep alwaysSatisfied, waitStep "after" alwaysSatisfied]).run
        (sampleEnv sampleReconcile) sampleStore).2.2.countP (Event.isSatisfied 1) ≤ 1 :=
  C7_action_once_after_predicate (sampleEnv sampleReconcile)
    (readyScenario 20 [targetStep "cm0", thenStep alwaysSatisfied, waitStep "after" alwaysSatisfied])
    sampleStore 1 (thenStep alwaysSatisfied) alwaysSatisfied sampleAction rfl rfl rfl

theorem run.reconcileIteration_readingNotFoundAsZero (env : Collaborators W T Obj Sch)
    (s : scenario W T Obj Sch) (idx : Nat) (step : reconcileStep W T Obj Sch)
    (nextReq : NamespacedName) (w : W) :
    run.reconcileIteration env.readingNotFoundAsZero s idx step nextReq w =
      run.reconcileIteration env s idx step nextReq w := by
  have h1 : env.readingNotFoundAsZero.Reconcile = env.Reconcile := rfl
  have h2 : s.newObjectInstance env.readingNotFoundAsZero = s.newObjectInstance env := rfl
  have h3 : ∀ w1, env.readingNotFoundAsZero.Get w1 nextReq =
      match env.Get w1 nextReq with
      | .ok obj => .ok obj
      | .error e => if e.isNotFound then .ok env.zeroObject else .error e := fun _ => rfl
  unfold run.reconcileIteration
  simp only [h1, h2, h3]
  cases s.reconciler with
  | none => rfl
  | some r =>
    simp only []
    cases errorsIsTerminal (env.Reconcile w nextReq).1 with
    | true => rfl
    | false =>
      simp only [Bool.false_eq_true, if_false]
      cases s.client with
      | none => rfl
      | some c =>
        simp only []
        cases hg : env.Get (env.Reconcile w nextReq).2 nextReq with
        | ok obj => rfl
        | error e =>
          cases hnf : e.isNotFound <;>
            simp [IsNotFound, hnf, scenario.newObjectInstance]

theorem run.reconcileLoop_readingNotFoundAsZero (env : Collaborators W T Obj Sch)
    (s : scenario W T Obj Sch) (idx : Nat) (step : reconcileStep W T Obj Sch)
    (nextReq : NamespacedName) (c : Int) (w : W) :
    run.reconcileLoop env.readingNotFoundAsZero s idx step nextReq c w =
      run.reconcileLoop env s idx step nextReq c w := by
  refine run.reconcileLoop_induct env s idx step nextReq
    (fun c w res => run.reconcileLoop env.readingNotFoundAsZero s idx step nextReq c w = res)
    ?_ ?_ ?_ ?_ c w
  · intro c w hlt
    rw [run.reconcileLoop]
    simp [hlt]
  · intro c w r w1 tr hlt hit
    rw [run.reconcileLoop, run.reconcileIteration_readingNotFoundAsZero, hit]
    simp [hlt]
  · intro c w w1 tr hlt hit
    rw [run.reconcileLoop, run.reconcileIteration_readingNotFoundAsZero, hit]
    simp [hlt]
  · intro c w w1 tr ex w2 tr2 hlt hit _ ih
    rw [run.reconcileLoop, run.reconcileIteration_readingNotFoundAsZero, hit]
    simp [hlt, ih]

theorem run.stepsLoop_readingNotFoundAsZero (env : Collaborators W T Obj Sch)
    (s : scenario W T Obj Sch) :
    ∀ (steps : List (reconcileStep W T Obj Sch)) (idx : Nat) (nextReq : NamespacedName) (w : W),
      run.stepsLoop env.readingNotFoundAsZero s steps idx nextReq w =
        run.stepsLoop env s steps idx nextReq w := by
  intro steps
  induction steps with
  | nil => intro idx nextReq w; rfl
  | cons step rest ih =>
    intro idx nextReq w
    simp only [run.stepsLoop, run.reconcileLoop_readingNotFoundAsZero, ih]

/-- C8 (not-found is tolerated).  In every run, when the fetch made by a WaitForCondition step
reports not-found, `run` does not stop: the next call is the evaluation of the step's predicate
on a freshly created record (`newObjectInstance`), whose name is empty, and in the world the
fetch was made in; and the whole run (outcome, world, trace) is the run against a store that
answers with a zeroed record wherever this one reports not-found, so that the loop goes on by
the predicate's answer as after any successful fetch. -/
theorem C8_not_found_tolerated (env : Collaborators W T Obj Sch) (s : scenario W T Obj Sch)
    (w : W) (n idx : Nat) (key : NamespacedName) (wg : W) (e : GoError)
    (step : reconcileStep W T Obj Sch) (p : W → T → Bool × W × T)
    (hcall : (s.run env w).2.2[n]? = some (.get idx key wg))
    (hget : env.Get wg key = .error e) (hnf : e.isNotFound = true)
    (hstep : s.steps[idx]? = some step) (hp : step.waitFor = some p) :
    (s.run env w).2.2[n + 1]? =
      some (.waitFor idx wg (s.newObjectInstance env) (p wg (s.newObjectInstance env)).1) ∧
    env.objectName (s.newObjectInstance env) = "" ∧
    s.run env w = s.run env.readingNotFoundAsZero w := by
  refine ⟨?_, env.zeroObject_name, ?_⟩
  · have h := run.conforms env s w n _ hcall
    simpa [run.expect, hstep, hget, hnf, run.expectAfterGet, hp, scenario.newObjectInstance] using h
  · unfold scenario.run
    rw [run.stepsLoop_readingNotFoundAsZero]

theorem sample_node_run :
    (readyScenario 20 [bareTargetStep "node", waitStep "" nameIsEmpty]).run
        (sampleEnv sampleReconcile) nodeStore =
      (.returned none, nodeStore,
       [.nextReq 0 nodeStore,
        .reconcile 1 { Name := "node", Namespace := "" } nodeStore,
        .get 1 { Name := "node", Namespace := "" } nodeStore,
        .waitFor 1 nodeStore "" true]) := by
  simp [scenario.run, run.stepsLoop, run.reconcileLoop, run.reconcileIteration, readyScenario,
    bareTargetStep, waitStep, sampleEnv, sampleReconcile, nameIsEmpty, nodeStore,
    NextRequest.nextReq, errorsIsTerminal, GoError.isTerminal, IsNotFound, GoError.isNotFound,
    scenario.newObjectInstance]

/-- Witness of C8: the scenario of the test "different type on next request": the key names
a node, the resource type is the config map, the fetch reports not-found. -/
theorem C8_not_found_tolerated_witness :
    ((readyScenario 20 [bareTargetStep "node", waitStep "" nameIsEmpty]).run
        (sampleEnv sampleReconcile) nodeStore).2.2[2 + 1]? =
      some (.waitFor 1 nodeStore
        ((readyScenario 20 [bareTargetStep "node", waitStep "" nameIsEmpty]).newObjectInstance
          (sampleEnv sampleReconcile))
        (nameIsEmpty nodeStore
          ((readyScenario 20 [bareTargetStep "node", waitStep "" nameIsEmpty]).newObjectInstance
            (sampleEnv sampleReconcile))).1) ∧
    (sampleEnv sampleReconcile).objectName
      ((readyScenario 20 [bareTargetStep "node", waitStep "" nameIsEmpty]).newObjectInstance
        (sampleEnv sampleReconcile)) = "" ∧
    (readyScenario 20 [bareTargetStep "node", waitStep "" nameIsEmpty]).run
        (sampleEnv sampleReconcile) nodeStore =
      (readyScenario 20 [bareTargetStep "node", waitStep "" nameIsEmpty]).run
        (sampleEnv sampleReconcile).readingNotFoundAsZero nodeStore :=
  C8_not_found_tolerated (sampleEnv sampleReconcile)
    (readyScenario 20 [bareTargetStep "node", waitStep "" nameIsEmpty]) nodeStore 2 1
    { Name := "node", Namespace := "" } nodeStore (.notFound "configmaps node not found")
    (waitStep "" nameIsEmpty) nameIsEmpty
    (by rw [sample_node_run]; rfl) (by simp [sampleEnv, nodeStore]) rfl rfl rfl

/-- C9 (other fetch errors are fatal).  In every run, when the fetch made by the
WaitForCondition step at index `idx` fails with an error `e` that is not not-found, `run`
fails with `e` wrapped as "step `L` failure: C", L the step's label and C the text of `e`, and
the fetch is the last call of the run: neither the predicate nor the action is evaluated, and
no reconciler invocation or step follows. -/
theorem C9_fetch_error_fatal (env : Collaborators W T Obj Sch) (s : scenario W T Obj Sch)
    (w : W) (n idx : Nat) (key : NamespacedName) (wg : W) (e : GoError)
    (step : reconcileStep W T Obj Sch)
    (hcall : (s.run env w).2.2[n]? = some (.get idx key wg))
    (hget : env.Get wg key = .error e) (hnf : e.isNotFound = false)
    (hstep : s.steps[idx]? = some step) :
    (s.run env w).1 = .returned (some (s.reconcileStepError step e)) ∧
    (s.reconcileStepError step e).Error = "step `" ++ step.label ++ "` failure: " ++ e.Error ∧
    n + 1 = (s.run env w).2.2.length := by
  have h := run.conforms env s w n _ hcall
  simp only [run.expect, hstep, hget, hnf, Bool.false_eq_true, if_false] at h
  refine ⟨?_, rfl, h.1⟩
  have h2 := h.2
  simp only [Option.some.injEq] at h2
  exact h2

theorem sample_unregistered_run :
    (readyScenario 20 [waitStep "wait for cm0" alwaysSatisfied]).run
        (sampleEnv sampleReconcile) unregisteredStore =
      (.returned (some (.wrap
          "step `wait for cm0` failure: no kind is registered for the type v1.ConfigMap"
          (.plain "no kind is registered for the type v1.ConfigMap"))),
       unregisteredStore,
       [.reconcile 0 { Name := "", Namespace := "" } unregisteredStore,
        .get 0 { Name := "", Namespace := "" } unregisteredStore]) := by
  simp [scenario.run, run.stepsLoop, run.reconcileLoop, run.reconcileIteration, readyScenario,
    waitStep, sampleEnv, sampleReconcile, unregisteredStore, scenario.reconcileStepError,
    errorsIsTerminal, GoError.isTerminal, IsNotFound, GoError.isNotFound, GoError.Error,
    scenario.newObjectInstance]

/-- Witness of C9: a store whose scheme does not know the resource type. -/
theorem C9_fetch_error_fatal_witness :
    ((readyScenario 20 [waitStep "wait for cm0" alwaysSatisfied]).run
        (sampleEnv sampleReconcile) unregisteredStore).1 =
      .returned (some ((readyScenario 20 [waitStep "wait for cm0" alwaysSatisfied]).reconcileStepError
        (waitStep "wait for cm0" alwaysSatisfied)
        (.plain "no kind is registered for the type v1.ConfigMap"))) ∧
    ((readyScenario 20 [waitStep "wait for cm0" alwaysSatisfied]).reconcileStepError
        (waitStep "wait for cm0" alwaysSatisfied)
        (.plain "no kind is registered for the type v1.ConfigMap")).Error =
      "step `" ++ (waitStep "wait for cm0" alwaysSatisfied).label ++ "` failure: " ++
        (GoError.plain "no kind is registered for the type v1.ConfigMap").Error ∧
    1 + 1 = ((readyScenario 20 [waitStep "wait for cm0" alwaysSatisfied]).run
        (sampleEnv sampleReconcile) unregisteredStore).2.2.length :=
  C9_fetch_error_fatal (sampleEnv sampleReconcile)
    (readyScenario 20 [waitStep "wait for cm0" alwaysSatisfied]) unregisteredStore 1 0
    { Name := "", Namespace := "" } unregisteredStore
    (.plain "no kind is registered for the type v1.ConfigMap")
    (waitStep "wait for cm0" alwaysSatisfied)
    (by rw [sample_unregistered_run]; rfl) rfl rfl rfl

/-- C10 (SetTarget failure).  In every run, when the key producer of the SetTarget step at
index `idx` returns an error `e`, `run` fails with `e` wrapped as "step `L` failure: C", L
the step's label and C the text of `e`, and the call of the producer is the last call of the
run: no later step is executed and the reconciler is not invoked afterwards.  The steps that
`NextRequest` and `NextRequestObject` append have the empty label, for which the text is
"step `` failure: C". -/
theorem C10_set_target_failure (env : Collaborators W T Obj Sch) (s : scenario W T Obj Sch)
    (w : W) (n idx : Nat) (wn : W) (step : reconcileStep W T Obj Sch)
    (f : Option (ClientRef Obj Sch) → W → Outcome ((NamespacedName × Option GoError) × W))
    (key : NamespacedName) (e : GoError) (w1 : W)
    (hcall : (s.run env w).2.2[n]? = some (.nextReq idx wn))
    (hstep : s.steps[idx]? = some step) (hf : step.nextReq = some f)
    (hfail : f s.client wn = .returned ((key, some e), w1)) :
    (s.run env w).1 = .returned (some (s.reconcileStepError step e)) ∧
    (s.reconcileStepError step e).Error = "step `" ++ step.label ++ "` failure: " ++ e.Error ∧
    n + 1 = (s.run env w).2.2.length ∧
    (step.label = "" → (s.reconcileStepError step e).Error = "step `` failure: " ++ e.Error) ∧
    (∀ (s0 : scenario W T Obj Sch) (name : String) (namespaces : List String),
      (s0.NextRequest name namespaces).steps.getLast?.map reconcileStep.label = some "") ∧
    (∀ (s0 : scenario W T Obj Sch) (nextReqObj : W → Obj × W),
      (s0.NextRequestObject env nextReqObj).steps.getLast?.map reconcileStep.label = some "") := by
  have h := run.conforms env s w n _ hcall
  simp only [run.expect, hstep, hf, hfail] at h
  refine ⟨?_, rfl, h.1, ?_, ?_, ?_⟩
  · have h2 := h.2
    simp only [Option.some.injEq] at h2
    exact h2
  · intro hl
    simp [scenario.reconcileStepError, GoError.Error, hl]
  · intro s0 name namespaces
    simp [scenario.NextRequest]
  · intro s0 nextReqObj
    simp [scenario.NextRequestObject]

theorem sample_nameless_run :
    ((readyScenario 20 []).NextRequestObject (sampleEnv sampleReconcile) namelessObject).run
        (sampleEnv sampleReconcile) sampleStore =
      (.returned (some (.wrap
          "step `` failure:  \x22\x22 is invalid: metadata.name: Required value: name is required"
          (.plain " \x22\x22 is invalid: metadata.name: Required value: name is required"))),
       sampleStore, [.nextReq 0 sampleStore]) := by
  simp [scenario.run, run.stepsLoop, readyScenario, scenario.NextRequestObject,
    NextRequestObject.nextReq, namelessObject, sampleEnv, scenario.reconcileStepError,
    GoError.Error]

/-- Witness of C10: the scenario of the test "error during next request object creation". -/
theorem C10_set_target_failure_witness :
    (((readyScenario 20 []).NextRequestObject (sampleEnv sampleReconcile) namelessObject).run
        (sampleEnv sampleReconcile) sampleStore).1 =
      .returned (some (.wrap
        "step `` failure:  \x22\x22 is invalid: metadata.name: Required value: name is required"
        (.plain " \x22\x22 is invalid: metadata.name: Required value: name is required"))) ∧
    (GoError.wrap
        "step `` failure:  \x22\x22 is invalid: metadata.name: Required value: name is required"
        (.plain " \x22\x22 is invalid: metadata.name: Required value: name is required")).Error =
      "step `` failure:  \x22\x22 is invalid: metadata.name: Required value: name is required" ∧
    0 + 1 = (((readyScenario 20 []).NextRequestObject (sampleEnv sampleReconcile) namelessObject).run
        (sampleEnv sampleReconcile) sampleStore).2.2.length := by
  have h := C10_set_target_failure (sampleEnv sampleReconcile)
    ((readyScenario 20 []).NextRequestObject (sampleEnv sampleReconcile) namelessObject)
    sampleStore 0 0 sampleStore
    { label := "", waitFor := none, action := none,
      nextReq := some (NextRequestObject.nextReq (sampleEnv sampleReconcile) namelessObject) }
    (NextRequestObject.nextReq (sampleEnv sampleReconcile) namelessObject)
    { Name := "", Namespace := "" }
    (.plain " \x22\x22 is invalid: metadata.name: Required value: name is required") sampleStore
    (by rw [sample_nameless_run]; rfl) rfl rfl rfl
  refine ⟨?_, rfl, h.2.2.1⟩
  rw [h.1]
  decide

theorem String.intercalate_go_append (sep x y : String) (l : List String) :
    String.intercalate.go (x ++ y) sep l = x ++ String.intercalate.go y sep l := by
  induction l generalizing y with
  | nil => rfl
  | cons a rest ih =>
    simp only [String.intercalate.go]
    rw [String.append_assoc, String.append_assoc, ih, String.append_assoc]

theorem String.intercalate_cons_cons (sep a b : String) (rest : List String) :
    String.intercalate sep (a :: b :: rest) = a ++ sep ++ String.intercalate sep (b :: rest) := by
  simp only [String.intercalate, String.intercalate.go]
  rw [String.append_assoc, String.intercalate_go_append, String.intercalate_go_append,
    String.append_assoc]

/-- C19 (NextRequest resolves to a literal key).  For every name and every list of namespace
arguments, the key producer built by `NextRequest` returns, whatever the client and the world
it is called in, the key made of the name and of the first namespace argument (the empty
namespace when there is none; later arguments are not looked at), with no error and with the
world as it was; and `NextRequest` appends a step holding that producer and nothing else. -/
theorem C19_next_request_literal_key (s : scenario W T Obj Sch) (name : String)
    (namespaces : List String) :
    (∀ (client : Option (ClientRef Obj Sch)) (w : W),
      NextRequest.nextReq name namespaces client w =
        .returned (({ Name := name,
                      Namespace := match namespaces with
                        | [] => ""
                        | first :: _ => first }, none), w)) ∧
    (∀ (first : String) (others : List String) (client : Option (ClientRef Obj Sch)) (w : W),
      NextRequest.nextReq name (first :: others) client w =
        NextRequest.nextReq name [first] client w) ∧
    (s.NextRequest name namespaces).steps =
      s.steps ++ [{ label := "", waitFor := none, action := none,
                    nextReq := some (NextRequest.nextReq name namespaces) }] := by
  refine ⟨?_, ?_, rfl⟩
  · intro client w
    cases namespaces <;> simp [NextRequest.nextReq]
  · intro first others client w
    simp [NextRequest.nextReq]

/-- C20 (label joining).  `ReconcileUntil(predicate, labels...)` appends one step with that
predicate, no action and no key producer, whose label is the labels joined with ", ": the
empty string for no label, the label itself for one label, and for more the first label,
", " and the join of the others. -/
theorem C20_label_joining (s : scenario W T Obj Sch) (waitFor : Option (W → T → Bool × W × T))
    (labels : List String) :
    (s.ReconcileUntil waitFor labels).steps =
      s.steps ++ [{ label := String.intercalate ", " labels, waitFor := waitFor, action := none,
                    nextReq := none }] ∧
    String.intercalate ", " [] = "" ∧
    (∀ label : String, String.intercalate ", " [label] = label) ∧
    (∀ (a b : String) (rest : List String),
      String.intercalate ", " (a :: b :: rest) = a ++ ", " ++ String.intercalate ", " (b :: rest)) :=
  ⟨rfl, rfl, fun _ => rfl, fun a b rest => String.intercalate_cons_cons ", " a b rest⟩

/-- C15 (Then rewrites the last step in place).  For a scenario whose step list ends with the
step `last`, `Then(action, labels...)` returns the scenario with the same fields and the same
steps but the last, which keeps its predicate and key producer, gets `action` as its action and
the labels joined with ", " as its label - the empty string when no label is given.  After
`ReconcileUntil(p, l0...)`, the label given there is gone. -/
theorem C15_then_rewrites_last (s : scenario W T Obj Sch)
    (init : List (reconcileStep W T Obj Sch)) (last : reconcileStep W T Obj Sch)
    (action : Option (W → T → W)) (labels : List String)
    (hsteps : s.steps = init ++ [last]) :
    s.Then action labels =
      .returned { s with steps := init ++
        [{ label := String.intercalate ", " labels, waitFor := last.waitFor, action := action,
           nextReq := last.nextReq }] } ∧
    (∀ s1, s.Then action labels = .returned s1 → s1.steps.length = s.steps.length) ∧
    (∀ s1, s.Then action labels = .returned s1 → ∀ i, i < init.length → s1.steps[i]? = s.steps[i]?) ∧
    s.Then action [] =
      .returned { s with steps := init ++
        [{ label := "", waitFor := last.waitFor, action := action, nextReq := last.nextReq }] } ∧
    (∀ (s0 : scenario W T Obj Sch) (p : Option (W → T → Bool × W × T)) (l0 : List String),
      (s0.ReconcileUntil p l0).Then action labels =
        .returned { s0 with steps := s0.steps ++
          [{ label := String.intercalate ", " labels, waitFor := p, action := action,
             nextReq := none }] }) := by
  have hthen : ∀ (s : scenario W T Obj Sch) (init : List (reconcileStep W T Obj Sch))
      (last : reconcileStep W T Obj Sch) (labels : List String), s.steps = init ++ [last] →
      s.Then action labels =
        .returned { s with steps := init ++
          [{ label := String.intercalate ", " labels, waitFor := last.waitFor, action := action,
             nextReq := last.nextReq }] } := by
    intro s init last labels h
    simp [scenario.Then, h]
  refine ⟨hthen s init last labels hsteps, ?_, ?_, hthen s init last [] hsteps, ?_⟩
  · intro s1 h1
    rw [hthen s init last labels hsteps] at h1
    simp only [Outcome.returned.injEq] at h1
    subst h1
    simp [hsteps]
  · intro s1 h1 i hi
    rw [hthen s init last labels hsteps] at h1
    simp only [Outcome.returned.injEq] at h1
    subst h1
    simp only [hsteps]
    rw [List.getElem?_append_left hi, List.getElem?_append_left hi]
  · intro s0 p l0
    exact hthen (s0.ReconcileUntil p l0) s0.steps _ labels rfl

/-- Witness of C15: the steps of the test "simulate event", a labelled condition and then an
action with no label. -/
theorem C15_then_rewrites_last_witness :
    ((readyScenario 20 [targetStep "cm0", waitStep "empty data" alwaysSatisfied]).Then
        (some sampleAction) []) =
      .returned { readyScenario 20 [targetStep "cm0", waitStep "empty data" alwaysSatisfied] with
        steps := [targetStep "cm0"] ++
          [{ label := String.intercalate ", " [], waitFor := (waitStep "empty data" alwaysSatisfied).waitFor,
             action := some sampleAction,
             nextReq := (waitStep "empty data" alwaysSatisfied).nextReq }] } :=
  (C15_then_rewrites_last (readyScenario 20 [targetStep "cm0", waitStep "empty data" alwaysSatisfied])
    [targetStep "cm0"] (waitStep "empty data" alwaysSatisfied) (some sampleAction) [] rfl).1

/-- C18 (NextRequestObject resolution).  Declaring the step only appends it to the step list:
the producer, `Create` and the status update happen when the closure is invoked.  Invoked with
a client set, in the world `w`, the closure runs the producer once, creates the produced
object, and then: (1) if `Create` fails it returns that error, in the world `Create` left (no
status update is made); (2) if `Create` succeeds and the status update succeeds or reports
not-found, it returns the key made of the name and namespace of the object, with no error, in
the world the status update left; (3) if the status update fails with another error it returns
that error; (4) so it resolves to a key exactly when `Create` succeeds and the status update
succeeds or reports not-found; (5) the key is that of the object as produced when the store
leaves its name and namespace alone. -/
theorem C18_next_request_object (env : Collaborators W T Obj Sch) (s : scenario W T Obj Sch)
    (nextReqObj : W → Obj × W) (c : ClientRef Obj Sch) (w : W) :
    (s.NextRequestObject env nextReqObj).steps =
      s.steps ++ [{ label := "", waitFor := none, action := none,
                    nextReq := some (NextRequestObject.nextReq env nextReqObj) }] ∧
    (∀ e, (NextRequestObject.created env nextReqObj w).1 = some e →
      NextRequestObject.nextReq env nextReqObj (some c) w =
        .returned (({ Name := "", Namespace := "" }, some e),
          (NextRequestObject.created env nextReqObj w).2.2)) ∧
    ((NextRequestObject.created env nextReqObj w).1 = none →
      ((NextRequestObject.updated env nextReqObj w).1 = none ∨
        IsNotFound (NextRequestObject.updated env nextReqObj w).1 = true) →
      NextRequestObject.nextReq env nextReqObj (some c) w =
        .returned (({ Name := env.GetName (NextRequestObject.updated env nextReqObj w).2.1,
                      Namespace := env.GetNamespace (NextRequestObject.updated env nextReqObj w).2.1 },
                    none),
          (NextRequestObject.updated env nextReqObj w).2.2)) ∧
    (∀ e, (NextRequestObject.created env nextReqObj w).1 = none →
      (NextRequestObject.updated env nextReqObj w).1 = some e → e.isNotFound = false →
      NextRequestObject.nextReq env nextReqObj (some c) w =
        .returned (({ Name := "", Namespace := "" }, some e),
          (NextRequestObject.updated env nextReqObj w).2.2)) ∧
    ((∃ key w1, NextRequestObject.nextReq env nextReqObj (some c) w = .returned ((key, none), w1)) ↔
      ((NextRequestObject.created env nextReqObj w).1 = none ∧
        ((NextRequestObject.updated env nextReqObj w).1 = none ∨
          IsNotFound (NextRequestObject.updated env nextReqObj w).1 = true))) ∧
    ((NextRequestObject.created env nextReqObj w).1 = none →
      ((NextRequestObject.updated env nextReqObj w).1 = none ∨
        IsNotFound (NextRequestObject.updated env nextReqObj w).1 = true) →
      env.GetName (NextRequestObject.updated env nextReqObj w).2.1 = env.GetName (nextReqObj w).1 →
      env.GetNamespace (NextRequestObject.updated env nextReqObj w).2.1 =
        env.GetNamespace (nextReqObj w).1 →
      NextRequestObject.nextReq env nextReqObj (some c) w =
        .returned (({ Name := env.GetName (nextReqObj w).1,
                      Namespace := env.GetNamespace (nextReqObj w).1 }, none),
          (NextRequestObject.updated env nextReqObj w).2.2)) := by
  have hunfold : NextRequestObject.nextReq env nextReqObj (some c) w =
      match NextRequestObject.created env nextReqObj w, NextRequestObject.updated env nextReqObj w with
      | (some err, _, w1), _ => .returned (({ Name := "", Namespace := "" }, some err), w1)
      | (none, _, _), (err, obj, w2) =>
        if err ≠ none ∧ ¬ IsNotFound err then
          .returned (({ Name := "", Namespace := "" }, err), w2)
        else
          .returned (({ Name := env.GetName obj, Namespace := env.GetNamespace obj }, none), w2) := by
    unfold NextRequestObject.updated NextRequestObject.created NextRequestObject.nextReq
    cases nextReqObj w with
    | mk obj0 w0 =>
      simp only []
      cases env.Create w0 obj0 with
      | mk err rest =>
        obtain ⟨obj1, w1⟩ := rest
        cases err with
        | some e => rfl
        | none => rfl
  have hfail : ∀ e, (NextRequestObject.created env nextReqObj w).1 = some e →
      NextRequestObject.nextReq env nextReqObj (some c) w =
        .returned (({ Name := "", Namespace := "" }, some e),
          (NextRequestObject.created env nextReqObj w).2.2) := by
    intro e he
    rw [hunfold]
    generalize NextRequestObject.updated env nextReqObj w = su
    generalize NextRequestObject.created env nextReqObj w = cr at he
    obtain ⟨err, obj, w1⟩ := cr
    simp only at he
    subst he
    rfl
  have hok : (NextRequestObject.created env nextReqObj w).1 = none →
      ((NextRequestObject.updated env nextReqObj w).1 = none ∨
        IsNotFound (NextRequestObject.updated env nextReqObj w).1 = true) →
      NextRequestObject.nextReq env nextReqObj (some c) w =
        .returned (({ Name := env.GetName (NextRequestObject.updated env nextReqObj w).2.1,
                      Namespace := env.GetNamespace (NextRequestObject.updated env nextReqObj w).2.1 },
                    none),
          (NextRequestObject.updated env nextReqObj w).2.2) := by
    intro hc hu
    rw [hunfold]
    generalize NextRequestObject.updated env nextReqObj w = su at hu
    generalize NextRequestObject.created env nextReqObj w = cr at hc
    obtain ⟨err, obj, w1⟩ := cr
    obtain ⟨err2, obj2, w2⟩ := su
    simp only at hc hu
    subst hc
    have : ¬ (err2 ≠ none ∧ ¬ IsNotFound err2 = true) := by
      rcases hu with h | h
      · simp [h]
      · simp [h]
    simp only [this, if_false]
  have hbad : ∀ e, (NextRequestObject.created env nextReqObj w).1 = none →
      (NextRequestObject.updated env nextReqObj w).1 = some e → e.isNotFound = false →
      NextRequestObject.nextReq env nextReqObj (some c) w =
        .returned (({ Name := "", Namespace := "" }, some e),
          (NextRequestObject.updated env nextReqObj w).2.2) := by
    intro e hc hu hnf
    rw [hunfold]
    generalize NextRequestObject.updated env nextReqObj w = su at hu
    generalize NextRequestObject.created env nextReqObj w = cr at hc
    obtain ⟨err, obj, w1⟩ := cr
    obtain ⟨err2, obj2, w2⟩ := su
    simp only at hc hu
    subst hc
    subst hu
    simp [IsNotFound, hnf]
  refine ⟨rfl, hfail, hok, hbad, ?_, ?_⟩
  · constructor
    · rintro ⟨key, w1, h⟩
      cases hc : (NextRequestObject.created env nextReqObj w).1 with
      | some e =>
        rw [hfail e hc] at h
        simp at h
      | none =>
        refine ⟨rfl, ?_⟩
        cases hu : (NextRequestObject.updated env nextReqObj w).1 with
        | none => exact Or.inl rfl
        | some e =>
          cases hnf : e.isNotFound with
          | true => exact Or.inr (by simp [IsNotFound, hnf])
          | false =>
            rw [hbad e hc hu hnf] at h
            simp at h
    · rintro ⟨hc, hu⟩
      exact ⟨_, _, hok hc hu⟩
  · intro hc hu hn hns
    rw [hok hc hu, hn, hns]

theorem sample_new_config_map :
    NextRequestObject.nextReq (sampleEnv sampleReconcile) newConfigMap
        (some { scheme := 1, objs := [] }) sampleStore =
      .returned (({ Name := "new-cm", Namespace := "cm" }, none),
        { sampleStore with objs := sampleStore.objs ++ [("ConfigMap", "new-cm")] }) := by
  simp [NextRequestObject.nextReq, newConfigMap, sampleEnv, IsNotFound]

/-- Witness of C18: the producer of the test "next request object" resolves to the key of the
config map it produced, which is then in the store. -/
theorem C18_next_request_object_witness :
    (∃ key w1, NextRequestObject.nextReq (sampleEnv sampleReconcile) newConfigMap
        (some { scheme := 1, objs := [] }) sampleStore = .returned ((key, none), w1)) ∧
    NextRequestObject.nextReq (sampleEnv sampleReconcile) newConfigMap
        (some { scheme := 1, objs := [] }) sampleStore =
      .returned (({ Name := "new-cm", Namespace := "cm" }, none),
        { sampleStore with objs := sampleStore.objs ++ [("ConfigMap", "new-cm")] }) :=
  ⟨(C18_next_request_object (sampleEnv sampleReconcile) (readyScenario 20 []) newConfigMap
      { scheme := 1, objs := [] } sampleStore).2.2.2.2.1.mpr ⟨rfl, Or.inl rfl⟩,
    sample_new_config_map⟩

theorem makeScheme.loop_first_failure (f : Sch → Option GoError × Sch)
    (post : List (Sch → Option GoError × Sch)) (scheme : Sch) (err : GoError) (left : Sch)
    (hf : f scheme = (some err, left)) :
    ∀ (pre : List (Sch → Option GoError × Sch)) (i : Nat) (scheme0 : Sch),
      (makeScheme.loop (W := W) (T := T) pre i scheme0).1 = .ok scheme →
      makeScheme.loop (W := W) (T := T) (pre ++ f :: post) i scheme0 =
        (.error err, (List.range' i (pre.length + 1)).map Event.addToScheme) := by
  intro pre
  induction pre with
  | nil =>
    intro i scheme0 h
    simp only [makeScheme.loop, Except.ok.injEq] at h
    subst h
    simp [makeScheme.loop, hf, List.range']
  | cons g rest ih =>
    intro i scheme0 h
    simp only [makeScheme.loop] at h
    simp only [List.cons_append, makeScheme.loop, List.length_cons, List.append_eq]
    cases hg : g scheme0 with
    | mk e scheme1 =>
      cases e with
      | some e =>
        rw [hg] at h
        simp at h
      | none =>
        rw [hg] at h
        simp only at h ⊢
        rw [ih (i + 1) scheme1 h]
        simp [List.range'_succ]

/-- C17 (schema registration failure).  Take a scenario with at least one step whose
registered callbacks are `pre`, then `f`, then `post`; let the callbacks of `pre`, applied in
turn from a new scheme, all succeed, and let `f` fail with `err` on the scheme they leave.  Then
`test` returns `err`; its trace holds the invocations of the callbacks at positions 0 to
`pre.length` and nothing else (the callbacks of `post`, the initial-state producer, the store
and every step are left alone); the world and the scenario are unchanged.  Callbacks are kept
in the order of the `WithSchemes` calls and of their arguments. -/
theorem C17_schema_registration_failure (env : Collaborators W T Obj Sch)
    (s : scenario W T Obj Sch) (w : W) (pre : List (Sch → Option GoError × Sch))
    (f : Sch → Option GoError × Sch) (post : List (Sch → Option GoError × Sch))
    (scheme : Sch) (err : GoError) (left : Sch)
    (hsteps : s.steps ≠ []) (hschemes : s.schemes = pre ++ f :: post)
    (hpre : (makeScheme.loop (W := W) (T := T) pre 0 env.NewScheme).1 = .ok scheme)
    (hf : f scheme = (some err, left)) :
    (s.test env w).outcome = .returned (some err) ∧
    (s.test env w).trace = (List.range (pre.length + 1)).map Event.addToScheme ∧
    (s.test env w).world = w ∧
    (s.test env w).scenario = s ∧
    (∀ a b : List (Sch → Option GoError × Sch),
      ((s.WithSchemes a).WithSchemes b).schemes = s.schemes ++ a ++ b) := by
  have hloop := makeScheme.loop_first_failure (W := W) (T := T) f post scheme err left hf pre 0
    env.NewScheme hpre
  have hlen : ¬ s.steps.length = 0 := by
    intro h
    exact hsteps (List.length_eq_zero.mp h)
  have h : s.test env w =
      { outcome := .returned (some err), scenario := s, world := w,
        trace := (List.range (pre.length + 1)).map Event.addToScheme } := by
    simp only [scenario.test, scenario.setupEnv, hlen, if_false, scenario.makeScheme, hschemes, hloop,
      List.range_eq_range']
  rw [h]
  exact ⟨rfl, rfl, rfl, rfl, fun a b => rfl⟩

/-- Witness of C17: three callbacks registered by two `WithSchemes` calls, the second callback
fails. -/
theorem C17_schema_registration_failure_witness :
    (badSchemeScenario.test (sampleEnv sampleReconcile) sampleStore).outcome =
      .returned (some (.plain "scheme registration failed")) ∧
    (badSchemeScenario.test (sampleEnv sampleReconcile) sampleStore).trace =
      (List.range ([sampleAddToScheme].length + 1)).map Event.addToScheme ∧
    (badSchemeScenario.test (sampleEnv sampleReconcile) sampleStore).world = sampleStore ∧
    (badSchemeScenario.test (sampleEnv sampleReconcile) sampleStore).scenario = badSchemeScenario ∧
    (∀ a b : List (Nat → Option GoError × Nat),
      ((badSchemeScenario.WithSchemes a).WithSchemes b).schemes = badSchemeScenario.schemes ++ a ++ b) :=
  C17_schema_registration_failure (sampleEnv sampleReconcile) badSchemeScenario sampleStore
    [sampleAddToScheme] failingAddToScheme [sampleAddToScheme] 1
    (.plain "scheme registration failed") 1
    (by simp [badSchemeScenario, scenario.ReconcileUntil, scenario.Setup, scenario.SetupObjects,
      scenario.WithSchemes, newScenario])
    rfl rfl rfl

theorem run.Refetched_append (env : Collaborators W T Obj Sch) (a b : List (Event W T))
    (ha : run.Refetched env a) (hb : run.Refetched env b) : run.Refetched env (a ++ b) := by
  intro m idx wp obj res hm
  by_cases hlt : m < a.length
  · rw [List.getElem?_append_left hlt] at hm
    obtain ⟨n, key, wr, hmn, h1, h2, h3, h4⟩ := ha m idx wp obj res hm
    refine ⟨n, key, wr, hmn, ?_, ?_, h3, h4⟩
    · rw [List.getElem?_append_left (by omega)]
      exact h1
    · rw [List.getElem?_append_left (by omega)]
      exact h2
  · have hge : a.length ≤ m := by omega
    rw [List.getElem?_append_right hge] at hm
    obtain ⟨n, key, wr, hmn, h1, h2, h3, h4⟩ := hb (m - a.length) idx wp obj res hm
    refine ⟨n + a.length, key, wr, by omega, ?_, ?_, h3, h4⟩
    · rw [List.getElem?_append_right (by omega)]
      simpa using h1
    · rw [List.getElem?_append_right (by omega)]
      have : n + a.length + 1 - a.length = n + 1 := by omega
      rw [this]
      exact h2

theorem run.reconcileIteration_refetched (env : Collaborators W T Obj Sch) (s : scenario W T Obj Sch)
    (idx : Nat) (step : reconcileStep W T Obj Sch) (nextReq : NamespacedName) (w : W) :
    run.Refetched env (run.reconcileIteration env s idx step nextReq w).2.2 := by
  have h := run.reconcileIteration_case env s idx step nextReq w
  generalize run.reconcileIteration env s idx step nextReq w = it at h
  intro m i wp obj res hm
  cases h with
  | noReconciler _ => simp at hm
  | terminal _ _ =>
    rcases m with _ | m <;> simp at hm
  | noClient _ _ _ =>
    rcases m with _ | m <;> simp at hm
  | fetchFailed e _ _ _ _ _ =>
    rcases m with _ | _ | m <;> simp at hm
  | noPredicate o _ _ _ _ _ =>
    rcases m with _ | _ | m <;> simp at hm
  | unsatisfied o p _ _ _ hfe _ _ =>
    rcases m with _ | _ | _ | m <;> simp at hm
    obtain ⟨rfl, rfl, rfl, rfl⟩ := hm
    exact ⟨0, nextReq, w, rfl, rfl, rfl, rfl, hfe⟩
  | satisfied o p _ _ _ hfe _ _ _ =>
    rcases m with _ | _ | _ | m <;> simp at hm
    obtain ⟨rfl, rfl, rfl, rfl⟩ := hm
    exact ⟨0, nextReq, w, rfl, rfl, rfl, rfl, hfe⟩
  | satisfiedThen o p a _ _ _ hfe _ _ _ =>
    rcases m with _ | _ | _ | _ | m <;> simp at hm
    obtain ⟨rfl, rfl, rfl, rfl⟩ := hm
    exact ⟨0, nextReq, w, rfl, rfl, rfl, rfl, hfe⟩

theorem run.reconcileLoop_refetched (env : Collaborators W T Obj Sch) (s : scenario W T Obj Sch)
    (idx : Nat) (step : reconcileStep W T Obj Sch) (nextReq : NamespacedName) (c : Int) (w : W) :
    run.Refetched env (run.reconcileLoop env s idx step nextReq c w).2.2 := by
  refine run.reconcileLoop_induct env s idx step nextReq
    (fun _ _ res => run.Refetched env res.2.2) ?_ ?_ ?_ ?_ c w
  · intro c w _ m i wp obj res hm
    simp at hm
  · intro c w r w1 tr _ hit
    have := run.reconcileIteration_refetched env s idx step nextReq w
    rw [hit] at this
    exact this
  · intro c w w1 tr _ hit
    have := run.reconcileIteration_refetched env s idx step nextReq w
    rw [hit] at this
    exact this
  · intro c w w1 tr ex w2 tr2 _ hit _ ih
    have := run.reconcileIteration_refetched env s idx step nextReq w
    rw [hit] at this
    exact run.Refetched_append env _ _ this ih

theorem run.stepsLoop_refetched (env : Collaborators W T Obj Sch) (s : scenario W T Obj Sch) :
    ∀ (steps : List (reconcileStep W T Obj Sch)) (idx : Nat) (nextReq : NamespacedName) (w : W),
      run.Refetched env (run.stepsLoop env s steps idx nextReq w).2.2 := by
  intro steps
  induction steps with
  | nil =>
    intro idx nextReq w m i wp obj res hm
    simp [run.stepsLoop] at hm
  | cons step rest ih =>
    intro idx nextReq w
    have hone : run.Refetched env [Event.nextReq idx w] := by
      intro m i wp obj res hm
      rcases m with _ | m <;> simp at hm
    simp only [run.stepsLoop]
    cases hnr : step.nextReq with
    | some f =>
      simp only []
      cases hf : f s.client w with
      | panicked => exact hone
      | returned v =>
        obtain ⟨⟨key, err⟩, w1⟩ := v
        cases err with
        | some err => exact hone
        | none => exact run.Refetched_append env [Event.nextReq idx w] _ hone (ih (idx + 1) key w1)
    | none =>
      simp only []
      have hl := run.reconcileLoop_refetched env s idx step nextReq 0 w
      generalize run.reconcileLoop env s idx step nextReq 0 w = lp at hl
      obtain ⟨ex, w1, tr⟩ := lp
      cases ex with
      | ret r => exact hl
      | done c =>
        simp only []
        by_cases hc : c ≥ s.maxReconciles
        · simp only [hc, if_true]
          exact hl
        · simp only [hc, if_false]
          exact run.Refetched_append env _ _ hl (ih (idx + 1) nextReq w1)

theorem run.trace_eq (env : Collaborators W T Obj Sch) (s : scenario W T Obj Sch) (w : W) :
    (s.run env w).2.2 = (run.stepsLoop env s s.steps 0 { Name := "", Namespace := "" } w).2.2 := by
  unfold scenario.run
  generalize run.stepsLoop env s s.steps 0 { Name := "", Namespace := "" } w = lp
  obtain ⟨ex, w1, tr⟩ := lp
  cases ex <;> rfl

/-- C13 (re-fetch after every reconcile).  In every run, each evaluation of a predicate - the
call at position `m` of the trace, for step `idx`, in the world `wp`, on the record `obj` - is
the third call of its iteration: two calls before it the reconciler was invoked for the same
step with a key, one call before it the record at that same key was fetched, in the world `wp`
that this invocation left; the predicate is evaluated in that world too, and `obj` is the
record this fetch read, or a new zeroed record when it reported not-found.  The record of an
earlier iteration is never passed on. -/
theorem C13_refetch_after_reconcile (env : Collaborators W T Obj Sch) (s : scenario W T Obj Sch)
    (w : W) (m idx : Nat) (wp : W) (obj : T) (res : Bool)
    (hcall : (s.run env w).2.2[m]? = some (.waitFor idx wp obj res)) :
    ∃ n key wr, m = n + 2 ∧
      (s.run env w).2.2[n]? = some (.reconcile idx key wr) ∧
      (s.run env w).2.2[n + 1]? = some (.get idx key wp) ∧
      wp = (env.Reconcile wr key).2 ∧
      (env.Get wp key = .ok obj ∨
        ∃ e, env.Get wp key = .error e ∧ e.isNotFound = true ∧ obj = s.newObjectInstance env) := by
  have h := run.stepsLoop_refetched env s s.steps 0 { Name := "", Namespace := "" } w
  rw [← run.trace_eq] at h
  exact h m idx wp obj res hcall

/-- Witness of C13: the run of a scenario whose condition fails twice; its second evaluation,
at position 6 of the trace, follows the second invocation and the second fetch. -/
theorem C13_refetch_after_reconcile_witness :
    ∃ n key wr, 6 = n + 2 ∧
      ((readyScenario 2 [targetStep "cm0", waitStep "" neverSatisfied]).run
        (sampleEnv sampleReconcile) sampleStore).2.2[n]? = some (.reconcile 1 key wr) ∧
      ((readyScenario 2 [targetStep "cm0", waitStep "" neverSatisfied]).run
        (sampleEnv sampleReconcile) sampleStore).2.2[n + 1]? = some (.get 1 key sampleStore) ∧
      sampleStore = ((sampleEnv sampleReconcile).Reconcile wr key).2 ∧
      ((sampleEnv sampleReconcile).Get sampleStore key = .ok "cm0" ∨
        ∃ e, (sampleEnv sampleReconcile).Get sampleStore key = .error e ∧ e.isNotFound = true ∧
          "cm0" = (readyScenario 2 [targetStep "cm0", waitStep "" neverSatisfied]).newObjectInstance
            (sampleEnv sampleReconcile)) :=
  C13_refetch_after_reconcile (sampleEnv sampleReconcile)
    (readyScenario 2 [targetStep "cm0", waitStep "" neverSatisfied]) sampleStore 6 1 sampleStore
    "cm0" false (by rw [sample_exhausted_run]; rfl)

theorem run.reconcileLoop_done_satisfied (env : Collaborators W T Obj Sch) (s : scenario W T Obj Sch)
    (idx : Nat) (step : reconcileStep W T Obj Sch) (nextReq : NamespacedName) (c0 : Int) (w : W)
    (c : Int) (hexit : (run.reconcileLoop env s idx step nextReq c0 w).1 = .done c)
    (hc : ¬ c ≥ s.maxReconciles) :
    ∃ (m : Nat) (wp : W) (obj : T), (run.reconcileLoop env s idx step nextReq c0 w).2.2[m]? =
      some (Event.waitFor idx wp obj true) := by
  by_contra hno
  apply hc
  refine run.reconcileLoop_done_unsatisfied env s idx step nextReq c0 w c hexit ?_
  intro e he
  cases e with
  | waitFor i wp obj res =>
    have hi := run.reconcileLoop_step env s idx step nextReq c0 w _ he
    simp only [Event.step, Option.some.injEq] at hi
    subst hi
    cases res with
    | false => simp [Event.isSatisfied]
    | true =>
      exfalso
      apply hno
      obtain ⟨m, hm⟩ := List.getElem?_of_mem he
      exact ⟨m, wp, obj, hm⟩
  | _ => rfl

theorem run.stepsLoop_inOrder (env : Collaborators W T Obj Sch) (s : scenario W T Obj Sch) :
    ∀ (steps pre : List (reconcileStep W T Obj Sch)) (nextReq : NamespacedName) (w : W),
      s.steps = pre ++ steps →
      run.InOrder s pre.length (run.stepsLoop env s steps pre.length nextReq w).2.2 := by
  intro steps
  induction steps with
  | nil =>
    intro pre nextReq w _ n e j hn
    simp [run.stepsLoop] at hn
  | cons step rest ih =>
    intro pre nextReq w hs
    have hstep : s.steps[pre.length]? = some step := by
      rw [hs]; exact steps_getElem?_length pre step rest
    have ih' : ∀ (key : NamespacedName) (w1 : W),
        run.InOrder s (pre.length + 1) (run.stepsLoop env s rest (pre.length + 1) key w1).2.2 := by
      intro key w1
      have := ih (pre ++ [step]) key w1 (by rw [hs]; simp)
      simpa using this
    have hrest : ∀ (key : NamespacedName) (w1 : W) (k : Nat) (e : Event W T) (j : Nat),
        (run.stepsLoop env s rest (pre.length + 1) key w1).2.2[k]? = some e → e.step = some j →
        pre.length + 1 ≤ j := by
      intro key w1 k e j hk hj
      obtain ⟨j1, h1, h2, _⟩ := run.stepsLoop_step env s rest (pre.length + 1) key w1 e
        (List.getElem?_mem hk)
      rw [hj] at h1
      simp only [Option.some.injEq] at h1
      omega
    simp only [run.stepsLoop]
    cases hnr : step.nextReq with
    | some f =>
      simp only []
      have hone : run.InOrder s pre.length [Event.nextReq pre.length w] := by
        intro n e j hn hj i hlo hij
        rcases n with _ | n
        · simp at hn
          subst hn
          simp only [Event.step, Option.some.injEq] at hj
          omega
        · simp at hn
      cases hf : f s.client w with
      | panicked => exact hone
      | returned v =>
        obtain ⟨⟨key, err⟩, w1⟩ := v
        cases err with
        | some err => exact hone
        | none =>
          simp only []
          intro n e j hn hj i hlo hij
          rcases n with _ | n
          · simp at hn
            subst hn
            simp only [Event.step, Option.some.injEq] at hj
            omega
          · simp only [List.getElem?_cons_succ] at hn
            by_cases hi : i = pre.length
            · subst hi
              exact ⟨0, Event.nextReq pre.length w, by omega, by simp,
                ⟨rfl, step, f, key, w1, hstep, hnr, hf⟩⟩
            · obtain ⟨m, e1, hm, he1, hcomp⟩ := ih' key w1 n e j hn hj i (by omega) hij
              exact ⟨m + 1, e1, by omega, by simpa using he1, hcomp⟩
    | none =>
      simp only []
      have hls := run.reconcileLoop_step env s pre.length step nextReq 0 w
      have hsat := run.reconcileLoop_done_satisfied env s pre.length step nextReq 0 w
      generalize run.reconcileLoop env s pre.length step nextReq 0 w = lp at hls hsat
      obtain ⟨ex, w1, tr⟩ := lp
      simp only [] at hls hsat
      have hhere : run.InOrder s pre.length tr := by
        intro n e j hn hj i hlo hij
        have := hls e (List.getElem?_mem hn)
        rw [hj] at this
        simp only [Option.some.injEq] at this
        omega
      cases ex with
      | ret r => exact hhere
      | done c =>
        simp only []
        by_cases hc : c ≥ s.maxReconciles
        · simp only [hc, if_true]
          exact hhere
        · simp only [hc, if_false]
          obtain ⟨m0, wp, obj, hm0⟩ := hsat c rfl hc
          have hm0lt : m0 < tr.length := by
            by_contra hge
            rw [List.getElem?_eq_none (by omega)] at hm0
            simp at hm0
          intro n e j hn hj i hlo hij
          by_cases hlt : n < tr.length
          · rw [List.getElem?_append_left hlt] at hn
            exact absurd (hhere n e j hn hj i hlo hij) (by
              have := hls e (List.getElem?_mem hn)
              rw [hj] at this
              simp only [Option.some.injEq] at this
              omega)
          · have hge : tr.length ≤ n := by omega
            rw [List.getElem?_append_right hge] at hn
            by_cases hi : i = pre.length
            · subst hi
              refine ⟨m0, Event.waitFor pre.length wp obj true, by omega, ?_, ⟨rfl, rfl⟩⟩
              rw [List.getElem?_append_left hm0lt]
              exact hm0
            · obtain ⟨m, e1, hm, he1, hcomp⟩ :=
                ih' nextReq w1 (n - tr.length) e j hn hj i (by omega) hij
              refine ⟨m + tr.length, e1, by omega, ?_, hcomp⟩
              rw [List.getElem?_append_right (by omega)]
              simpa using he1

theorem run.stepsLoop_sorted (env : Collaborators W T Obj Sch) (s : scenario W T Obj Sch) :
    ∀ (steps : List (reconcileStep W T Obj Sch)) (idx : Nat) (nextReq : NamespacedName) (w : W),
      (run.stepsLoop env s steps idx nextReq w).2.2.Pairwise
        (fun a b => ∀ i j, a.step = some i → b.step = some j → i ≤ j) := by
  intro steps
  induction steps with
  | nil =>
    intro idx nextReq w
    simp [run.stepsLoop]
  | cons step rest ih =>
    intro idx nextReq w
    have hrest : ∀ (key : NamespacedName) (w1 : W),
        ∀ b ∈ (run.stepsLoop env s rest (idx + 1) key w1).2.2, ∀ j, b.step = some j → idx + 1 ≤ j := by
      intro key w1 b hb j hj
      obtain ⟨j1, h1, h2, _⟩ := run.stepsLoop_step env s rest (idx + 1) key w1 b hb
      rw [hj] at h1
      simp only [Option.some.injEq] at h1
      omega
    simp only [run.stepsLoop]
    cases hnr : step.nextReq with
    | some f =>
      simp only []
      cases hf : f s.client w with
      | panicked => simp
      | returned v =>
        obtain ⟨⟨key, err⟩, w1⟩ := v
        cases err with
        | some err => simp
        | none =>
          simp only [List.pairwise_cons]
          refine ⟨?_, ih (idx + 1) key w1⟩
          intro b hb i j hi hj
          simp only [Event.step, Option.some.injEq] at hi
          have := hrest key w1 b hb j hj
          omega
    | none =>
      simp only []
      have hls := run.reconcileLoop_step env s idx step nextReq 0 w
      generalize run.reconcileLoop env s idx step nextReq 0 w = lp at hls
      obtain ⟨ex, w1, tr⟩ := lp
      simp only [] at hls
      have hhere : tr.Pairwise (fun a b => ∀ i j, a.step = some i → b.step = some j → i ≤ j) := by
        rw [List.pairwise_iff_forall_sublist]
        intro a b hab i j hi hj
        have ha := hls a (hab.subset (by simp))
        have hb := hls b (hab.subset (by simp))
        rw [hi] at ha
        rw [hj] at hb
        simp only [Option.some.injEq] at ha hb
        omega
      cases ex with
      | ret r => exact hhere
      | done c =>
        simp only []
        by_cases hc : c ≥ s.maxReconciles
        · simp only [hc, if_true]
          exact hhere
        · simp only [hc, if_false]
          rw [List.pairwise_append]
          refine ⟨hhere, ih (idx + 1) nextReq w1, ?_⟩
          intro a ha b hb i j hi hj
          have h1 := hls a ha
          rw [hi] at h1
          simp only [Option.some.injEq] at h1
          have := hrest nextReq w1 b hb j hj
          omega

theorem FluentCall.apply_steps (env : Collaborators W T Obj Sch) (s : scenario W T Obj Sch)
    (call : FluentCall W T Obj) :
    (call.apply env s).steps = s.steps ++ [call.step env] := by
  cases call <;> rfl

theorem FluentCall.foldl_steps (env : Collaborators W T Obj Sch) :
    ∀ (calls : List (FluentCall W T Obj)) (s : scenario W T Obj Sch),
      (calls.foldl (FluentCall.apply env) s).steps = s.steps ++ calls.map (FluentCall.step env) := by
  intro calls
  induction calls with
  | nil => intro s; simp
  | cons call rest ih =>
    intro s
    simp only [List.foldl_cons, List.map_cons]
    rw [ih, FluentCall.apply_steps]
    simp

/-- C14 (declaration order).  Each call of `NextRequest`, `NextRequestObject` or
`ReconcileUntil` appends exactly one step at the end of the step list and leaves the steps
before it as they were, so after any sequence of such calls the step list is the old list
followed by the steps of the calls, in call order.  In every run the calls are made in
increasing order of step index (a call of step i never comes after a call of a step j > i), and
a call of step j comes only after every step i < j has completed without failure: its key
producer has returned a key and no error, or its predicate has answered true. -/
theorem C14_declaration_order (env : Collaborators W T Obj Sch) (s : scenario W T Obj Sch) (w : W)
    (calls : List (FluentCall W T Obj)) :
    (∀ call : FluentCall W T Obj, (call.apply env s).steps = s.steps ++ [call.step env]) ∧
    (calls.foldl (FluentCall.apply env) s).steps = s.steps ++ calls.map (FluentCall.step env) ∧
    (s.run env w).2.2.Pairwise (fun a b => ∀ i j, a.step = some i → b.step = some j → i ≤ j) ∧
    (∀ (n : Nat) (e : Event W T) (j : Nat), (s.run env w).2.2[n]? = some e → e.step = some j →
      ∀ i, i < j →
        ∃ (m : Nat) (e1 : Event W T), m < n ∧ (s.run env w).2.2[m]? = some e1 ∧
          run.Completes s i e1) := by
  refine ⟨FluentCall.apply_steps env s, FluentCall.foldl_steps env calls s, ?_, ?_⟩
  · rw [run.trace_eq]
    exact run.stepsLoop_sorted env s s.steps 0 _ w
  · rw [run.trace_eq]
    intro n e j hn hj i hij
    have h := run.stepsLoop_inOrder env s s.steps [] { Name := "", Namespace := "" } w rfl
    exact h n e j hn hj i (Nat.zero_le _) hij

theorem run.reconcileIteration_key (env : Collaborators W T Obj Sch) (s : scenario W T Obj Sch)
    (idx : Nat) (step : reconcileStep W T Obj Sch) (nextReq : NamespacedName) (w : W) :
    ∀ e ∈ (run.reconcileIteration env s idx step nextReq w).2.2, ∀ key, e.key? = some key →
      key = nextReq := by
  have h := run.reconcileIteration_case env s idx step nextReq w
  generalize run.reconcileIteration env s idx step nextReq w = it at h
  intro e he key hkey
  cases h with
  | noReconciler _ => simp at he
  | terminal _ _ =>
    simp at he
    subst he
    simp [Event.key?] at hkey
    exact hkey.symm
  | noClient _ _ _ =>
    simp at he
    subst he
    simp [Event.key?] at hkey
    exact hkey.symm
  | fetchFailed e1 _ _ _ _ _ =>
    simp at he
    rcases he with he | he <;> subst he <;> simp [Event.key?] at hkey <;> exact hkey.symm
  | noPredicate o _ _ _ _ _ =>
    simp at he
    rcases he with he | he <;> subst he <;> simp [Event.key?] at hkey <;> exact hkey.symm
  | unsatisfied o p _ _ _ _ _ _ =>
    simp at he
    rcases he with he | he | he <;> subst he <;> simp [Event.key?] at hkey <;> exact hkey.symm
  | satisfied o p _ _ _ _ _ _ _ =>
    simp at he
    rcases he with he | he | he <;> subst he <;> simp [Event.key?] at hkey <;> exact hkey.symm
  | satisfiedThen o p a _ _ _ _ _ _ _ =>
    simp at he
    rcases he with he | he | he | he <;> subst he <;> simp [Event.key?] at hkey <;>
      exact hkey.symm

theorem run.reconcileLoop_key (env : Collaborators W T Obj Sch) (s : scenario W T Obj Sch)
    (idx : Nat) (step : reconcileStep W T Obj Sch) (nextReq : NamespacedName) (c : Int) (w : W) :
    ∀ e ∈ (run.reconcileLoop env s idx step nextReq c w).2.2, ∀ key, e.key? = some key →
      key = nextReq := by
  refine run.reconcileLoop_induct env s idx step nextReq
    (fun _ _ res => ∀ e ∈ res.2.2, ∀ key, e.key? = some key → key = nextReq) ?_ ?_ ?_ ?_ c w
  · intro c w _ e he
    simp at he
  · intro c w r w1 tr _ hit e he
    have := run.reconcileIteration_key env s idx step nextReq w e
    rw [hit] at this
    exact this he
  · intro c w w1 tr _ hit e he
    have := run.reconcileIteration_key env s idx step nextReq w e
    rw [hit] at this
    exact this he
  · intro c w w1 tr ex w2 tr2 _ hit _ ih e he
    have := run.reconcileIteration_key env s idx step nextReq w e
    rw [hit] at this
    simp only [List.mem_append] at he
    rcases he with he | he
    · exact this he
    · exact ih e he

theorem run.stepsLoop_keys (env : Collaborators W T Obj Sch) (s : scenario W T Obj Sch) :
    ∀ (steps pre : List (reconcileStep W T Obj Sch)) (nextReq : NamespacedName) (w : W),
      s.steps = pre ++ steps →
      run.KeysFrom s pre.length nextReq (run.stepsLoop env s steps pre.length nextReq w).2.2 := by
  intro steps
  induction steps with
  | nil =>
    intro pre nextReq w _ n e i key hn
    simp [run.stepsLoop] at hn
  | cons step rest ih =>
    intro pre nextReq w hs
    have hstep : s.steps[pre.length]? = some step := by
      rw [hs]; exact steps_getElem?_length pre step rest
    have ih' : ∀ (key : NamespacedName) (w1 : W),
        run.KeysFrom s (pre.length + 1) key (run.stepsLoop env s rest (pre.length + 1) key w1).2.2 := by
      intro key w1
      have := ih (pre ++ [step]) key w1 (by rw [hs]; simp)
      simpa using this
    have hrest : ∀ (key : NamespacedName) (w1 : W) (k : Nat) (e : Event W T) (j : Nat),
        (run.stepsLoop env s rest (pre.length + 1) key w1).2.2[k]? = some e → e.step = some j →
        pre.length + 1 ≤ j := by
      intro key w1 k e j hk hj
      obtain ⟨j1, h1, h2, _⟩ := run.stepsLoop_step env s rest (pre.length + 1) key w1 e
        (List.getElem?_mem hk)
      rw [hj] at h1
      simp only [Option.some.injEq] at h1
      omega
    simp only [run.stepsLoop]
    cases hnr : step.nextReq with
    | some f =>
      simp only []
      have hone : run.KeysFrom s pre.length nextReq [Event.nextReq pre.length w] := by
        intro n e i key hn hi hkey
        rcases n with _ | n
        · simp at hn
          subst hn
          simp [Event.key?] at hkey
        · simp at hn
      cases hf : f s.client w with
      | panicked => exact hone
      | returned v =>
        obtain ⟨⟨key1, err⟩, w1⟩ := v
        cases err with
        | some err => exact hone
        | none =>
          simp only []
          intro n e i key hn hi hkey
          rcases n with _ | n
          · simp at hn
            subst hn
            simp [Event.key?] at hkey
          · simp only [List.getElem?_cons_succ] at hn
            have hlo := hrest key1 w1 n e i hn hi
            rcases ih' key1 w1 n e i key hn hi hkey with h | h
            · obtain ⟨m, j, wn, stepj, fj, w2, hm, hmj, hloj, hji, hsj, hfj, hret, hbetween⟩ := h
              exact Or.inl ⟨m + 1, j, wn, stepj, fj, w2, by omega, by simpa using hmj, by omega,
                hji, hsj, hfj, hret, hbetween⟩
            · obtain ⟨hk, hbetween⟩ := h
              subst hk
              exact Or.inl ⟨0, pre.length, w, step, f, w1, by omega, by simp, le_refl _, by omega,
                hstep, hnr, hf, fun j1 h1 h2 step1 hs1 => hbetween j1 (by omega) h2 step1 hs1⟩
    | none =>
      simp only []
      have hls := run.reconcileLoop_step env s pre.length step nextReq 0 w
      have hlk := run.reconcileLoop_key env s pre.length step nextReq 0 w
      generalize run.reconcileLoop env s pre.length step nextReq 0 w = lp at hls hlk
      obtain ⟨ex, w1, tr⟩ := lp
      simp only [] at hls hlk
      have hhere : run.KeysFrom s pre.length nextReq tr := by
        intro n e i key hn hi hkey
        have hmem := List.getElem?_mem hn
        have h1 := hls e hmem
        rw [hi] at h1
        simp only [Option.some.injEq] at h1
        subst h1
        exact Or.inr ⟨hlk e hmem key hkey, fun j1 h1 h2 => by omega⟩
      cases ex with
      | ret r => exact hhere
      | done c =>
        simp only []
        by_cases hc : c ≥ s.maxReconciles
        · simp only [hc, if_true]
          exact hhere
        · simp only [hc, if_false]
          intro n e i key hn hi hkey
          by_cases hlt : n < tr.length
          · rw [List.getElem?_append_left hlt] at hn
            rcases hhere n e i key hn hi hkey with h | h
            · obtain ⟨m, j, wn, stepj, fj, w2, hm, hmj, hloj, hji, hsj, hfj, hret, hbetween⟩ := h
              exact Or.inl ⟨m, j, wn, stepj, fj, w2, hm,
                by rw [List.getElem?_append_left (by omega)]; exact hmj,
                hloj, hji, hsj, hfj, hret, hbetween⟩
            · exact Or.inr h
          · have hge : tr.length ≤ n := by omega
            rw [List.getElem?_append_right hge] at hn
            rcases ih' nextReq w1 (n - tr.length) e i key hn hi hkey with h | h
            · obtain ⟨m, j, wn, stepj, fj, w2, hm, hmj, hloj, hji, hsj, hfj, hret, hbetween⟩ := h
              refine Or.inl ⟨m + tr.length, j, wn, stepj, fj, w2, by omega, ?_, by omega,
                hji, hsj, hfj, hret, hbetween⟩
              rw [List.getElem?_append_right (by omega)]
              simpa using hmj
            · obtain ⟨hk, hbetween⟩ := h
              refine Or.inr ⟨hk, ?_⟩
              intro j1 h1 h2 step1 hs1
              by_cases hj1 : j1 = pre.length
              · subst hj1
                rw [hstep] at hs1
                simp only [Option.some.injEq] at hs1
                subst hs1
                exact hnr
              · exact hbetween j1 (by omega) h2 step1 hs1

/-- C12 (current target key).  In every run, take a reconciler invocation or a fetch, made by
the step at index `i` with the key `key`.  Either some SetTarget step at an index j < i ran
earlier in the run, no step between j and i is a SetTarget step, and `key` is the key its
producer returned at that call; or no step before i is a SetTarget step and `key` is the empty
key.  So the key in use is always that of the nearest preceding SetTarget step (the later one
of several in a row), and WaitForCondition steps leave it alone. -/
theorem C12_current_target_key (env : Collaborators W T Obj Sch) (s : scenario W T Obj Sch)
    (w : W) (n i : Nat) (key : NamespacedName) (wc : W)
    (hcall : (s.run env w).2.2[n]? = some (.reconcile i key wc) ∨
      (s.run env w).2.2[n]? = some (.get i key wc)) :
    (∃ (m j : Nat) (wn : W) (step : reconcileStep W T Obj Sch)
        (f : Option (ClientRef Obj Sch) → W → Outcome ((NamespacedName × Option GoError) × W))
        (w1 : W),
        m < n ∧ (s.run env w).2.2[m]? = some (.nextReq j wn) ∧ j < i ∧
        s.steps[j]? = some step ∧ step.nextReq = some f ∧
        f s.client wn = .returned ((key, none), w1) ∧
        ∀ j1, j < j1 → j1 < i → ∀ step1, s.steps[j1]? = some step1 → step1.nextReq = none) ∨
    (key = { Name := "", Namespace := "" } ∧
      ∀ j1, j1 < i → ∀ step1, s.steps[j1]? = some step1 → step1.nextReq = none) := by
  have h := run.stepsLoop_keys env s s.steps [] { Name := "", Namespace := "" } w rfl
  simp only [List.length_nil] at h
  rw [← run.trace_eq] at h
  have hk : ∃ e : Event W T, (s.run env w).2.2[n]? = some e ∧ e.step = some i ∧
      e.key? = some key := by
    rcases hcall with hc | hc
    · exact ⟨_, hc, rfl, rfl⟩
    · exact ⟨_, hc, rfl, rfl⟩
  obtain ⟨e, hn, hi, hkey⟩ := hk
  rcases h n e i key hn hi hkey with h1 | h1
  · obtain ⟨m, j, wn, stepj, fj, w2, hm, hmj, _, hji, hsj, hfj, hret, hbetween⟩ := h1
    exact Or.inl ⟨m, j, wn, stepj, fj, w2, hm, hmj, hji, hsj, hfj, hret, hbetween⟩
  · exact Or.inr ⟨h1.1, fun j1 h2 => h1.2 j1 (Nat.zero_le _) h2⟩

theorem sample_next_request_run :
    nextRequestScenario.run (sampleEnv sampleReconcile) sampleStore =
      (.returned none, sampleStore,
       [.nextReq 0 sampleStore,
        .reconcile 1 { Name := "cm0", Namespace := "cm" } sampleStore,
        .get 1 { Name := "cm0", Namespace := "cm" } sampleStore,
        .waitFor 1 sampleStore "cm0" true,
        .nextReq 2 sampleStore,
        .reconcile 3 { Name := "cm1", Namespace := "cm" } sampleStore,
        .get 3 { Name := "cm1", Namespace := "cm" } sampleStore,
        .waitFor 3 sampleStore "cm1" true]) := by
  simp [scenario.run, run.stepsLoop, run.reconcileLoop, run.reconcileIteration, readyScenario,
    nextRequestScenario, targetStep, waitStep, sampleEnv, sampleReconcile, nameIs, sampleStore,
    NextRequest.nextReq, errorsIsTerminal, GoError.isTerminal, IsNotFound,
    scenario.newObjectInstance]

/-- Witness of C12: in the run of the test "next request", the reconciler invocation of the
second condition (position 5 of the trace, step 3). -/
theorem C12_current_target_key_witness :
    (∃ (m j : Nat) (wn : SampleStore) (step : reconcileStep SampleStore String (String × String) Nat)
        (f : Option (ClientRef (String × String) Nat) → SampleStore →
          Outcome ((NamespacedName × Option GoError) × SampleStore))
        (w1 : SampleStore),
        m < 5 ∧
        (nextRequestScenario.run (sampleEnv sampleReconcile) sampleStore).2.2[m]? =
          some (.nextReq j wn) ∧ j < 3 ∧
        nextRequestScenario.steps[j]? = some step ∧ step.nextReq = some f ∧
        f nextRequestScenario.client wn =
          .returned (({ Name := "cm1", Namespace := "cm" }, none), w1) ∧
        ∀ j1, j < j1 → j1 < 3 → ∀ step1, nextRequestScenario.steps[j1]? = some step1 →
          step1.nextReq = none) ∨
    (({ Name := "cm1", Namespace := "cm" } : NamespacedName) = { Name := "", Namespace := "" } ∧
      ∀ j1, j1 < 3 → ∀ step1, nextRequestScenario.steps[j1]? = some step1 → step1.nextReq = none) :=
  C12_current_target_key (sampleEnv sampleReconcile) nextRequestScenario sampleStore 5 3
    { Name := "cm1", Namespace := "cm" } sampleStore
    (Or.inl (by rw [sample_next_request_run]; rfl))

theorem run.reconcileIteration_invocations (env : Collaborators W T Obj Sch)
    (s : scenario W T Obj Sch) (idx : Nat) (step : reconcileStep W T Obj Sch)
    (nextReq : NamespacedName) (w : W) :
    (run.reconcileIteration env s idx step nextReq w).2.2.countP (Event.isReconcile idx) ≤ 1 ∧
    ((∀ r, (run.reconcileIteration env s idx step nextReq w).1 ≠ .ret r) →
      (run.reconcileIteration env s idx step nextReq w).2.2.countP Event.isInvocation = 1) := by
  have h := run.reconcileIteration_case env s idx step nextReq w
  generalize run.reconcileIteration env s idx step nextReq w = it at h
  cases h <;> simp [Event.isReconcile, Event.isInvocation]

theorem run.reconcileLoop_firstSucceedsOn (env : Collaborators W T Obj Sch)
    (s : scenario W T Obj Sch) (idx : Nat) (step : reconcileStep W T Obj Sch)
    (nextReq : NamespacedName) :
    ∀ (k : Nat) (w w1 : W) (c : Int),
      run.firstSucceedsOn env s idx step nextReq k w = some w1 → c + k ≤ s.maxReconciles →
      ∃ tr, run.reconcileLoop env s idx step nextReq c w = (.done 0, w1, tr) ∧
        tr.countP Event.isInvocation = k := by
  intro k
  induction k with
  | zero =>
    intro w w1 c h
    simp [run.firstSucceedsOn] at h
  | succ k ih =>
    intro w w1 c h hle
    have hlt : c < s.maxReconciles := by omega
    have hinv := (run.reconcileIteration_invocations env s idx step nextReq w).2
    rw [run.reconcileLoop]
    simp only [hlt, if_true]
    simp only [run.firstSucceedsOn] at h
    cases hit : run.reconcileIteration env s idx step nextReq w with
    | mk ex rest =>
      obtain ⟨w2, tr⟩ := rest
      rw [hit] at h hinv
      cases ex with
      | ret r => simp at h
      | broke =>
        simp only [] at h
        by_cases hk : k = 0
        · simp only [hk, if_true, Option.some.injEq] at h
          subst h
          subst hk
          exact ⟨tr, rfl, hinv (by simp)⟩
        · simp [hk] at h
      | next =>
        simp only [] at h ⊢
        obtain ⟨tr2, hl, hcount⟩ := ih w2 w1 (c + 1) h (by omega)
        rw [hl]
        refine ⟨tr ++ tr2, rfl, ?_⟩
        rw [List.countP_append, hcount, hinv (by simp)]
        omega

theorem run.stepsLoop_eachSucceeds (env : Collaborators W T Obj Sch) (s : scenario W T Obj Sch) :
    ∀ (steps : List (reconcileStep W T Obj Sch)) (idx : Nat) (key : NamespacedName) (w : W)
      (ks : List Nat),
      run.EachSucceeds env s steps idx key w ks → (∀ k ∈ ks, (k : Int) ≤ s.maxReconciles) →
      ∃ key1 w1 tr, run.stepsLoop env s steps idx key w = (.done key1, w1, tr) ∧
        tr.countP Event.isInvocation = ks.sum := by
  intro steps
  induction steps with
  | nil =>
    intro idx key w ks h _
    simp only [run.EachSucceeds] at h
    subst h
    exact ⟨key, w, [], rfl, rfl⟩
  | cons step rest ih =>
    intro idx key w ks h hle
    simp only [run.EachSucceeds] at h
    simp only [run.stepsLoop]
    cases hnr : step.nextReq with
    | some f =>
      rw [hnr] at h
      obtain ⟨key1, w1, hf, hrest⟩ := h
      obtain ⟨key2, w2, tr, hl, hcount⟩ := ih (idx + 1) key1 w1 ks hrest hle
      simp only [hf, hl]
      exact ⟨key2, w2, _, rfl, by simpa [Event.isInvocation] using hcount⟩
    | none =>
      rw [hnr] at h
      obtain ⟨k, ks1, w1, hks, hfirst, hrest⟩ := h
      subst hks
      have hk : (k : Int) ≤ s.maxReconciles := hle k (by simp)
      have hk1 : 1 ≤ k := by
        rcases k with _ | k
        · simp [run.firstSucceedsOn] at hfirst
        · omega
      obtain ⟨tr, hl, hcount⟩ :=
        run.reconcileLoop_firstSucceedsOn env s idx step key k w w1 0 hfirst (by omega)
      obtain ⟨key2, w2, tr2, hl2, hcount2⟩ := ih (idx + 1) key w1 ks1 hrest
        (fun k' hk' => hle k' (by simp [hk']))
      have hnot : ¬ (0 : Int) ≥ s.maxReconciles := by omega
      simp only [hl, hnot, if_false, hl2]
      refine ⟨key2, w2, _, rfl, ?_⟩
      rw [List.countP_append, hcount, hcount2]
      simp

theorem run.reconcileLoop_bound (env : Collaborators W T Obj Sch) (s : scenario W T Obj Sch)
    (idx : Nat) (step : reconcileStep W T Obj Sch) (nextReq : NamespacedName) (c : Int) (w : W) :
    (run.reconcileLoop env s idx step nextReq c w).2.2.countP (Event.isReconcile idx) ≤
      (s.maxReconciles - c).toNat := by
  refine run.reconcileLoop_induct env s idx step nextReq
    (fun c _ res => res.2.2.countP (Event.isReconcile idx) ≤ (s.maxReconciles - c).toNat)
    ?_ ?_ ?_ ?_ c w
  · intro c w _
    simp
  · intro c w r w1 tr hlt hit
    have := (run.reconcileIteration_invocations env s idx step nextReq w).1
    rw [hit] at this
    simp only [] at this ⊢
    omega
  · intro c w w1 tr hlt hit
    have := (run.reconcileIteration_invocations env s idx step nextReq w).1
    rw [hit] at this
    simp only [] at this ⊢
    omega
  · intro c w w1 tr ex w2 tr2 hlt hit _ ih
    have := (run.reconcileIteration_invocations env s idx step nextReq w).1
    rw [hit] at this
    simp only [List.countP_append] at this ih ⊢
    omega

theorem run.stepsLoop_bound (env : Collaborators W T Obj Sch) (s : scenario W T Obj Sch) :
    ∀ (steps : List (reconcileStep W T Obj Sch)) (idx : Nat) (nextReq : NamespacedName) (w : W)
      (i : Nat),
      (run.stepsLoop env s steps idx nextReq w).2.2.countP (Event.isReconcile i) ≤
        s.maxReconciles.toNat := by
  intro steps
  induction steps with
  | nil =>
    intro idx nextReq w i
    simp [run.stepsLoop]
  | cons step rest ih =>
    intro idx nextReq w i
    have hrest : ∀ (key : NamespacedName) (w1 : W), i = idx →
        (run.stepsLoop env s rest (idx + 1) key w1).2.2.countP (Event.isReconcile i) = 0 := by
      intro key w1 hi
      exact (Event.countP_other_step (run.stepsLoop env s rest (idx + 1) key w1).2.2 i (by
        intro e he hstep
        obtain ⟨j, hj, hle, _⟩ := run.stepsLoop_step env s rest (idx + 1) key w1 e he
        rw [hstep] at hj
        simp only [Option.some.injEq] at hj
        omega)).2.2
    simp only [run.stepsLoop]
    cases hnr : step.nextReq with
    | some f =>
      simp only []
      cases hf : f s.client w with
      | panicked => simp [Event.isReconcile]
      | returned v =>
        obtain ⟨⟨key, err⟩, w1⟩ := v
        cases err with
        | some err => simp [Event.isReconcile]
        | none =>
          simp only [List.countP_cons]
          simpa [Event.isReconcile] using ih (idx + 1) key w1 i
    | none =>
      simp only []
      have hl := run.reconcileLoop_bound env s idx step nextReq 0 w
      have hls := run.reconcileLoop_step env s idx step nextReq 0 w
      generalize run.reconcileLoop env s idx step nextReq 0 w = lp at hl hls
      obtain ⟨ex, w1, tr⟩ := lp
      simp only [] at hl hls
      have hhere : tr.countP (Event.isReconcile i) ≤ s.maxReconciles.toNat ∧
          (i ≠ idx → tr.countP (Event.isReconcile i) = 0) := by
        by_cases hi : i = idx
        · subst hi
          refine ⟨?_, fun h => absurd rfl h⟩
          simpa using hl
        · have := (Event.countP_other_step tr i (by
            intro e he hstep
            rw [hls e he] at hstep
            simp only [Option.some.injEq] at hstep
            exact hi hstep.symm)).2.2
          exact ⟨by omega, fun _ => this⟩
      cases ex with
      | ret r => exact hhere.1
      | done c =>
        simp only []
        by_cases hc : c ≥ s.maxReconciles
        · simp only [hc, if_true]
          exact hhere.1
        · simp only [hc, if_false, List.countP_append]
          by_cases hi : i = idx
          · rw [hrest nextReq w1 hi]
            simpa using hhere.1
          · rw [hhere.2 hi]
            simpa using ih (idx + 1) nextReq w1 i

/-- C11 (budget is per step).  Let every step of a scenario go through when it is entered with
the key and in the world the steps before it left: each SetTarget step returns a key, and the
predicate of each WaitForCondition step first answers true on the attempt whose number is the
next entry of `ks`, none of them above the budget.  Then `run` returns nil and has invoked the
reconciler as many times as the sum of `ks`, whatever that sum is against the budget: the count
starts again at each WaitForCondition step.  In every case no single step invokes the
reconciler more often than the budget. -/
theorem C11_budget_per_step (env : Collaborators W T Obj Sch) (s : scenario W T Obj Sch) (w : W)
    (ks : List Nat)
    (heach : run.EachSucceeds env s s.steps 0 { Name := "", Namespace := "" } w ks)
    (hle : ∀ k ∈ ks, (k : Int) ≤ s.maxReconciles) :
    (s.run env w).1 = .returned none ∧
    (s.run env w).2.2.countP Event.isInvocation = ks.sum ∧
    (∀ i, (s.run env w).2.2.countP (Event.isReconcile i) ≤ s.maxReconciles.toNat) := by
  obtain ⟨key1, w1, tr, hl, hcount⟩ :=
    run.stepsLoop_eachSucceeds env s s.steps 0 { Name := "", Namespace := "" } w ks heach hle
  have hb := run.stepsLoop_bound env s s.steps 0 { Name := "", Namespace := "" } w
  rw [← run.trace_eq] at hb
  have hrun : s.run env w = (.returned none, w1, tr) := by
    unfold scenario.run
    rw [hl]
  rw [hrun] at hb ⊢
  exact ⟨rfl, hcount, hb⟩

theorem sample_twice_two :
    run.EachSucceeds (sampleEnv tickingReconcile) twiceTwoScenario twiceTwoScenario.steps 0
      { Name := "", Namespace := "" } sampleStore [2, 2] := by
  have h1 : run.firstSucceedsOn (sampleEnv tickingReconcile) twiceTwoScenario 0
      (waitStep "two ticks" (ticksAtLeast 2)) { Name := "", Namespace := "" } 2 sampleStore =
      some { registered := true,
             objs := [("ConfigMap", "cm0"), ("ConfigMap", "cm1"), ("ConfigMap", "cm2"),
                      ("Tick", "tick"), ("Tick", "tick")] } := by
    simp [run.firstSucceedsOn, run.reconcileIteration, twiceTwoScenario,
      readyScenario, waitStep, ticksAtLeast, sampleEnv, tickingReconcile, sampleStore,
      errorsIsTerminal, IsNotFound, GoError.isNotFound, scenario.newObjectInstance]
  have h2 : run.firstSucceedsOn (sampleEnv tickingReconcile) twiceTwoScenario 1
      (waitStep "four ticks" (ticksAtLeast 4)) { Name := "", Namespace := "" } 2
      { registered := true,
        objs := [("ConfigMap", "cm0"), ("ConfigMap", "cm1"), ("ConfigMap", "cm2"),
                 ("Tick", "tick"), ("Tick", "tick")] } =
      some { registered := true,
             objs := [("ConfigMap", "cm0"), ("ConfigMap", "cm1"), ("ConfigMap", "cm2"),
                      ("Tick", "tick"), ("Tick", "tick"), ("Tick", "tick"), ("Tick", "tick")] } := by
    simp [run.firstSucceedsOn, run.reconcileIteration, twiceTwoScenario,
      readyScenario, waitStep, ticksAtLeast, sampleEnv, tickingReconcile,
      errorsIsTerminal, IsNotFound, GoError.isNotFound, scenario.newObjectInstance]
  exact ⟨2, [2], _, rfl, h1, 2, [], _, rfl, h2, rfl⟩

/-- Witness of C11: two conditions that each hold on the second attempt, under a budget of
two: the run succeeds with four invocations. -/
theorem C11_budget_per_step_witness :
    ((twiceTwoScenario.run (sampleEnv tickingReconcile) sampleStore).1 = .returned none ∧
      (twiceTwoScenario.run (sampleEnv tickingReconcile) sampleStore).2.2.countP Event.isInvocation =
        [2, 2].sum ∧
      (∀ i, (twiceTwoScenario.run (sampleEnv tickingReconcile) sampleStore).2.2.countP
        (Event.isReconcile i) ≤ twiceTwoScenario.maxReconciles.toNat)) ∧
    twiceTwoScenario.maxReconciles = 2 ∧ [2, 2].sum = 4 :=
  ⟨C11_budget_per_step (sampleEnv tickingReconcile) twiceTwoScenario sampleStore [2, 2]
      sample_twice_two (by decide),
    rfl, rfl⟩

/-! ## The initial state from builders -/

/-- The loop of the producer registered by `Setup`: started on the objects `objs`, it ends
with `objs` followed by what each builder yields, in the order of the builders. -/
theorem Setup.producer_loop (builders : List (W → List Obj)) (w : W) (objs : List Obj) :
    builders.foldl (fun objs b => objs ++ b w) objs = objs ++ (builders.map (fun b => b w)).flatten := by
  induction builders generalizing objs with
  | nil => simp
  | cons b rest ih => simp [List.foldl_cons, ih, List.append_assoc]

/-- Claim C21: the producer that `Setup(b1, ..., bn)` registers returns, in whatever state it
is invoked, the objects of `b1`, then those of `b2`, and so on, each as the builder yields
them in that state: the empty list when there is no builder or when every builder yields
nothing.  The call `Setup` itself assigns the producer and nothing else; the builders are
read when `setupEnv` invokes the producer, in the state the run starts from: on a scenario
with at least one step whose scheme is made, the client is built from the objects the
builders yield in that state, and the producer is invoked once, after the schema callbacks. -/
theorem C21_setup_concatenates_builders (env : Collaborators W T Obj Sch)
    (s : scenario W T Obj Sch) (builders : List (W → List Obj)) (w : W) (scheme : Sch)
    (tr : List (Event W T))
    (hsteps : s.steps.length ≠ 0) (hscheme : s.makeScheme env = (.ok scheme, tr)) :
    ∃ producer : W → List Obj,
      (s.Setup builders).setup = some producer ∧
      (∀ w1, producer w1 = (builders.map (fun b => b w1)).flatten) ∧
      (∀ w1, builders = [] → producer w1 = []) ∧
      (∀ w1, (∀ b ∈ builders, b w1 = []) → producer w1 = []) ∧
      { s.Setup builders with setup := s.setup } = s ∧
      ((s.Setup builders).setupEnv env w).scenario.client =
        some { scheme := scheme, objs := (builders.map (fun b => b w)).flatten } ∧
      ((s.Setup builders).setupEnv env w).world =
        env.Build w scheme (builders.map (fun b => b w)).flatten ∧
      ((s.Setup builders).setupEnv env w).trace = tr ++ [.setup, .buildClient, .newReconciler] := by
  have hprod : ∀ w1, builders.foldl (fun objs b => objs ++ b w1) [] =
      (builders.map (fun b => b w1)).flatten := by
    intro w1
    rw [Setup.producer_loop, List.nil_append]
  have hs : (s.Setup builders).makeScheme env = (.ok scheme, tr) := hscheme
  have hl : (s.Setup builders).steps.length ≠ 0 := hsteps
  refine ⟨fun w1 => builders.foldl (fun (objs : List Obj) (b : W → List Obj) => objs ++ b w1) [],
    rfl, hprod, ?_, ?_, rfl, ?_⟩
  · intro w1 hb
    rw [hb]
    rfl
  · intro w1 hb
    show builders.foldl (fun objs b => objs ++ b w1) [] = []
    rw [hprod]
    simp only [List.flatten_eq_nil_iff, List.mem_map]
    rintro l ⟨b, hmem, rfl⟩
    exact hb b hmem
  · unfold scenario.setupEnv
    rw [if_neg hl, hs]
    simp only [scenario.Setup, scenario.SetupObjects, scenario.createReconcilerWithClient]
    rw [hprod]
    cases env.reconcilerClientField <;> simp

/-- Witness of C21: three builders on the scenario "minimal", the second of which yields
nothing and the third of which reads the state it is invoked in. -/
theorem C21_setup_concatenates_builders_witness :
    ∃ producer : SampleStore → List (String × String),
      (minimalScenario.Setup [twoNodes, noObjects, storedConfigMaps]).setup = some producer ∧
      (∀ w1, producer w1 =
        ([twoNodes, noObjects, storedConfigMaps].map (fun b => b w1)).flatten) ∧
      (∀ w1, [twoNodes, noObjects, storedConfigMaps] = [] → producer w1 = []) ∧
      (∀ w1, (∀ b ∈ [twoNodes, noObjects, storedConfigMaps], b w1 = []) → producer w1 = []) ∧
      { minimalScenario.Setup [twoNodes, noObjects, storedConfigMaps] with
        setup := minimalScenario.setup } = minimalScenario ∧
      ((minimalScenario.Setup [twoNodes, noObjects, storedConfigMaps]).setupEnv
          (sampleEnv sampleReconcile) nodeStore).scenario.client =
        some { scheme := 1,
               objs := ([twoNodes, noObjects, storedConfigMaps].map (fun b => b nodeStore)).flatten } ∧
      ((minimalScenario.Setup [twoNodes, noObjects, storedConfigMaps]).setupEnv
          (sampleEnv sampleReconcile) nodeStore).world =
        (sampleEnv sampleReconcile).Build nodeStore 1
          ([twoNodes, noObjects, storedConfigMaps].map (fun b => b nodeStore)).flatten ∧
      ((minimalScenario.Setup [twoNodes, noObjects, storedConfigMaps]).setupEnv
          (sampleEnv sampleReconcile) nodeStore).trace =
        [.addToScheme 0] ++ [.setup, .buildClient, .newReconciler] :=
  C21_setup_concatenates_builders (sampleEnv sampleReconcile) minimalScenario
    [twoNodes, noObjects, storedConfigMaps] nodeStore 1 [.addToScheme 0] (by decide) rfl

/-! ## The budget at its edges -/

theorem run.reconcileLoop_no_budget (env : Collaborators W T Obj Sch) (s : scenario W T Obj Sch)
    (idx : Nat) (step : reconcileStep W T Obj Sch) (nextReq : NamespacedName) (w : W)
    (hn : s.maxReconciles ≤ 0) :
    run.reconcileLoop env s idx step nextReq 0 w = (.done 0, w, []) := by
  rw [run.reconcileLoop]
  simp only [not_lt.mpr hn, if_false]

theorem run.stepsLoop_before (env : Collaborators W T Obj Sch) (s : scenario W T Obj Sch)
    (pre : List (reconcileStep W T Obj Sch)) (w : W) (key : NamespacedName) :
    ∀ e ∈ (run.stepsLoop env s pre 0 key w).2.2, e.step ≠ some pre.length := by
  intro e he
  obtain ⟨j, hj, _, hlt⟩ := run.stepsLoop_step env s pre 0 key w e he
  rw [hj]
  simp only [ne_eq, Option.some.injEq]
  omega

/-- Claim C23: `WithMaxReconciles n` stores `n` as the budget, whatever integer it is, and
changes nothing else.  Under a budget that is zero or negative, a WaitForCondition step that
`run` reaches makes `run` return the exhaustion error, whose text ends in
"too many reconcile loops (n)" with the budget in decimal, in the world and with the trace in
which the step was reached: the step makes no call at all, so the reconciler is not invoked
and the predicate is not evaluated.  Nothing is asked of the predicate. -/
theorem C23_non_positive_budget (env : Collaborators W T Obj Sch) (s : scenario W T Obj Sch)
    (pre : List (reconcileStep W T Obj Sch)) (step : reconcileStep W T Obj Sch)
    (post : List (reconcileStep W T Obj Sch)) (w : W) (key : NamespacedName) (w0 : W)
    (tr0 : List (Event W T))
    (hsteps : s.steps = pre ++ step :: post)
    (hreach : run.stepsLoop env s pre 0 { Name := "", Namespace := "" } w = (.done key, w0, tr0))
    (hkind : step.nextReq = none)
    (hn : s.maxReconciles ≤ 0) :
    (∀ n : Int, (s.WithMaxReconciles n).maxReconciles = n ∧
      { s.WithMaxReconciles n with maxReconciles := s.maxReconciles } = s) ∧
    (∃ err front, s.run env w = (.returned (some err), w0, tr0) ∧
      err.Error = front ++ "too many reconcile loops (" ++ toString s.maxReconciles ++ ")") ∧
    (∀ e ∈ (s.run env w).2.2, e.step ≠ some pre.length) ∧
    (s.run env w).2.2.countP (Event.isReconcile pre.length) = 0 ∧
    (∀ wp obj res, Event.waitFor pre.length wp obj res ∉ (s.run env w).2.2) := by
  have hloop := run.reconcileLoop_no_budget env s pre.length step key w0 hn
  have h := (run.at_wait_step env s pre step post w key w0 tr0 hsteps hreach hkind).2.2 0
  rw [hloop] at h
  have hrun := h rfl hn
  simp only [List.append_nil] at hrun
  have hbefore := run.stepsLoop_before env s pre w { Name := "", Namespace := "" }
  rw [hreach] at hbefore
  have hlit : "` not satisfied, too many reconcile loops (" =
      "` not satisfied, " ++ "too many reconcile loops (" := by decide
  refine ⟨fun n => ⟨rfl, rfl⟩,
    ⟨_, "`" ++ (if step.label = "" then "waiting condition #" ++ toString pre.length else step.label)
        ++ "` not satisfied, ", hrun, ?_⟩, ?_, ?_, ?_⟩
  · simp only [GoError.Error]
    rw [hlit]
    simp only [String.append_assoc]
  · rw [hrun]
    exact hbefore
  · rw [hrun]
    exact (Event.countP_other_step tr0 pre.length hbefore).2.2
  · intro wp obj res hmem
    rw [hrun] at hmem
    exact hbefore _ hmem rfl

/-- Witness of C23: a budget of minus three and a predicate that holds at once, behind a
SetTarget step. -/
theorem C23_non_positive_budget_witness :
    (∀ n : Int,
      (((readyScenario 20 [targetStep "cm0", waitStep "ready" alwaysSatisfied]).WithMaxReconciles
        (-3)).WithMaxReconciles n).maxReconciles = n ∧
      { ((readyScenario 20 [targetStep "cm0", waitStep "ready" alwaysSatisfied]).WithMaxReconciles
          (-3)).WithMaxReconciles n with
        maxReconciles :=
          ((readyScenario 20 [targetStep "cm0", waitStep "ready" alwaysSatisfied]).WithMaxReconciles
            (-3)).maxReconciles } =
        (readyScenario 20 [targetStep "cm0", waitStep "ready" alwaysSatisfied]).WithMaxReconciles
          (-3)) ∧
    (∃ err front,
      ((readyScenario 20 [targetStep "cm0", waitStep "ready" alwaysSatisfied]).WithMaxReconciles
        (-3)).run (sampleEnv sampleReconcile) sampleStore =
        (.returned (some err), sampleStore, [.nextReq 0 sampleStore]) ∧
      err.Error = front ++ "too many reconcile loops (" ++
        toString ((readyScenario 20 [targetStep "cm0", waitStep "ready" alwaysSatisfied]).WithMaxReconciles
          (-3)).maxReconciles ++ ")") ∧
    (∀ e ∈ (((readyScenario 20 [targetStep "cm0", waitStep "ready" alwaysSatisfied]).WithMaxReconciles
        (-3)).run (sampleEnv sampleReconcile) sampleStore).2.2,
      e.step ≠ some [targetStep "cm0"].length) ∧
    (((readyScenario 20 [targetStep "cm0", waitStep "ready" alwaysSatisfied]).WithMaxReconciles
        (-3)).run (sampleEnv sampleReconcile) sampleStore).2.2.countP
      (Event.isReconcile [targetStep "cm0"].length) = 0 ∧
    (∀ wp obj res, Event.waitFor [targetStep "cm0"].length wp obj res ∉
      (((readyScenario 20 [targetStep "cm0", waitStep "ready" alwaysSatisfied]).WithMaxReconciles
        (-3)).run (sampleEnv sampleReconcile) sampleStore).2.2) :=
  C23_non_positive_budget (sampleEnv sampleReconcile)
    ((readyScenario 20 [targetStep "cm0", waitStep "ready" alwaysSatisfied]).WithMaxReconciles (-3))
    [targetStep "cm0"] (waitStep "ready" alwaysSatisfied) [] sampleStore
    { Name := "cm0", Namespace := "cm" } sampleStore [.nextReq 0 sampleStore] rfl rfl rfl
    (by decide)

theorem Event.countP_isReconcile_of_step (tr : List (Event W T)) (idx : Nat)
    (h : ∀ e ∈ tr, e.step = some idx) :
    tr.countP (Event.isReconcile idx) = tr.countP Event.isInvocation := by
  apply List.countP_congr
  intro e he
  have := h e he
  cases e <;> simp [Event.step] at this <;> simp [Event.isReconcile, Event.isInvocation, this]

theorem sample_two_ticks :
    run.firstSucceedsOn (sampleEnv tickingReconcile) twiceTwoScenario 0
      (waitStep "two ticks" (ticksAtLeast 2)) { Name := "", Namespace := "" } 2 sampleStore =
      some { registered := true,
             objs := [("ConfigMap", "cm0"), ("ConfigMap", "cm1"), ("ConfigMap", "cm2"),
                      ("Tick", "tick"), ("Tick", "tick")] } := by
  simp [run.firstSucceedsOn, run.reconcileIteration, twiceTwoScenario,
    readyScenario, waitStep, ticksAtLeast, sampleEnv, tickingReconcile, sampleStore,
    errorsIsTerminal, IsNotFound, GoError.isNotFound, scenario.newObjectInstance]

/-- Claim C22: take a WaitForCondition step at position `pre.length` that `run` reaches, whose
predicate first answers true on the attempt number `k` made from there (the attempts before
it end with the predicate answering false: no terminal error, no fatal fetch error), with
`k` at most the budget.  Then `k` is at least 1, the retries of the step end by the `break`
after exactly `k` invocations of the reconciler, `run` goes on with the steps after it, from
the world the attempt `k` left and with the same key, and the whole run holds exactly `k`
invocations of the reconciler by this step; when the step is the last one, `run` returns nil.
This holds for `k` equal to the budget as well. -/
theorem C22_success_within_budget (env : Collaborators W T Obj Sch) (s : scenario W T Obj Sch)
    (pre : List (reconcileStep W T Obj Sch)) (step : reconcileStep W T Obj Sch)
    (post : List (reconcileStep W T Obj Sch)) (w : W) (key : NamespacedName) (w0 : W)
    (tr0 : List (Event W T)) (k : Nat) (w1 : W)
    (hsteps : s.steps = pre ++ step :: post)
    (hreach : run.stepsLoop env s pre 0 { Name := "", Namespace := "" } w = (.done key, w0, tr0))
    (hkind : step.nextReq = none)
    (hfirst : run.firstSucceedsOn env s pre.length step key k w0 = some w1)
    (hk : (k : Int) ≤ s.maxReconciles) :
    1 ≤ k ∧
    ∃ tr1,
      run.reconcileLoop env s pre.length step key 0 w0 = (.done 0, w1, tr1) ∧
      tr1.countP (Event.isReconcile pre.length) = k ∧
      s.run env w = run.finish (tr0 ++ tr1) (run.stepsLoop env s post (pre.length + 1) key w1) ∧
      (s.run env w).2.2.countP (Event.isReconcile pre.length) = k ∧
      (post = [] → s.run env w = (.returned none, w1, tr0 ++ tr1)) := by
  have hk1 : 1 ≤ k := by
    cases k with
    | zero => simp [run.firstSucceedsOn] at hfirst
    | succ k => omega
  obtain ⟨tr1, hloop, hcount⟩ :=
    run.reconcileLoop_firstSucceedsOn env s pre.length step key k w0 w1 0 hfirst (by omega)
  have hstep1 := run.reconcileLoop_step env s pre.length step key 0 w0
  rw [hloop] at hstep1
  have hcount1 : tr1.countP (Event.isReconcile pre.length) = k := by
    rw [Event.countP_isReconcile_of_step tr1 pre.length hstep1, hcount]
  have hbefore := run.stepsLoop_before env s pre w { Name := "", Namespace := "" }
  rw [hreach] at hbefore
  have hafter : ∀ e ∈ (run.stepsLoop env s post (pre.length + 1) key w1).2.2,
      e.step ≠ some pre.length := by
    intro e he
    obtain ⟨j, hj, hle, _⟩ := run.stepsLoop_step env s post (pre.length + 1) key w1 e he
    rw [hj]
    simp only [ne_eq, Option.some.injEq]
    omega
  have hlt : ¬ (0 : Int) ≥ s.maxReconciles := by omega
  have hrun : s.run env w =
      run.finish (tr0 ++ tr1) (run.stepsLoop env s post (pre.length + 1) key w1) := by
    rw [run.stepsLoop_reached env s pre step post w key w0 tr0 hsteps hreach]
    simp only [run.stepsLoop, hkind, hloop, hlt, if_false]
    generalize run.stepsLoop env s post (pre.length + 1) key w1 = r1
    obtain ⟨ex, w2, tr2⟩ := r1
    cases ex <;> simp [run.finish, List.append_assoc]
  refine ⟨hk1, tr1, hloop, hcount1, hrun, ?_, ?_⟩
  · rw [hrun]
    have h0 := (Event.countP_other_step tr0 pre.length hbefore).2.2
    have h2 := (Event.countP_other_step _ pre.length hafter).2.2
    generalize run.stepsLoop env s post (pre.length + 1) key w1 = r1 at h2
    obtain ⟨ex, w2, tr2⟩ := r1
    cases ex <;> simp only [run.finish, List.countP_append, h0, hcount1] <;>
      simp only [] at h2 <;> omega
  · intro hpost
    rw [hrun, hpost]
    simp [run.stepsLoop, run.finish]

/-- Witness of C22: under a budget of two, a condition that first holds on the second
attempt, followed by another step. -/
theorem C22_success_within_budget_witness :
    1 ≤ 2 ∧
    ∃ tr1,
      run.reconcileLoop (sampleEnv tickingReconcile) twiceTwoScenario
          ([] : List (reconcileStep SampleStore String (String × String) Nat)).length
          (waitStep "two ticks" (ticksAtLeast 2)) { Name := "", Namespace := "" } 0 sampleStore =
        (.done 0,
          { registered := true,
            objs := [("ConfigMap", "cm0"), ("ConfigMap", "cm1"), ("ConfigMap", "cm2"),
                     ("Tick", "tick"), ("Tick", "tick")] }, tr1) ∧
      tr1.countP (Event.isReconcile
        ([] : List (reconcileStep SampleStore String (String × String) Nat)).length) = 2 ∧
      twiceTwoScenario.run (sampleEnv tickingReconcile) sampleStore =
        run.finish ([] ++ tr1)
          (run.stepsLoop (sampleEnv tickingReconcile) twiceTwoScenario
            [waitStep "four ticks" (ticksAtLeast 4)]
            (([] : List (reconcileStep SampleStore String (String × String) Nat)).length + 1)
            { Name := "", Namespace := "" }
            { registered := true,
              objs := [("ConfigMap", "cm0"), ("ConfigMap", "cm1"), ("ConfigMap", "cm2"),
                       ("Tick", "tick"), ("Tick", "tick")] }) ∧
      (twiceTwoScenario.run (sampleEnv tickingReconcile) sampleStore).2.2.countP
        (Event.isReconcile
          ([] : List (reconcileStep SampleStore String (String × String) Nat)).length) = 2 ∧
      ([waitStep "four ticks" (ticksAtLeast 4)] = [] →
        twiceTwoScenario.run (sampleEnv tickingReconcile) sampleStore =
          (.returned none,
            { registered := true,
              objs := [("ConfigMap", "cm0"), ("ConfigMap", "cm1"), ("ConfigMap", "cm2"),
                       ("Tick", "tick"), ("Tick", "tick")] }, [] ++ tr1)) :=
  C22_success_within_budget (sampleEnv tickingReconcile) twiceTwoScenario []
    (waitStep "two ticks" (ticksAtLeast 2)) [waitStep "four ticks" (ticksAtLeast 4)] sampleStore
    { Name := "", Namespace := "" } sampleStore [] 2 _ rfl rfl rfl sample_two_ticks (by decide)

/-! ## The status of the nodes monitor -/

theorem NodesMonitorStatus.DeepCopy_loop (conds : List Condition) (out : NodesMonitorStatus) :
    conds.foldl
        (fun (out : NodesMonitorStatus) (c : Condition) =>
          { out with
            Conditions := out.Conditions ++
              [{ type := c.type
                 Status := c.Status
                 ObservedGeneration := 0
                 Reason := c.Reason
                 Message := c.Message
                 LastTransitionTime := c.LastTransitionTime }] })
        out =
      { out with
        Conditions := out.Conditions ++ conds.map (fun c => { c with ObservedGeneration := 0 }) } := by
  induction conds generalizing out with
  | nil => simp
  | cons c rest ih => simp [List.foldl_cons, ih, List.append_assoc]

/-- What `DeepCopy` returns for a non-nil status: the same `NumNodes` and `Active`, and the
conditions in the same order with every field but `ObservedGeneration`, which is 0. -/
theorem NodesMonitorStatus.DeepCopy_eq (s : NodesMonitorStatus) :
    NodesMonitorStatus.DeepCopy (some s) =
      some { s with Conditions := s.Conditions.map (fun c => { c with ObservedGeneration := 0 }) } := by
  simp [NodesMonitorStatus.DeepCopy, NodesMonitorStatus.DeepCopy_loop]

/-- Claim C26, at the failing input: the copy of a status whose only condition has observed
generation 3 has the same `NumNodes` and `Active` and one condition with the same `Type`,
`Status`, `LastTransitionTime`, `Reason` and `Message`, but observed generation 0.  The copy
made through `NodesMonitor.DeepCopy` loses it the same way. -/
theorem C26_deep_copy_drops_observed_generation :
    NodesMonitorStatus.DeepCopy (some observedStatus) =
      some { NumNodes := 3
             Active := true
             Conditions :=
               [{ type := "ThresholdExceeded"
                  Status := "True"
                  ObservedGeneration := 0
                  LastTransitionTime := 1700000000
                  Reason := "NodesCounted"
                  Message := "Nodes count is above the threshold." }] } ∧
    observedStatus.Conditions.map (fun c => c.ObservedGeneration) = [3] ∧
    NodesMonitorStatus.DeepCopy (some observedStatus) ≠ some observedStatus ∧
    NodesMonitor.DeepCopy
        (some { Name := "nodes-counter", Namespace := "nodes-monitor",
                Spec := { Active := true, AlertThreshold := 2, NodeLabelFilter := "" },
                Status := observedStatus }) ≠
      .returned
        (some { Name := "nodes-counter", Namespace := "nodes-monitor",
                Spec := { Active := true, AlertThreshold := 2, NodeLabelFilter := "" },
                Status := observedStatus }) := by
  refine ⟨by decide, by decide, by decide, by decide⟩

theorem NodesMonitorStatus.GetLatestCondition_eq (nms : NodesMonitorStatus) :
    nms.GetLatestCondition = nms.Conditions.getLast? := by
  unfold NodesMonitorStatus.GetLatestCondition
  rw [List.getLast?_eq_getElem?]
  split
  · rename_i h
    rw [List.length_eq_zero] at h
    simp [h]
  · rfl

/-- What a call of `AddThresholdExceededCondition` does to the status, by the latest
condition: see C24. -/
theorem NodesMonitorStatus.AddThresholdExceededCondition_eq (nms : NodesMonitorStatus)
    (x : Bool) (now : Int) :
    (nms.AddThresholdExceededCondition x now =
        { nms with
          Conditions := nms.Conditions ++
            [{ type := "ThresholdExceeded"
               Status := if x then ConditionTrue else ConditionFalse
               ObservedGeneration := 0
               LastTransitionTime := now
               Reason := ""
               Message := if x then "Nodes count is above the threshold."
                 else "Nodes count is below the threshold." }] } ∧
      ∀ last, nms.Conditions.getLast? = some last →
        last.Status ≠ (if x then ConditionTrue else ConditionFalse)) ∨
    (nms.AddThresholdExceededCondition x now = nms ∧
      ∃ last, nms.Conditions.getLast? = some last ∧
        last.Status = (if x then ConditionTrue else ConditionFalse)) := by
  unfold NodesMonitorStatus.AddThresholdExceededCondition
  rw [NodesMonitorStatus.GetLatestCondition_eq]
  cases hl : nms.Conditions.getLast? with
  | none =>
    left
    cases x <;> simp
  | some last =>
    cases x
    · by_cases hs : ConditionFalse = last.Status
      · right
        simp [hs]
      · left
        simp [hs]
        exact fun h => hs h.symm
    · by_cases hs : ConditionTrue = last.Status
      · right
        simp [hs]
      · left
        simp [hs]
        exact fun h => hs h.symm

theorem NodesMonitorStatus.AddThresholdExceededCondition_alternating (nms : NodesMonitorStatus)
    (x : Bool) (now : Int) (h : Condition.Alternating nms.Conditions) :
    Condition.Alternating (nms.AddThresholdExceededCondition x now).Conditions := by
  rcases NodesMonitorStatus.AddThresholdExceededCondition_eq nms x now with ⟨heq, hne⟩ | ⟨heq, _⟩
  · rw [heq]
    unfold Condition.Alternating at h ⊢
    rw [List.chain'_append]
    refine ⟨h, List.chain'_singleton _, ?_⟩
    intro a ha b hb
    simp only [List.head?_cons, Option.mem_def, Option.some.injEq] at hb
    subst hb
    exact hne a ha
  · rw [heq]
    exact h

theorem NodesMonitorStatus.addAll_prefix (nms : NodesMonitorStatus) (calls : List (Bool × Int)) :
    nms.Conditions <+: (nms.addAll calls).Conditions := by
  unfold NodesMonitorStatus.addAll
  induction calls generalizing nms with
  | nil => exact List.prefix_refl _
  | cons call rest ih =>
    rw [List.foldl_cons]
    refine List.IsPrefix.trans ?_ (ih _)
    rcases NodesMonitorStatus.AddThresholdExceededCondition_eq nms call.1 call.2 with
      ⟨heq, _⟩ | ⟨heq, _⟩ <;> rw [heq]
    exact List.prefix_append _ _

theorem NodesMonitorStatus.addAll_alternating (nms : NodesMonitorStatus)
    (calls : List (Bool × Int)) :
    Condition.Alternating nms.Conditions → Condition.Alternating (nms.addAll calls).Conditions := by
  unfold NodesMonitorStatus.addAll
  induction calls generalizing nms with
  | nil => exact fun h => h
  | cons call rest ih =>
    intro h
    rw [List.foldl_cons]
    exact ih _ (NodesMonitorStatus.AddThresholdExceededCondition_alternating nms call.1 call.2 h)

/-- Claim C24: a call `AddThresholdExceededCondition(x)` made at the instant `now` leaves
`NumNodes` and `Active` as they were and keeps the conditions that were there, in place, at
the front of the list.  When the list is empty, or the status of its last condition is not
the new status ("True" for `x` true, "False" otherwise), the call appends one condition of
type "ThresholdExceeded" with the new status; when the last condition has the new status the
call changes nothing.  So after any sequence of calls the conditions that were there are
still at the front, and a list in which no two adjacent conditions have the same status is
still such a list. -/
theorem C24_no_redundant_conditions (nms : NodesMonitorStatus) (x : Bool) (now : Int)
    (calls : List (Bool × Int)) :
    (nms.AddThresholdExceededCondition x now).NumNodes = nms.NumNodes ∧
    (nms.AddThresholdExceededCondition x now).Active = nms.Active ∧
    nms.Conditions <+: (nms.AddThresholdExceededCondition x now).Conditions ∧
    ((nms.Conditions = [] ∨
        ∃ last, nms.GetLatestCondition = some last ∧
          last.Status ≠ (if x then ConditionTrue else ConditionFalse)) →
      ∃ newCond, (nms.AddThresholdExceededCondition x now).Conditions = nms.Conditions ++ [newCond] ∧
        newCond.type = "ThresholdExceeded" ∧ (newCond.Status = ConditionTrue ↔ x = true) ∧
        (newCond.Status = ConditionFalse ↔ x = false) ∧ newCond.LastTransitionTime = now) ∧
    ((∃ last, nms.GetLatestCondition = some last ∧
          last.Status = (if x then ConditionTrue else ConditionFalse)) →
      nms.AddThresholdExceededCondition x now = nms) ∧
    nms.Conditions <+: (nms.addAll calls).Conditions ∧
    (Condition.Alternating nms.Conditions → Condition.Alternating (nms.addAll calls).Conditions) := by
  have hstep := NodesMonitorStatus.AddThresholdExceededCondition_eq nms x now
  refine ⟨?_, ?_, ?_, ?_, ?_, ?_, ?_⟩
  · rcases hstep with ⟨heq, _⟩ | ⟨heq, _⟩ <;> rw [heq]
  · rcases hstep with ⟨heq, _⟩ | ⟨heq, _⟩ <;> rw [heq]
  · rcases hstep with ⟨heq, _⟩ | ⟨heq, _⟩ <;> rw [heq]
    exact List.prefix_append _ _
  · intro hcase
    rcases hstep with ⟨heq, _⟩ | ⟨_, last, hlast, hs⟩
    · rw [heq]
      refine ⟨_, rfl, rfl, ?_, ?_, rfl⟩ <;> cases x <;> simp [ConditionTrue, ConditionFalse]
    · exfalso
      rcases hcase with hnil | ⟨last1, hlast1, hne⟩
      · rw [hnil] at hlast
        simp at hlast
      · rw [NodesMonitorStatus.GetLatestCondition_eq, hlast] at hlast1
        simp only [Option.some.injEq] at hlast1
        subst hlast1
        exact hne hs
  · rintro ⟨last, hlast, hs⟩
    rcases hstep with ⟨_, hne⟩ | ⟨heq, _⟩
    · rw [NodesMonitorStatus.GetLatestCondition_eq] at hlast
      exact absurd hs (hne last hlast)
    · exact heq
  · exact NodesMonitorStatus.addAll_prefix nms calls
  · exact NodesMonitorStatus.addAll_alternating nms calls

/-! ## The controller of the nodes monitor -/

theorem monitorClient.find_updated (monitors : List NodesMonitor) (nm : NodesMonitor)
    (h : monitors.any (fun stored => stored.key = nm.key) = true) :
    ∃ stored,
      (monitors.map (fun stored =>
          if stored.key = nm.key then { stored with Status := nm.Status } else stored)).find?
        (fun stored => stored.key = nm.key) = some stored ∧
      stored.Status = nm.Status := by
  induction monitors with
  | nil => simp at h
  | cons first rest ih =>
    by_cases hk : first.key = nm.key
    · refine ⟨{ first with Status := nm.Status }, ?_, rfl⟩
      have hk1 : ({ first with Status := nm.Status } : NodesMonitor).key = nm.key := hk
      simp [hk, hk1]
    · simp only [List.any_cons, hk, decide_False, Bool.false_or] at h
      obtain ⟨stored, hfind, hs⟩ := ih h
      refine ⟨stored, ?_, hs⟩
      simp only [List.map_cons, hk, if_false, List.find?_cons, decide_False]
      exact hfind

/-- The sample client meets the contract of a store. -/
theorem monitorClient_contract : StoreContract monitorClient (fun w => w.nodes) := by
  constructor
  · intro w opts _
    rfl
  · intro w nm w1 h
    simp only [monitorClient] at h
    split at h
    · rename_i hany
      simp only [Prod.mk.injEq, true_and] at h
      subst h
      obtain ⟨stored, hfind, hs⟩ := monitorClient.find_updated w.monitors nm hany
      refine ⟨⟨stored, ?_, hs⟩, rfl⟩
      simp only [monitorClient, hfind]
    · simp at h

/-- When `listFilteredNodes` returns a list, on a store, it is the list of the nodes the
monitor counts. -/
theorem NodesMonitorController.listFilteredNodes_ok (c : Client W) (nodes : W → List Node)
    (hstore : StoreContract c nodes) (w : W) (nm : NodesMonitor) (items : List Node)
    (h : NodesMonitorController.listFilteredNodes c w nm = .ok items) :
    items = (nodes w).filter nm.counts := by
  have hlist : ∀ opts, (∀ node, opts.selects node = nm.counts node) →
      (match c.List w opts with
        | (some err, items) => if ¬ err.isNotFound then Except.error err else Except.ok items
        | (none, items) => Except.ok items) = Except.ok items →
      items = (nodes w).filter nm.counts := by
    intro opts hsel hres
    have hlaw := hstore.list w opts
    have hfilter : (nodes w).filter opts.selects = (nodes w).filter nm.counts :=
      List.filter_congr (fun node _ => hsel node)
    rw [hfilter] at hlaw
    cases hl : c.List w opts with
    | mk err got =>
      rw [hl] at hres hlaw
      cases err with
      | none =>
        simp only [Except.ok.injEq] at hres
        subst hres
        exact hlaw (Or.inr rfl)
      | some err =>
        simp only [] at hres
        by_cases hnf : err.isNotFound = true
        · simp only [hnf, not_true_eq_false, if_false, Except.ok.injEq] at hres
          subst hres
          exact hlaw (Or.inl hnf)
        · simp [hnf] at hres
  unfold NodesMonitorController.listFilteredNodes at h
  by_cases hf : nm.Spec.NodeLabelFilter = ""
  · simp only [hf, ne_eq, not_true_eq_false, if_false] at h
    exact hlist _ (fun node => by simp [ListOptions.selects, NodesMonitor.counts, hf]) h
  · simp only [hf, ne_eq, not_false_eq_true, if_true, Client.NewRequirement] at h
    cases hv : c.validateKey nm.Spec.NodeLabelFilter with
    | some err =>
      rw [hv] at h
      simp at h
    | none =>
      rw [hv] at h
      exact hlist _ (fun node => by simp [ListOptions.selects, NodesMonitor.counts, hf]) h

/-- After a call of `AddThresholdExceededCondition` there is a latest condition, and it has
the status the call stands for. -/
theorem NodesMonitorStatus.AddThresholdExceededCondition_latest (nms : NodesMonitorStatus)
    (x : Bool) (now : Int) :
    (nms.AddThresholdExceededCondition x now).NumNodes = nms.NumNodes ∧
    ∃ latest, (nms.AddThresholdExceededCondition x now).GetLatestCondition = some latest ∧
      (latest.Status = ConditionTrue ↔ x = true) ∧
      (latest.Status = ConditionFalse ↔ x = false) ∧
      ((∀ cond ∈ nms.Conditions, cond.type = "ThresholdExceeded") →
        latest.type = "ThresholdExceeded") := by
  have hstatus : ∀ status : String, status = (if x then ConditionTrue else ConditionFalse) →
      ((status = ConditionTrue ↔ x = true) ∧ (status = ConditionFalse ↔ x = false)) := by
    intro status hs
    subst hs
    cases x <;> simp [ConditionTrue, ConditionFalse]
  rcases NodesMonitorStatus.AddThresholdExceededCondition_eq nms x now with
    ⟨heq, _⟩ | ⟨heq, last, hlast, hs⟩
  · rw [heq]
    refine ⟨rfl,
      { type := "ThresholdExceeded"
        Status := if x then ConditionTrue else ConditionFalse
        ObservedGeneration := 0
        LastTransitionTime := now
        Reason := ""
        Message := if x then "Nodes count is above the threshold."
          else "Nodes count is below the threshold." },
      ?_, (hstatus _ rfl).1, (hstatus _ rfl).2, fun _ => rfl⟩
    rw [NodesMonitorStatus.GetLatestCondition_eq]
    simp
  · rw [heq]
    refine ⟨rfl, last, ?_, (hstatus _ hs).1, (hstatus _ hs).2, fun hall => ?_⟩
    · rw [NodesMonitorStatus.GetLatestCondition_eq]
      exact hlast
    · exact hall last (List.mem_of_getLast?_eq_some hlast)

/-- Claim C25: on a store, let a read at the requested key return the monitor `nm`, stored
under that key, with `Spec.Active` and `Status.Active` both true, and let one invocation of
`Reconcile` return no error.  Then the monitor read at that key afterwards has `NumNodes`
equal to the number of nodes of the store that carry the label named by
`Spec.NodeLabelFilter` (of all its nodes when the filter is empty); the nodes of the store
are the same and the result asks for a requeue after one minute.  When that number is not
the `NumNodes` of `nm`, the stored status is the one of `nm` with the new count on which
`AddThresholdExceededCondition` was called with the answer to "the count is at least
`Spec.AlertThreshold`": its latest condition has status "True" exactly when the count is at
least the threshold and "False" otherwise, and is of type "ThresholdExceeded" when the
conditions of `nm` all were.  When the number is the `NumNodes` of `nm`, nothing is written. -/
theorem C25_node_counting (c : Client W) (nodes : W → List Node)
    (hstore : StoreContract c nodes) (now : Int) (w : W) (req : NamespacedName)
    (nm : NodesMonitor)
    (hget : c.Get w req = .ok nm) (hkey : nm.key = req)
    (hspec : nm.Spec.Active = true) (hstatus : nm.Status.Active = true)
    (hret : (NodesMonitorController.Reconcile c now w req).1.2 = none) :
    ∃ stored,
      c.Get (NodesMonitorController.Reconcile c now w req).2 req = .ok stored ∧
      stored.Status.NumNodes = ((nodes w).filter nm.counts).length ∧
      nodes (NodesMonitorController.Reconcile c now w req).2 = nodes w ∧
      (NodesMonitorController.Reconcile c now w req).1.1 =
        { Requeue := false, RequeueAfter := timeMinute } ∧
      ((((nodes w).filter nm.counts).length : Int) ≠ nm.Status.NumNodes →
        stored.Status =
          ({ nm.Status with NumNodes := ((nodes w).filter nm.counts).length }
            ).AddThresholdExceededCondition
              (decide ((((nodes w).filter nm.counts).length : Int) ≥ nm.Spec.AlertThreshold)) now ∧
        ∃ latest, stored.Status.GetLatestCondition = some latest ∧
          (latest.Status = ConditionTrue ↔
            (((nodes w).filter nm.counts).length : Int) ≥ nm.Spec.AlertThreshold) ∧
          (latest.Status = ConditionFalse ↔
            (((nodes w).filter nm.counts).length : Int) < nm.Spec.AlertThreshold) ∧
          ((∀ cond ∈ nm.Status.Conditions, cond.type = "ThresholdExceeded") →
            latest.type = "ThresholdExceeded")) ∧
      ((((nodes w).filter nm.counts).length : Int) = nm.Status.NumNodes →
        (NodesMonitorController.Reconcile c now w req).2 = w ∧ stored = nm) := by
  have hactive : ¬ (nm.Spec.Active ≠ nm.Status.Active) := by
    rw [hspec, hstatus]
    simp
  unfold NodesMonitorController.Reconcile at hret ⊢
  rw [hget] at hret ⊢
  simp only [] at hret ⊢
  rw [if_neg hactive, if_pos hstatus] at hret ⊢
  cases hl : NodesMonitorController.listFilteredNodes c w nm with
  | error err =>
    rw [hl] at hret
    simp at hret
  | ok items =>
    have hitems := NodesMonitorController.listFilteredNodes_ok c nodes hstore w nm items hl
    rw [hl] at hret
    simp only [] at hret ⊢
    rw [← hitems]
    by_cases hsame : (items.length : Int) = nm.Status.NumNodes
    · rw [if_neg (not_not.mpr hsame)]
      exact ⟨nm, hget, hsame.symm, rfl, rfl, fun h => absurd hsame h, fun _ => ⟨rfl, rfl⟩⟩
    · rw [if_pos hsame] at hret ⊢
      generalize hsent : ({ nm with
        Status := ({ nm.Status with NumNodes := (items.length : Int) }
          ).AddThresholdExceededCondition
            (decide ((items.length : Int) ≥ nm.Spec.AlertThreshold)) now } : NodesMonitor) = sent
        at hret ⊢
      cases hu : c.StatusUpdate w sent with
      | mk uerr w1 =>
        rw [hu] at hret
        cases uerr with
        | some err => simp at hret
        | none =>
          obtain ⟨⟨stored, hstored, hs⟩, hnodes⟩ := hstore.update w sent w1 hu
          have hsentkey : sent.key = req := by
            rw [← hsent]
            exact hkey
          rw [hsentkey] at hstored
          have hs1 : stored.Status =
              ({ nm.Status with NumNodes := (items.length : Int) }
                ).AddThresholdExceededCondition
                  (decide ((items.length : Int) ≥ nm.Spec.AlertThreshold)) now := by
            rw [hs, ← hsent]
          have hnum : stored.Status.NumNodes = (items.length : Int) := by
            rw [hs1]
            exact (NodesMonitorStatus.AddThresholdExceededCondition_latest _ _ _).1
          refine ⟨stored, hstored, hnum, hnodes, rfl, fun _ => ⟨hs1, ?_⟩, fun h => absurd h hsame⟩
          rw [hs1]
          obtain ⟨latest, hlatest, htrue, hfalse, htype⟩ :=
            (NodesMonitorStatus.AddThresholdExceededCondition_latest
              { nm.Status with NumNodes := (items.length : Int) }
              (decide ((items.length : Int) ≥ nm.Spec.AlertThreshold)) now).2
          refine ⟨latest, hlatest, ?_, ?_, htype⟩
          · rw [htrue, decide_eq_true_iff]
          · rw [hfalse, decide_eq_false_iff_not, not_le]

theorem sample_threshold_reconcile :
    NodesMonitorController.Reconcile monitorClient 1700000000 thresholdStore
        { Name := "control-plane-counter", Namespace := "nodes-monitor" } =
      (({ Requeue := false, RequeueAfter := timeMinute }, none),
        { thresholdStore with
          monitors :=
            [{ thresholdMonitor with
               Status :=
                 { NumNodes := 3
                   Active := true
                   Conditions :=
                     [{ type := "ThresholdExceeded"
                        Status := "True"
                        ObservedGeneration := 0
                        LastTransitionTime := 1700000000
                        Reason := ""
                        Message := "Nodes count is above the threshold." }] } }] }) := by
  decide

/-- Witness of C25: three control-plane nodes and a worker, a monitor of the control-plane
nodes with threshold 3 that has counted nothing yet: the count becomes 3 and the condition
recorded has status "True". -/
theorem C25_node_counting_witness :
    (∃ stored,
      monitorClient.Get
          (NodesMonitorController.Reconcile monitorClient 1700000000 thresholdStore
            { Name := "control-plane-counter", Namespace := "nodes-monitor" }).2
          { Name := "control-plane-counter", Namespace := "nodes-monitor" } = .ok stored ∧
      stored.Status.NumNodes = (thresholdStore.nodes.filter thresholdMonitor.counts).length ∧
      (NodesMonitorController.Reconcile monitorClient 1700000000 thresholdStore
          { Name := "control-plane-counter", Namespace := "nodes-monitor" }).2.nodes =
        thresholdStore.nodes ∧
      (NodesMonitorController.Reconcile monitorClient 1700000000 thresholdStore
          { Name := "control-plane-counter", Namespace := "nodes-monitor" }).1.1 =
        { Requeue := false, RequeueAfter := timeMinute } ∧
      (((thresholdStore.nodes.filter thresholdMonitor.counts).length : Int) ≠
          thresholdMonitor.Status.NumNodes →
        stored.Status =
          ({ thresholdMonitor.Status with
              NumNodes := (thresholdStore.nodes.filter thresholdMonitor.counts).length }
            ).AddThresholdExceededCondition
              (decide (((thresholdStore.nodes.filter thresholdMonitor.counts).length : Int) ≥
                thresholdMonitor.Spec.AlertThreshold)) 1700000000 ∧
        ∃ latest, stored.Status.GetLatestCondition = some latest ∧
          (latest.Status = ConditionTrue ↔
            ((thresholdStore.nodes.filter thresholdMonitor.counts).length : Int) ≥
              thresholdMonitor.Spec.AlertThreshold) ∧
          (latest.Status = ConditionFalse ↔
            ((thresholdStore.nodes.filter thresholdMonitor.counts).length : Int) <
              thresholdMonitor.Spec.AlertThreshold) ∧
          ((∀ cond ∈ thresholdMonitor.Status.Conditions, cond.type = "ThresholdExceeded") →
            latest.type = "ThresholdExceeded")) ∧
      ((((thresholdStore.nodes.filter thresholdMonitor.counts).length : Int) =
          thresholdMonitor.Status.NumNodes) →
        (NodesMonitorController.Reconcile monitorClient 1700000000 thresholdStore
          { Name := "control-plane-counter", Namespace := "nodes-monitor" }).2 = thresholdStore ∧
        stored = thresholdMonitor)) ∧
    (thresholdStore.nodes.filter thresholdMonitor.counts).length = 3 ∧
    thresholdStore.nodes.length = 4 ∧
    ((thresholdStore.nodes.filter thresholdMonitor.counts).length : Int) ≥
      thresholdMonitor.Spec.AlertThreshold :=
  ⟨C25_node_counting monitorClient (fun w => w.nodes) monitorClient_contract 1700000000
      thresholdStore { Name := "control-plane-counter", Namespace := "nodes-monitor" }
      thresholdMonitor rfl (by decide) (by decide) (by decide)
      (by rw [sample_threshold_reconcile]),
    by decide, by decide, by decide⟩

end Epistatest
